import Mathlib

/-! # Stellar-Network: a verification development

Shallow embedding of `src/stellar.js` (class `StellarManager`) and `src/wallet.js`
(class `WalletManager`).

The JavaScript runtime is modelled as far as the two files use it:

* Number values are IEEE-754 binary64 values, carried by their exact rational value;
  every arithmetic result is rounded to the nearest binary64 value, ties to even.
  Negative zero is identified with zero: no operation the two files apply to a
  number tells them apart.
* Strings are Lean strings (for the ASCII text the files handle, code units and
  characters coincide).
* `await` on a rejected promise is a `throw`; an `async` function that throws is a
  function whose completion is `Except.error`.
* Calls to `console.log` and `console.error` are left out; the property reads in their
  arguments are kept.
-/


/-! ## Number values -/

/-- An ECMAScript Number value. -/
inductive JSNumber
  | nan
  | posInf
  | negInf
  | finite (q : ℚ)
deriving DecidableEq

/-- Number of binary digits of `n`, counted with `fuel` halvings at most. -/
def bitLengthAux : ℕ → ℕ → ℕ
  | 0, _ => 0
  | fuel + 1, n => if n = 0 then 0 else bitLengthAux fuel (n / 2) + 1

/-- Number of binary digits of `n`: `2 ^ (bitLength n - 1) ≤ n < 2 ^ bitLength n` for `n > 0`. -/
def bitLength (n : ℕ) : ℕ := bitLengthAux n n

/-- The integer `k` with `2 ^ k ≤ q < 2 ^ (k + 1)`, for positive `q`. -/
def floorLog2 (q : ℚ) : ℤ :=
  let n := q.num.natAbs
  let d := q.den
  let k : ℤ := (bitLength n : ℤ) - (bitLength d : ℤ)
  if d * 2 ^ k.toNat ≤ n * 2 ^ (-k).toNat then k else k - 1

/-- Exponent of the unit in the last place of the binary64 interval that holds the
positive rational `q`: 53 significant bits, and no exponent below `-1074`. -/
def ulpExponent (q : ℚ) : ℤ := max (floorLog2 q - 52) (-1074)

/-- Nearest integer, ties to the even one. -/
def roundHalfEven (q : ℚ) : ℤ :=
  let f := ⌊q⌋
  let r := q - f
  if r < 1 / 2 then f else if 1 / 2 < r then f + 1 else if f % 2 = 0 then f else f + 1

/-- Round a positive rational to the binary64 grid, before the overflow check. -/
def roundToGrid (q : ℚ) : ℚ :=
  (roundHalfEven (q / (2 : ℚ) ^ ulpExponent q) : ℚ) * (2 : ℚ) ^ ulpExponent q

/-- The Number value for a real (here rational) `x`: `𝔽(x)` of ECMA-262 §6.1.6.1. -/
def JSNumber.ofRat (x : ℚ) : JSNumber :=
  if x = 0 then .finite 0
  else if 0 < x then
    (if roundToGrid x < (2 : ℚ) ^ (1024 : ℕ) then .finite (roundToGrid x) else .posInf)
  else
    (if roundToGrid (-x) < (2 : ℚ) ^ (1024 : ℕ) then .finite (-roundToGrid (-x)) else .negInf)

/-- `Number::multiply`. -/
def JSNumber.mul : JSNumber → JSNumber → JSNumber
  | .nan, _ => .nan
  | _, .nan => .nan
  | .finite a, .finite b => JSNumber.ofRat (a * b)
  | .finite a, .posInf => if a = 0 then .nan else if 0 < a then .posInf else .negInf
  | .finite a, .negInf => if a = 0 then .nan else if 0 < a then .negInf else .posInf
  | .posInf, .finite b => if b = 0 then .nan else if 0 < b then .posInf else .negInf
  | .negInf, .finite b => if b = 0 then .nan else if 0 < b then .negInf else .posInf
  | .posInf, .posInf => .posInf
  | .posInf, .negInf => .negInf
  | .negInf, .posInf => .negInf
  | .negInf, .negInf => .posInf

/-- `Number::divide`; a zero divisor is the positive zero. -/
def JSNumber.div : JSNumber → JSNumber → JSNumber
  | .nan, _ => .nan
  | _, .nan => .nan
  | .finite a, .finite b =>
      if b = 0 then (if a = 0 then .nan else if 0 < a then .posInf else .negInf)
      else JSNumber.ofRat (a / b)
  | .finite _, .posInf => .finite 0
  | .finite _, .negInf => .finite 0
  | .posInf, .finite b => if 0 ≤ b then .posInf else .negInf
  | .negInf, .finite b => if 0 ≤ b then .negInf else .posInf
  | .posInf, .posInf => .nan
  | .posInf, .negInf => .nan
  | .negInf, .posInf => .nan
  | .negInf, .negInf => .nan

/-- The relational operator `<` on Numbers: any comparison with NaN is false. -/
def JSNumber.lt : JSNumber → JSNumber → Bool
  | .nan, _ => false
  | _, .nan => false
  | .finite a, .finite b => decide (a < b)
  | .finite _, .posInf => true
  | .finite _, .negInf => false
  | .posInf, _ => false
  | .negInf, .negInf => false
  | .negInf, _ => true

/-- The relational operator `<=` on Numbers. -/
def JSNumber.le : JSNumber → JSNumber → Bool
  | .nan, _ => false
  | _, .nan => false
  | .finite a, .finite b => decide (a ≤ b)
  | .finite _, .posInf => true
  | .finite _, .negInf => false
  | .posInf, .posInf => true
  | .posInf, _ => false
  | .negInf, _ => true

/-- `Math.round`: the nearest integer, a tie going towards `+∞`. -/
def Math.round : JSNumber → JSNumber
  | .finite q => .finite (⌊q + 1 / 2⌋ : ℤ)
  | x => x


/-! ## Decimal text -/

/-- The character of the decimal digit `d`. -/
def digitChar (d : ℕ) : Char := Char.ofNat (48 + d)

/-- Decimal digits of `n`, most significant first, in front of `acc`. -/
def toDecimalAux : ℕ → ℕ → List Char → List Char
  | 0, _, acc => acc
  | fuel + 1, n, acc =>
      if n < 10 then digitChar n :: acc
      else toDecimalAux fuel (n / 10) (digitChar (n % 10) :: acc)

/-- The decimal representation of `n`, most significant digit first (`0` is "0"). -/
def toDecimal (n : ℕ) : List Char := toDecimalAux (n + 1) n []

/-- The natural number a list of decimal digits denotes. -/
def digitsValue (ds : List Char) : ℕ := ds.foldl (fun acc c => 10 * acc + (c.toNat - 48)) 0

/-- `WhiteSpace` and `LineTerminator` code points, which `TrimString` strips. -/
def isWhiteSpace (c : Char) : Bool :=
  c.toNat ∈ [0x9, 0xA, 0xB, 0xC, 0xD, 0x20, 0xA0, 0x1680, 0x2028, 0x2029, 0x202F, 0x205F,
    0x3000, 0xFEFF] || (0x2000 ≤ c.toNat && c.toNat ≤ 0x200A)

/-- The value after an `ExponentIndicator`, if the text starts with an `ExponentPart`. -/
def exponentPart : List Char → Option ℤ
  | c :: rest =>
      if c = 'e' ∨ c = 'E' then
        match rest with
        | '+' :: ds => if (ds.takeWhile Char.isDigit).isEmpty then none
                       else some (digitsValue (ds.takeWhile Char.isDigit) : ℤ)
        | '-' :: ds => if (ds.takeWhile Char.isDigit).isEmpty then none
                       else some (-(digitsValue (ds.takeWhile Char.isDigit) : ℤ))
        | ds => if (ds.takeWhile Char.isDigit).isEmpty then none
                else some (digitsValue (ds.takeWhile Char.isDigit) : ℤ)
      else none
  | [] => none

/-- The mathematical value of the longest prefix that is a `StrUnsignedDecimalLiteral`
other than `Infinity`; `none` when no prefix is one. -/
def unsignedDecimalPrefix (cs : List Char) : Option ℚ :=
  let ip := cs.takeWhile Char.isDigit
  let r1 := cs.dropWhile Char.isDigit
  let fp := match r1 with
    | '.' :: r => r.takeWhile Char.isDigit
    | _ => []
  let r2 := match r1 with
    | '.' :: r => r.dropWhile Char.isDigit
    | _ => r1
  if ip.isEmpty && fp.isEmpty then none
  else
    let mantissa : ℚ := (digitsValue ip : ℚ) + (digitsValue fp : ℚ) / (10 : ℚ) ^ fp.length
    match exponentPart r2 with
    | some e => some (mantissa * (10 : ℚ) ^ e)
    | none => some mantissa

/-- The Number a `StrUnsignedDecimalLiteral` prefix of the text denotes, NaN without one. -/
def unsignedNumberPrefix (cs : List Char) : JSNumber :=
  if "Infinity".data.isPrefixOf cs then .posInf
  else match unsignedDecimalPrefix cs with
    | some q => JSNumber.ofRat q
    | none => .nan

/-- Unary minus. -/
def JSNumber.neg : JSNumber → JSNumber
  | .nan => .nan
  | .posInf => .negInf
  | .negInf => .posInf
  | .finite q => .finite (-q)

/-- The function `parseFloat` applied to a String (ECMA-262 §19.2.4): leading white space
is skipped and the longest prefix that is a `StrDecimalLiteral` is converted. A literal
of any length is rounded exactly, as the engines in use do. -/
def parseFloatString (s : String) : JSNumber :=
  match s.data.dropWhile isWhiteSpace with
  | '+' :: cs => unsignedNumberPrefix cs
  | '-' :: cs => (unsignedNumberPrefix cs).neg
  | cs => unsignedNumberPrefix cs


/-- The integer `n` with `10 ^ (n - 1) ≤ q < 10 ^ n`, for positive `q`. -/
def decimalExponent (q : ℚ) : ℤ :=
  if 1 ≤ q then ((toDecimal ⌊q⌋.toNat).length : ℤ)
  else 1 - ((toDecimal (⌈1 / q⌉.toNat - 1)).length : ℤ)

/-- One step of the search of `Number::toString`: with `k` significant digits, the
integer `s` nearest to `x / 10 ^ (n - k)` for which `s × 10 ^ (n - k)` still converts
to `x`, if there is one. -/
def digitsCandidate (x : ℚ) (n : ℤ) (k : ℕ) : Option ℕ :=
  let scale : ℚ := (10 : ℚ) ^ (n - k)
  let lo : ℕ := ⌊x / scale⌋.toNat
  let hi : ℕ := lo + 1
  let okLo := decide (JSNumber.ofRat (lo * scale) = .finite x)
  let okHi := decide (JSNumber.ofRat (hi * scale) = .finite x)
  if okLo && okHi then
    (if x - lo * scale < hi * scale - x then some lo
     else if hi * scale - x < x - lo * scale then some hi
     else if lo % 2 = 0 then some lo else some hi)
  else if okLo then some lo
  else if okHi then some hi
  else none

/-- The search of `Number::toString` for the least number of digits `k`, from `k`
upwards; the result is `(k, s)`. Seventeen digits always suffice for a binary64 value. -/
def shortestDigitsFrom (x : ℚ) (n : ℤ) : ℕ → ℕ → ℕ × ℕ
  | 0, k => (k, ⌊x / (10 : ℚ) ^ (n - k)⌋.toNat)
  | fuel + 1, k =>
      match digitsCandidate x n k with
      | some s => (k, s)
      | none => shortestDigitsFrom x n fuel (k + 1)

/-- `Number::toString` (radix 10) for a positive finite value (ECMA-262 §6.1.6.1.20,
steps 5 to 12). -/
def positiveToString (x : ℚ) : String :=
  let n0 := decimalExponent x
  let ks := shortestDigitsFrom x n0 17 1
  let k := ks.1
  -- a candidate that reaches `10 ^ k` is the digit string of `10 ^ (k - 1)`, one decade up
  let s := if ks.2 = 10 ^ k then 10 ^ (k - 1) else ks.2
  let n : ℤ := if ks.2 = 10 ^ k then n0 + 1 else n0
  let ds := toDecimal s
  if -5 ≤ n ∧ n ≤ 21 then
    if (k : ℤ) ≤ n then String.mk (ds ++ List.replicate (n - k).toNat '0')
    else if 0 < n then String.mk (ds.take n.toNat ++ '.' :: ds.drop n.toNat)
    else String.mk ('0' :: '.' :: (List.replicate (-n).toNat '0' ++ ds))
  else
    let e := n - 1
    let sign := if 0 ≤ e then '+' else '-'
    if k = 1 then String.mk (ds ++ 'e' :: sign :: toDecimal e.natAbs)
    else String.mk (ds.take 1 ++ '.' :: (ds.drop 1 ++ 'e' :: sign :: toDecimal e.natAbs))

/-- `Number::toString` with radix 10. -/
def JSNumber.toString : JSNumber → String
  | .nan => "NaN"
  | .posInf => "Infinity"
  | .negInf => "-Infinity"
  | .finite q =>
      if q = 0 then "0"
      else if q < 0 then "-" ++ positiveToString (-q)
      else positiveToString q

/-- The digits of `Number.prototype.toFixed` for the integer `n` and `f` fraction digits:
left-padded with zeros to `f + 1` digits, with the point before the last `f`. -/
def fixedDigits (n f : ℕ) : List Char :=
  let m := toDecimal n
  if f = 0 then m
  else
    let m := if m.length ≤ f then List.replicate (f + 1 - m.length) '0' ++ m else m
    m.take (m.length - f) ++ '.' :: m.drop (m.length - f)

/-- `Number.prototype.toFixed(f)` for `0 ≤ f ≤ 100` (ECMA-262 §21.1.3.3). -/
def JSNumber.toFixed (x : JSNumber) (f : ℕ) : String :=
  match x with
  | .finite q =>
      let s := if q < 0 then "-" else ""
      let a := if q < 0 then -q else q
      if (10 : ℚ) ^ (21 : ℕ) ≤ a then s ++ (JSNumber.finite a).toString
      else s ++ String.mk (fixedDigits ⌊a * (10 : ℚ) ^ f + 1 / 2⌋.toNat f)
  | x => x.toString

/-! ## Values -/

/-- An ECMAScript value, as far as the two files handle values as data: primitives,
arrays, and objects that are records of data properties (response bodies, result
objects, and error objects, whose `message` and `response` are such properties). -/
inductive JSValue
  | undefined
  | null
  | bool (b : Bool)
  | number (n : JSNumber)
  | string (s : String)
  | object (props : List (String × JSValue))
  | array (items : List JSValue)

mutual
/-- Structural equality test on values. -/
def JSValue.beq : JSValue → JSValue → Bool
  | .undefined, .undefined => true
  | .null, .null => true
  | .bool a, .bool b => decide (a = b)
  | .number a, .number b => decide (a = b)
  | .string a, .string b => decide (a = b)
  | .object a, .object b => JSValue.beqProps a b
  | .array a, .array b => JSValue.beqItems a b
  | _, _ => false
/-- Structural equality test on property lists. -/
def JSValue.beqProps : List (String × JSValue) → List (String × JSValue) → Bool
  | [], [] => true
  | (k, v) :: a, (l, w) :: b => decide (k = l) && JSValue.beq v w && JSValue.beqProps a b
  | _, _ => false
/-- Structural equality test on element lists. -/
def JSValue.beqItems : List JSValue → List JSValue → Bool
  | [], [] => true
  | v :: a, w :: b => JSValue.beq v w && JSValue.beqItems a b
  | _, _ => false
end

mutual
theorem JSValue.beq_iff : ∀ a b : JSValue, JSValue.beq a b = true ↔ a = b
  | .undefined, b => by cases b <;> simp [JSValue.beq]
  | .null, b => by cases b <;> simp [JSValue.beq]
  | .bool _, b => by cases b <;> simp [JSValue.beq]
  | .number _, b => by cases b <;> simp [JSValue.beq]
  | .string _, b => by cases b <;> simp [JSValue.beq]
  | .object p, b => by
      cases b <;> simp [JSValue.beq]
      exact JSValue.beqProps_iff p _
  | .array p, b => by
      cases b <;> simp [JSValue.beq]
      exact JSValue.beqItems_iff p _
theorem JSValue.beqProps_iff :
    ∀ a b : List (String × JSValue), JSValue.beqProps a b = true ↔ a = b
  | [], b => by cases b <;> simp [JSValue.beqProps]
  | (k, v) :: a, b => by
      cases b with
      | nil => simp [JSValue.beqProps]
      | cons y b =>
        obtain ⟨l, w⟩ := y
        simp [JSValue.beqProps, JSValue.beq_iff v w, JSValue.beqProps_iff a b, and_assoc]
theorem JSValue.beqItems_iff : ∀ a b : List JSValue, JSValue.beqItems a b = true ↔ a = b
  | [], b => by cases b <;> simp [JSValue.beqItems]
  | v :: a, b => by
      cases b with
      | nil => simp [JSValue.beqItems]
      | cons w b => simp [JSValue.beqItems, JSValue.beq_iff v w, JSValue.beqItems_iff a b]
end

instance : DecidableEq JSValue := fun a b => decidable_of_iff _ (JSValue.beq_iff a b)

deriving instance DecidableEq for Except

/-- A Number value that is a natural number. -/
def JSValue.ofNat (n : ℕ) : JSValue := .number (.finite n)

/-- `ToBoolean`. -/
def JSValue.truthy : JSValue → Bool
  | .undefined => false
  | .null => false
  | .bool b => b
  | .number (.finite q) => decide (q ≠ 0)
  | .number .nan => false
  | .number _ => true
  | .string s => decide (s ≠ "")
  | .object _ => true
  | .array _ => true

/-- The values `undefined` and `null`, which have no properties. -/
def JSValue.isNullish : JSValue → Bool
  | .undefined => true
  | .null => true
  | _ => false

/-- The object `new Error(message)`. -/
def newError (message : String) : JSValue := .object [("message", .string message)]

/-- The `TypeError` the runtime throws; the wording of its message is the engine's. -/
def typeError (message : String) : JSValue :=
  .object [("name", .string "TypeError"), ("message", .string message)]

/-- Reading the property `key` of a value (`v.key`): a `TypeError` on `undefined` and
`null`, the own data property on an object, `length` on strings and arrays, and
`undefined` for every other name the two files read. -/
def JSValue.get (v : JSValue) (key : String) : Except JSValue JSValue :=
  match v with
  | .undefined => .error (typeError ("Cannot read properties of undefined (reading " ++ key ++ ")"))
  | .null => .error (typeError ("Cannot read properties of null (reading " ++ key ++ ")"))
  | .object props => .ok ((props.lookup key).getD .undefined)
  | .array items => .ok (if key = "length" then .ofNat items.length else .undefined)
  | .string s => .ok (if key = "length" then .ofNat s.length else .undefined)
  | _ => .ok .undefined

mutual
/-- `ToString` of a value. -/
def JSValue.toStr : JSValue → String
  | .undefined => "undefined"
  | .null => "null"
  | .bool b => if b then "true" else "false"
  | .number n => n.toString
  | .string s => s
  | .object _ => "[object Object]"
  | .array items => JSValue.joinItems "," items
/-- `Array.prototype.join`: the elements as strings, `undefined` and `null` as the empty
string, with `sep` between them. -/
def JSValue.joinItems (sep : String) : List JSValue → String
  | [] => ""
  | [v] => JSValue.itemStr v
  | v :: w :: rest => JSValue.itemStr v ++ sep ++ JSValue.joinItems sep (w :: rest)
/-- The string of one element in `Array.prototype.join`. -/
def JSValue.itemStr : JSValue → String
  | .undefined => ""
  | .null => ""
  | .bool b => if b then "true" else "false"
  | .number n => n.toString
  | .string s => s
  | .object _ => "[object Object]"
  | .array items => JSValue.joinItems "," items
end

/-- The method call `v.toString()`. -/
def JSValue.toStringMethod (v : JSValue) : Except JSValue String :=
  if v.isNullish then .error (typeError ("Cannot read properties of " ++ v.toStr ++ " (reading toString)"))
  else .ok v.toStr

/-- The function `parseFloat`: the argument is converted to a string and the string is
parsed. For a Number argument the string is the one `Number::toString` produces, which
converts back to the same Number, so the Number is the result. -/
def parseFloat : JSValue → JSNumber
  | .number n => n
  | v => parseFloatString v.toStr

/-- The method call `v.join(sep)`: `Array.prototype.join` on an array; no other value
the model holds has a callable `join`. -/
def JSValue.join (v : JSValue) (sep : String) : Except JSValue String :=
  match v with
  | .array items => .ok (JSValue.joinItems sep items)
  | .undefined => .error (typeError "Cannot read properties of undefined (reading join)")
  | .null => .error (typeError "Cannot read properties of null (reading join)")
  | _ => .error (typeError "join is not a function")

/-! ## Collaborators and asynchronous functions -/

/-- A call on a collaborator: the Horizon server object `this.server` (named by its
URL), the `StellarSdk` library, the signer `window.xBullSDK`, or the host. A chain of
builder calls that ends in one request is one call. -/
inductive Call
  /-- The call `this.server.loadAccount(publicKey)`. -/
  | loadAccount (server : String) (publicKey : JSValue)
  /-- The call `this.server.transactions().forAccount(k).order(o).limit(l).call()`. -/
  | transactions (server : String) (forAccount : JSValue) (order : String) (limit : JSValue)
  /-- The call `this.server.fetchBaseFee()`. -/
  | fetchBaseFee (server : String)
  /-- The call `this.server.submitTransaction(transaction)`. -/
  | submitTransaction (server : String) (transaction : JSValue)
  /-- The construction `new StellarSdk.TransactionBuilder(account, options)`, the options
  being `fee` and `networkPassphrase`. -/
  | newTransactionBuilder (sourceAccount : JSValue) (fee : String) (networkPassphrase : String)
  /-- The call `StellarSdk.Operation.createAccount(options)`, the options being
  `destination` and `startingBalance`. -/
  | operationCreateAccount (destination : JSValue) (startingBalance : String)
  /-- The call `StellarSdk.Asset.native()`. -/
  | assetNative
  /-- The call `StellarSdk.Operation.payment(options)`, the options being `destination`,
  `asset` and `amount`. -/
  | operationPayment (destination : JSValue) (asset : JSValue) (amount : String)
  /-- The call `builder.addOperation(operation)`. -/
  | addOperation (builder : JSValue) (operation : JSValue)
  /-- The call `StellarSdk.Memo.text(memo)`. -/
  | memoText (text : JSValue)
  /-- The call `builder.addMemo(memo)`. -/
  | addMemo (builder : JSValue) (memo : JSValue)
  /-- The call `builder.setTimeout(seconds)`. -/
  | setTimeout (builder : JSValue) (seconds : ℕ)
  /-- The call `builder.build()`. -/
  | build (builder : JSValue)
  /-- The call `transaction.toXDR()`. -/
  | toXDR (transaction : JSValue)
  /-- The call `StellarSdk.TransactionBuilder.fromXDR(xdr, networkPassphrase)`. -/
  | fromXDR (xdr : JSValue) (networkPassphrase : String)
  /-- Reading the global `window.xBullSDK` (`undefined` when the extension is absent). -/
  | xBullSDK
  /-- The call `window.xBullSDK.connect(permissions)`, the permissions being
  `canRequestPublicKey` and `canRequestSign`. -/
  | connect (canRequestPublicKey : Bool) (canRequestSign : Bool)
  /-- The call `window.xBullSDK.getPublicKey()`. -/
  | getPublicKey
  /-- The call `window.xBullSDK.signXDR(xdr, options)`, the options being `network` and
  `publicKey`. -/
  | signXDR (xdr : JSValue) (network : String) (publicKey : JSValue)
  /-- The call `new Date(date).toLocaleDateString()`. -/
  | toLocaleDateString (date : JSValue)
deriving DecidableEq

/-- A call that was made, with what it did: returned a value or threw one (for an
awaited call: the promise fulfilled or rejected). -/
structure Event where
  call : Call
  outcome : Except JSValue JSValue
deriving DecidableEq

/-- The calls made so far, oldest first. -/
abbrev Trace := List Event

/-- The collaborators: what a call does, given everything that happened before it. -/
abbrev World := Trace → Call → Except JSValue JSValue

/-- A JavaScript function body over the program state `σ`: run against the
collaborators from a state and a trace, it completes normally or abruptly (`throw`),
and leaves a state and a trace. -/
def Async (σ α : Type) : Type := World → σ → Trace → Except JSValue α × σ × Trace

/-- Normal completion with a value. -/
def Async.pure {σ α : Type} (a : α) : Async σ α := fun _ s t => (.ok a, s, t)

/-- Sequencing: an abrupt completion skips what follows. -/
def Async.bind {σ α β : Type} (m : Async σ α) (f : α → Async σ β) : Async σ β :=
  fun w s t =>
    match m w s t with
    | (.ok a, s1, t1) => f a w s1 t1
    | (.error e, s1, t1) => (.error e, s1, t1)

instance {σ : Type} : Monad (Async σ) where
  pure := Async.pure
  bind := Async.bind

/-- The statement `throw e`. -/
def Async.throw {σ α : Type} (e : JSValue) : Async σ α := fun _ s t => (.error e, s, t)

/-- The statement `try body catch (error) handler`. -/
def Async.tryCatch {σ α : Type} (body : Async σ α) (handler : JSValue → Async σ α) :
    Async σ α :=
  fun w s t =>
    match body w s t with
    | (.ok a, s1, t1) => (.ok a, s1, t1)
    | (.error e, s1, t1) => handler e w s1 t1

/-- A pure step that may throw. -/
def Async.ofExcept {σ α : Type} : Except JSValue α → Async σ α
  | .ok a => Async.pure a
  | .error e => Async.throw e

/-- A call on a collaborator (awaited, where it returns a promise). -/
def perform {σ : Type} (c : Call) : Async σ JSValue :=
  fun w s t => (w t c, s, t ++ [⟨c, w t c⟩])

/-- A method call on a receiver: a `TypeError` when the receiver is `undefined` or
`null`, the collaborator call otherwise. -/
def callOn {σ : Type} (receiver : JSValue) (method : String) (c : Call) : Async σ JSValue :=
  if receiver.isNullish then
    Async.throw (typeError ("Cannot read properties of " ++ receiver.toStr ++ " (reading " ++ method ++ ")"))
  else perform c

/-- Reading the program state. -/
def Async.get {σ : Type} : Async σ σ := fun _ s t => (.ok s, s, t)

/-- Updating the program state. -/
def Async.modify {σ : Type} (f : σ → σ) : Async σ Unit := fun _ s t => (.ok (), f s, t)

/-! ## `src/stellar.js`: class `StellarManager` -/

/-- The fields of a `StellarManager`: the URL its `server` object was created with, and
the network passphrase (held twice, as `network` and `networkPassphrase`). -/
structure StellarManager where
  server : String
  network : String
  networkPassphrase : String
deriving DecidableEq

/-- The constant `StellarSdk.Networks.TESTNET`. -/
def Networks.TESTNET : String := "Test SDF Network ; September 2015"

/-- The constant `StellarSdk.Networks.PUBLIC`. -/
def Networks.PUBLIC : String := "Public Global Stellar Network ; September 2015"

/-- The constructor of `StellarManager`. -/
def StellarManager.new : StellarManager :=
  { server := "https://horizon-testnet.stellar.org"
    network := Networks.TESTNET
    networkPassphrase := Networks.TESTNET }

/-- The method `switchToMainnet`. -/
def StellarManager.switchToMainnet (_self : StellarManager) : StellarManager :=
  { server := "https://horizon.stellar.org"
    network := Networks.PUBLIC
    networkPassphrase := Networks.PUBLIC }

/-- The call `balances.find(balance => balance.asset_type === "native")` on the elements
of an array: the first element whose `asset_type` is the string `native`, `undefined`
when there is none. -/
def findNative : List JSValue → Except JSValue JSValue
  | [] => .ok .undefined
  | balance :: rest =>
      match balance.get "asset_type" with
      | .error e => .error e
      | .ok assetType => if assetType = .string "native" then .ok balance else findNative rest

/-- The expression `account.balances.find(...)` of `getAccountBalance`. -/
def nativeBalance (account : JSValue) : Except JSValue JSValue := do
  let balances ← account.get "balances"
  match balances with
  | .array items => findNative items
  | .undefined => .error (typeError "Cannot read properties of undefined (reading find)")
  | .null => .error (typeError "Cannot read properties of null (reading find)")
  | _ => .error (typeError "find is not a function")

/-- The test `error.response && error.response.status === 404` of the two `catch`
blocks that look for a missing account. -/
def isNotFound (error : JSValue) : Except JSValue Bool := do
  let response ← error.get "response"
  if response.truthy then
    let status ← response.get "status"
    pure (decide (status = .ofNat 404))
  else pure false

/-- The method `getAccountBalance(publicKey)` (lines 19 to 36). -/
def StellarManager.getAccountBalance {σ : Type} (self : StellarManager) (publicKey : JSValue) :
    Async σ JSValue :=
  Async.tryCatch
    (do
      let account ← perform (.loadAccount self.server publicKey)
      let xlmBalance ← Async.ofExcept (nativeBalance account)
      if xlmBalance.truthy then
        let balance ← Async.ofExcept (xlmBalance.get "balance")
        pure (.string ((parseFloat balance).toFixed 7))
      else pure (.string "0"))
    (fun error => do
      let notFound ← Async.ofExcept (isNotFound error)
      if notFound then pure (.string "Account not found")
      else Async.throw error)

/-- The function `tx => (...)` that `getRecentTransactions` maps over the records. -/
def transactionSummary (tx : JSValue) : Except JSValue JSValue := do
  let hash ← tx.get "hash"
  let date ← tx.get "created_at"
  let successful ← tx.get "successful"
  pure (.object [("hash", hash), ("date", date), ("type", .string "Transaction"),
    ("amount", .string "N/A"), ("successful", successful)])

/-- The results of `f` on the elements, in order, up to the first call that throws. -/
def mapItems (f : JSValue → Except JSValue JSValue) : List JSValue → Except JSValue (List JSValue)
  | [] => .ok []
  | v :: rest =>
      match f v with
      | .error e => .error e
      | .ok x =>
          match mapItems f rest with
          | .error e => .error e
          | .ok xs => .ok (x :: xs)

/-- The call `records.map(f)`: `Array.prototype.map` on an array; no other value the
model holds has a callable `map`. -/
def JSValue.map (v : JSValue) (f : JSValue → Except JSValue JSValue) : Except JSValue JSValue :=
  match v with
  | .array items =>
      match mapItems f items with
      | .error e => .error e
      | .ok xs => .ok (.array xs)
  | .undefined => .error (typeError "Cannot read properties of undefined (reading map)")
  | .null => .error (typeError "Cannot read properties of null (reading map)")
  | _ => .error (typeError "map is not a function")

/-- The method `getRecentTransactions(publicKey, limit = 10)` (lines 38 to 58); an
argument `undefined` takes the default. -/
def StellarManager.getRecentTransactions {σ : Type} (self : StellarManager)
    (publicKey : JSValue) (limit : JSValue := .undefined) : Async σ JSValue :=
  let limit := if limit = .undefined then JSValue.ofNat 10 else limit
  Async.tryCatch
    (do
      let transactions ← perform (.transactions self.server publicKey "desc" limit)
      let records ← Async.ofExcept (transactions.get "records")
      Async.ofExcept (records.map transactionSummary))
    (fun _error => pure (.array []))

/-- The inner `try`/`catch` of `sendPayment` (lines 66 to 74): the value of the flag
`createAccount` after probing the destination account. -/
def probeDestination {σ : Type} (self : StellarManager) (destinationPublicKey : JSValue) :
    Async σ Bool :=
  Async.tryCatch
    (do
      let _ ← perform (.loadAccount self.server destinationPublicKey)
      pure false)
    (fun error => Async.ofExcept (isNotFound error))

/-- The operation `sendPayment` adds to the builder (lines 83 to 102): an account
creation when the flag `createAccount` is set, a payment of the native asset otherwise. -/
def addPaymentOperation {σ : Type} (transactionBuilder : JSValue) (createAccount : Bool)
    (destinationPublicKey amount : JSValue) : Async σ Unit :=
  if createAccount then
    if (parseFloat amount).lt (.finite 1) then
      Async.throw (newError "Minimum 1 XLM required to create new account")
    else do
      let startingBalance ← Async.ofExcept amount.toStringMethod
      let operation ← perform (.operationCreateAccount destinationPublicKey startingBalance)
      let _ ← perform (.addOperation transactionBuilder operation)
      pure ()
  else do
    let asset ← perform .assetNative
    let amountString ← Async.ofExcept amount.toStringMethod
    let operation ← perform (.operationPayment destinationPublicKey asset amountString)
    let _ ← perform (.addOperation transactionBuilder operation)
    pure ()

/-- The memo `sendPayment` adds to the builder (lines 104 to 106). -/
def addPaymentMemo {σ : Type} (transactionBuilder memo : JSValue) : Async σ Unit :=
  if memo.truthy then do
    let text ← perform (.memoText memo)
    let _ ← perform (.addMemo transactionBuilder text)
    pure ()
  else pure ()

/-- The end of the `try` block of `sendPayment` (lines 108 to 135): build, sign, submit,
and make the result object. -/
def signAndSubmit {σ : Type} (self : StellarManager) (transactionBuilder sourcePublicKey : JSValue) :
    Async σ JSValue := do
  let timed ← perform (.setTimeout transactionBuilder 30)
  let transaction ← callOn timed "build" (.build timed)
  let transactionXDR ← callOn transaction "toXDR" (.toXDR transaction)
  let signer ← perform .xBullSDK
  let signedXDR ← callOn signer "signXDR"
    (.signXDR transactionXDR self.networkPassphrase sourcePublicKey)
  let signedTransaction ← perform (.fromXDR signedXDR self.networkPassphrase)
  let result ← perform (.submitTransaction self.server signedTransaction)
  let hash ← Async.ofExcept (result.get "hash")
  let ledger ← Async.ofExcept (result.get "ledger")
  pure (.object [("success", .bool true), ("hash", hash), ("ledger", ledger),
    ("result", result)])

/-- The `try` block of `sendPayment` (lines 62 to 135). -/
def sendPaymentBody {σ : Type} (self : StellarManager)
    (sourcePublicKey destinationPublicKey amount memo : JSValue) : Async σ JSValue := do
  let sourceAccount ← perform (.loadAccount self.server sourcePublicKey)
  let createAccount ← probeDestination self destinationPublicKey
  let fee ← perform (.fetchBaseFee self.server)
  let feeString ← Async.ofExcept fee.toStringMethod
  let transactionBuilder ←
    perform (.newTransactionBuilder sourceAccount feeString self.networkPassphrase)
  addPaymentOperation transactionBuilder createAccount destinationPublicKey amount
  addPaymentMemo transactionBuilder memo
  signAndSubmit self transactionBuilder sourcePublicKey

/-- The message the `catch` block of `sendPayment` computes (lines 140 to 152). -/
def paymentErrorMessage (error : JSValue) : Except JSValue JSValue := do
  let response ← error.get "response"
  let data ← if response.truthy then response.get "data" else pure response
  if data.truthy then
    let extras ← data.get "extras"
    let resultCodes ← if extras.truthy then extras.get "result_codes" else pure extras
    if resultCodes.truthy then
      let transaction ← resultCodes.get "transaction"
      let errorMessage := "Transaction failed: " ++ transaction.toStr
      let operations ← resultCodes.get "operations"
      if operations.truthy then
        let joined ← operations.join ", "
        pure (.string (errorMessage ++ " - " ++ joined))
      else pure (.string errorMessage)
    else pure (.string "Unknown error occurred")
  else error.get "message"

/-- The method `sendPayment(sourcePublicKey, destinationPublicKey, amount, memo = "")`
(lines 60 to 159); an argument `undefined` for `memo` takes the default. -/
def StellarManager.sendPayment {σ : Type} (self : StellarManager)
    (sourcePublicKey destinationPublicKey amount : JSValue) (memo : JSValue := .undefined) :
    Async σ JSValue :=
  let memo := if memo = .undefined then JSValue.string "" else memo
  Async.tryCatch
    (sendPaymentBody self sourcePublicKey destinationPublicKey amount memo)
    (fun error => do
      let errorMessage ← Async.ofExcept (paymentErrorMessage error)
      pure (.object [("success", .bool false), ("error", errorMessage)]))

/-- The method `formatAmount(amount, decimals = 7)` (lines 279 to 281), for `decimals`
an integer from 0 to 100, the range in which `toFixed` does not throw. -/
def StellarManager.formatAmount (_self : StellarManager) (amount : JSValue)
    (decimals : ℕ := 7) : String :=
  (parseFloat amount).toFixed decimals

/-- The method `stroopsToXLM(stroops)` (lines 283 to 285). -/
def StellarManager.stroopsToXLM (_self : StellarManager) (stroops : JSValue) : String :=
  ((parseFloat stroops).div (.finite 10000000)).toFixed 7

/-- The method `xlmToStroops(xlm)` (lines 287 to 289). -/
def StellarManager.xlmToStroops (_self : StellarManager) (xlm : JSValue) : JSNumber :=
  Math.round ((parseFloat xlm).mul (.finite 10000000))

/-! ## `src/wallet.js`: class `WalletManager`

The page is taken to hold the elements the methods look up by id, so that a lookup
returns an element; what the methods write to those elements is kept in `Page`. The
timer that removes a status message after five seconds is not modelled. -/

/-- The fields of a `WalletManager`. -/
structure WalletManager where
  isConnected : Bool
  publicKey : JSValue
  walletType : String
  stellarNetwork : String
deriving DecidableEq

/-- What the methods of `WalletManager` write to the page. -/
structure Page where
  /-- The messages appended to `status-messages`, each with its type, oldest first. -/
  statusMessages : List (String × String)
  /-- Whether `wallet-status` carries the class `hidden`. -/
  walletStatusHidden : Bool
  /-- Whether `wallet-info` carries the class `hidden`. -/
  walletInfoHidden : Bool
  /-- Whether `payment-section` carries the class `hidden`. -/
  paymentSectionHidden : Bool
  /-- Whether `history-section` carries the class `hidden`. -/
  historySectionHidden : Bool
  /-- The text content of `wallet-address`. -/
  walletAddressText : String
  /-- The attribute `title` of `wallet-address`. -/
  walletAddressTitle : String
  /-- The text content of `xlm-balance`. -/
  xlmBalanceText : String
  /-- The inner HTML of `transaction-list`. -/
  transactionListHTML : String
deriving DecidableEq

/-- The program state of the page: the global `walletManager`, the global
`stellarManager` (`none` while it is `undefined`), and the page. -/
structure Browser where
  walletManager : WalletManager
  stellarManager : Option StellarManager
  page : Page
deriving DecidableEq

/-- The constructor of `WalletManager` (lines 3 to 10); the listeners it registers are
not part of the state. -/
def WalletManager.new : WalletManager :=
  { isConnected := false
    publicKey := .string "GCJMDI3HPUJGTBXIOFE46FUCGVQXLVIH3M2MKGFRRW45W4WNV6R3Z7DU"
    walletType := "xbull"
    stellarNetwork := "testnet" }

/-- Assignment to `this.publicKey`. -/
def Browser.setPublicKey (b : Browser) (v : JSValue) : Browser :=
  { b with walletManager := { b.walletManager with publicKey := v } }

/-- Assignment to `this.isConnected`. -/
def Browser.setIsConnected (b : Browser) (v : Bool) : Browser :=
  { b with walletManager := { b.walletManager with isConnected := v } }

/-- The method `isXBullAvailable()` (lines 18 to 20). -/
def WalletManager.isXBullAvailable : Async Browser Bool := do
  let sdk ← perform .xBullSDK
  pure (decide (sdk ≠ .undefined))

/-- The method `showStatus(message, type)` (lines 183 to 199). -/
def WalletManager.showStatus (message : String) (type : String := "info") :
    Async Browser Unit :=
  Async.modify fun b =>
    { b with page := { b.page with statusMessages := b.page.statusMessages ++ [(message, type)] } }

/-- The method `updateWalletUI()` (lines 68 to 95). -/
def WalletManager.updateWalletUI : Async Browser Unit := do
  let b ← Async.get
  if b.walletManager.isConnected && b.walletManager.publicKey.truthy then
    Async.modify fun b =>
      { b with page := { b.page with
          walletStatusHidden := true
          walletInfoHidden := false
          paymentSectionHidden := false
          historySectionHidden := false } }
    match b.walletManager.publicKey with
    | .string walletAddress =>
        let displayAddress :=
          walletAddress.take 8 ++ "..." ++ walletAddress.drop (walletAddress.length - 8)
        Async.modify fun b =>
          { b with page := { b.page with
              walletAddressText := displayAddress
              walletAddressTitle := walletAddress } }
    | _ => Async.throw (typeError "walletAddress.substring is not a function")
  else
    Async.modify fun b =>
      { b with page := { b.page with
          walletStatusHidden := false
          walletInfoHidden := true
          paymentSectionHidden := true
          historySectionHidden := true } }

/-- The text `tx.hash ? tx.hash.substring(0, 16) + "..." : "N/A"`. -/
def hashText (hash : JSValue) : Except JSValue String :=
  if hash.truthy then
    match hash with
    | .string s => .ok (s.take 16 ++ "...")
    | _ => .error (typeError "tx.hash.substring is not a function")
  else .ok "N/A"

/-- The template that `displayTransactions` maps over the transactions. -/
def transactionItemHTML (tx : JSValue) : Async Browser String := do
  let type ← Async.ofExcept (tx.get "type")
  let amount ← Async.ofExcept (tx.get "amount")
  let date ← Async.ofExcept (tx.get "date")
  let dateText ← perform (.toLocaleDateString date)
  let hash ← Async.ofExcept (tx.get "hash")
  let hashString ← Async.ofExcept (hashText hash)
  pure ("\n            <div class=\"transaction-item\">\n                <div class=\"transaction-type\">"
    ++ type.toStr
    ++ "</div>\n                <div class=\"transaction-amount\">"
    ++ amount.toStr
    ++ " XLM</div>\n                <div class=\"transaction-date\">"
    ++ dateText.toStr
    ++ "</div>\n                <div class=\"transaction-hash\" style=\"font-family: monospace; font-size: 0.8rem; color: #666;\">\n                    "
    ++ hashString
    ++ "\n                </div>\n            </div>\n        ")

/-- The items of `transactions.map(...)` in `displayTransactions`, in order. -/
def transactionItemsHTML : List JSValue → Async Browser (List String)
  | [] => pure []
  | tx :: rest => do
      let item ← transactionItemHTML tx
      let items ← transactionItemsHTML rest
      pure (item :: items)

/-- Assignment to the inner HTML of `transaction-list`. -/
def setTransactionListHTML (html : String) : Async Browser Unit :=
  Async.modify fun b => { b with page := { b.page with transactionListHTML := html } }

/-- The method `displayTransactions(transactions)` (lines 161 to 181). -/
def WalletManager.displayTransactions (transactions : JSValue) : Async Browser Unit := do
  let length ← if transactions.truthy then Async.ofExcept (transactions.get "length")
    else pure .undefined
  if !transactions.truthy || length = .ofNat 0 then
    setTransactionListHTML "<p>No recent transactions found.</p>"
  else
    match transactions with
    | .array items =>
        let htmlItems ← transactionItemsHTML items
        setTransactionListHTML (String.join htmlItems)
    | _ => Async.throw (typeError "transactions.map is not a function")

/-- Assignment to the text content of `xlm-balance`. -/
def setBalanceText (text : String) : Async Browser Unit :=
  Async.modify fun b => { b with page := { b.page with xlmBalanceText := text } }

/-- The global `stellarManager`, as the receiver of a method call: a `TypeError` while
it is `undefined`. -/
def Browser.theStellarManager (b : Browser) : Except JSValue StellarManager :=
  match b.stellarManager with
  | some m => .ok m
  | none => .error (typeError "Cannot read properties of undefined (reading getAccountBalance)")

/-- The method `loadAccountData()` (lines 97 to 111). -/
def WalletManager.loadAccountData : Async Browser Unit := do
  let b ← Async.get
  if !b.walletManager.publicKey.truthy then
    pure ()
  else
    Async.tryCatch
      (do
        let stellarManager ← Async.ofExcept b.theStellarManager
        let balance ← stellarManager.getAccountBalance b.walletManager.publicKey
        setBalanceText (balance.toStr ++ " XLM")
        let transactions ← stellarManager.getRecentTransactions b.walletManager.publicKey
        WalletManager.displayTransactions transactions)
      (fun _error => setBalanceText "Error loading balance")

/-- The steps of `connectWallet()` up to the call of `getPublicKey` (lines 24 to 36, with
the `else` of lines 44 to 46): the status message, the test for the extension, the
request for permissions, and the request for the public key. -/
def requestPublicKey : Async Browser JSValue := do
  WalletManager.showStatus "Connecting to xBull Wallet..." "info"
  let available ← WalletManager.isXBullAvailable
  if !available then
    Async.throw
      (newError "xBull Wallet not detected. Please install the xBull browser extension.")
  else
    let sdk ← perform .xBullSDK
    let permissions ← callOn sdk "connect" (.connect true true)
    if permissions.truthy then
      let sdk ← perform .xBullSDK
      callOn sdk "getPublicKey" .getPublicKey
    else
      Async.throw (newError "Connection rejected by user")

/-- The method `connectWallet()` (lines 22 to 52). -/
def WalletManager.connectWallet : Async Browser Unit :=
  Async.tryCatch
    (do
      let publicKey ← requestPublicKey
      Async.modify fun b => b.setPublicKey publicKey
      Async.modify fun b => b.setIsConnected true
      WalletManager.showStatus "Successfully connected to xBull Wallet!" "success"
      WalletManager.updateWalletUI
      WalletManager.loadAccountData)
    (fun error => do
      let message ← Async.ofExcept (error.get "message")
      WalletManager.showStatus ("Connection failed: " ++ message.toStr) "error")

/-- The method `disconnectWallet()` (lines 54 to 66). -/
def WalletManager.disconnectWallet : Async Browser Unit :=
  Async.tryCatch
    (do
      Async.modify fun b => b.setIsConnected false
      Async.modify fun b => b.setPublicKey .null
      WalletManager.showStatus "Wallet disconnected" "info"
      WalletManager.updateWalletUI)
    (fun error => do
      let message ← Async.ofExcept (error.get "message")
      WalletManager.showStatus ("Disconnect failed: " ++ message.toStr) "error")

/-- The method `getConnectionStatus()` (lines 201 to 207). -/
def WalletManager.getConnectionStatus (self : WalletManager) : JSValue :=
  .object [("isConnected", .bool self.isConnected), ("publicKey", self.publicKey),
    ("walletType", .string self.walletType)]

/-! ## Reading traces -/

/-- Whether the call is `submitTransaction`. -/
def Call.isSubmitTransaction : Call → Bool
  | .submitTransaction _ _ => true
  | _ => false

/-- Whether the call is `signXDR`. -/
def Call.isSignXDR : Call → Bool
  | .signXDR _ _ _ => true
  | _ => false

/-- Whether the call fills the transaction builder: an operation or a memo. -/
def Call.isFilling : Call → Bool
  | .operationCreateAccount _ _ => true
  | .assetNative => true
  | .operationPayment _ _ _ => true
  | .addOperation _ _ => true
  | .memoText _ => true
  | .addMemo _ _ => true
  | _ => false

/-- Whether the call is `build`. -/
def Call.isBuild : Call → Bool
  | .build _ => true
  | _ => false

/-- Whether the call makes the transaction or one of its operations: the construction
of the builder, the construction of an operation (with the asset it names), the call
that adds it, and the two calls that end the building. -/
def Call.isAssembly : Call → Bool
  | .newTransactionBuilder _ _ _ => true
  | .operationCreateAccount _ _ => true
  | .assetNative => true
  | .operationPayment _ _ _ => true
  | .addOperation _ _ => true
  | .setTimeout _ _ => true
  | .build _ => true
  | _ => false

/-- Whether the call is one of the preparation calls that open `sendPayment`. -/
def Call.isPreparation : Call → Bool
  | .loadAccount _ _ => true
  | .fetchBaseFee _ => true
  | .newTransactionBuilder _ _ _ => true
  | _ => false

/-- The four calls that open a `sendPayment` which reaches its stages. -/
def openingEvents (self : StellarManager) (src dst acct : JSValue)
    (probe : Except JSValue JSValue) (fee builder : JSValue) : List Event :=
  [⟨.loadAccount self.server src, .ok acct⟩, ⟨.loadAccount self.server dst, probe⟩,
    ⟨.fetchBaseFee self.server, .ok fee⟩,
    ⟨.newTransactionBuilder acct fee.toStr self.networkPassphrase, .ok builder⟩]

/-- Whether the call is one `sendPayment` makes between the probe of the destination and
`build`: the request for the fee, the construction of the builder, the calls that fill
it, and `setTimeout`. -/
def Call.precedesBuild : Call → Bool
  | .fetchBaseFee _ => true
  | .newTransactionBuilder _ _ _ => true
  | .setTimeout _ _ => true
  | c => c.isFilling

/-- Whether `sendPayment` calls a method of what the call returns: `toString` of the
fee, `build` of what `setTimeout` returns. -/
def Call.resultIsReceiver : Call → Bool
  | .fetchBaseFee _ => true
  | .setTimeout _ _ => true
  | _ => false

/-- Whether the event lets `sendPayment` go on to `build`: a call that precedes `build`
returns, and returns a value other than `undefined` and `null` where a method of it is
called. -/
def Event.permitsBuild (ev : Event) : Bool :=
  !ev.call.precedesBuild ||
    match ev.outcome with
    | .ok v => !(ev.call.resultIsReceiver && v.isNullish)
    | .error _ => false

/-! ## Reading values -/

/-- The value of the property `key`, with `undefined` where reading it throws. -/
def JSValue.prop (v : JSValue) (key : String) : JSValue :=
  match v.get key with
  | .ok x => x
  | .error _ => .undefined

/-- The result object of a failed `sendPayment`. -/
def paymentFailure (error : JSValue) : JSValue :=
  .object [("success", .bool false), ("error", error)]

/-- The memo `sendPayment` works with: the empty string when the argument is `undefined`. -/
def effectiveMemo (memo : JSValue) : JSValue :=
  if memo = .undefined then JSValue.string "" else memo

/-- The limit `getRecentTransactions` queries with: ten when the argument is `undefined`. -/
def effectiveLimit (limit : JSValue) : JSValue :=
  if limit = .undefined then JSValue.ofNat 10 else limit

/-- The summary `getRecentTransactions` makes of one record. -/
def summaryOf (tx : JSValue) : JSValue :=
  .object [("hash", tx.prop "hash"), ("date", tx.prop "created_at"),
    ("type", .string "Transaction"), ("amount", .string "N/A"),
    ("successful", tx.prop "successful")]

/-- A failure that is a not-found response: `response.status` is the Number 404. -/
def hasStatus404 (error : JSValue) : Bool :=
  decide ((error.prop "response").prop "status" = .ofNat 404)

/-- The response data a failure carries: `error.response.data`, when both are truthy. -/
def responseData (error : JSValue) : Option JSValue :=
  if (error.prop "response").truthy && ((error.prop "response").prop "data").truthy then
    some ((error.prop "response").prop "data")
  else none

/-- The result codes a ledger rejection carries: `extras.result_codes` of the response
data, when both are truthy. -/
def resultCodes (error : JSValue) : Option JSValue :=
  match responseData error with
  | some data =>
      if (data.prop "extras").truthy && ((data.prop "extras").prop "result_codes").truthy then
        some ((data.prop "extras").prop "result_codes")
      else none
  | none => none

/-- Whether a value is an Array. -/
def JSValue.isArray : JSValue → Bool
  | .array _ => true
  | _ => false

/-- A failure the `catch` block of `sendPayment` can read: a value other than `undefined`
and `null` whose per-operation result codes, when it carries result codes and they are
truthy, are an Array. -/
def readableFailure (error : JSValue) : Bool :=
  !error.isNullish &&
    match resultCodes error with
    | some codes => !(codes.prop "operations").truthy || (codes.prop "operations").isArray
    | none => true

/-- The first balance of the native asset in a list of balances. -/
def firstNative (balances : List JSValue) : Option JSValue :=
  balances.find? fun b => decide (b.prop "asset_type" = .string "native")

/-- The events a run adds to the trace it starts from. -/
def eventsSince {α σ : Type} (t : Trace) (run : Except JSValue α × σ × Trace) : List Event :=
  run.2.2.drop t.length

/-! ## Sample collaborators -/

/-- A source address. -/
def sourceKey : JSValue := .string "GCJMDI3HPUJGTBXIOFE46FUCGVQXLVIH3M2MKGFRRW45W4WNV6R3Z7DU"

/-- A destination address. -/
def destinationKey : JSValue := .string "GBVG2QOHHFBVHAEGNF4XRUCAPAGWDROONM2LC4BK4ECCQ5RTQOO64VBW"

/-- The balances of `sampleAccount`: 12.5 units of an issued asset and 100 units of the
native asset. -/
def sampleBalances : List JSValue :=
  [.object [("asset_type", .string "credit_alphanum4"), ("asset_code", .string "USD"),
     ("balance", .string "12.5000000")],
   .object [("asset_type", .string "native"), ("balance", .string "100.0000000")]]

/-- An account record as Horizon returns it. -/
def sampleAccount : JSValue :=
  .object [("id", sourceKey), ("sequence", .string "4294967296"),
    ("balances", .array sampleBalances)]

/-- The error Horizon rejects with when an account does not exist. -/
def notFoundError : JSValue :=
  .object [("message", .string "Not Found"),
    ("response", .object [("status", .ofNat 404),
      ("data", .object [("title", .string "Resource Missing"), ("status", .ofNat 404)])])]

/-- The error a request fails with when the network is down. -/
def networkError : JSValue := .object [("message", .string "Network Error")]

/-- Two transaction records as Horizon returns them. -/
def sampleRecords : List JSValue :=
  [.object [("hash", .string "3389e9f0f1a65f19"), ("created_at", .string "2025-01-02T03:04:05Z"),
     ("successful", .bool true)],
   .object [("hash", .string "b9d0b2292c4e09e8"), ("created_at", .string "2025-01-01T00:00:00Z"),
     ("successful", .bool false)]]

/-- Collaborators that all answer: every account exists, the signer is installed and
signs, and the ledger accepts the transaction. -/
def sampleWorld : World := fun _ c =>
  match c with
  | .loadAccount _ _ => .ok sampleAccount
  | .transactions _ _ _ _ => .ok (.object [("records", .array sampleRecords)])
  | .fetchBaseFee _ => .ok (.ofNat 100)
  | .submitTransaction _ _ =>
      .ok (.object [("hash", .string "3389e9f0f1a65f19"), ("ledger", .ofNat 1234)])
  | .newTransactionBuilder _ _ _ => .ok (.object [("operations", .array [])])
  | .operationCreateAccount d b =>
      .ok (.object [("type", .string "createAccount"), ("destination", d),
        ("startingBalance", .string b)])
  | .assetNative => .ok (.object [("code", .string "XLM")])
  | .operationPayment d a m =>
      .ok (.object [("type", .string "payment"), ("destination", d), ("asset", a),
        ("amount", .string m)])
  | .addOperation b _ => .ok b
  | .memoText m => .ok (.object [("type", .string "text"), ("value", m)])
  | .addMemo b _ => .ok b
  | .setTimeout b _ => .ok b
  | .build b => .ok (.object [("built", b)])
  | .toXDR _ => .ok (.string "AAAAAgAAAAA=")
  | .fromXDR x _ => .ok (.object [("envelope", x)])
  | .xBullSDK => .ok (.object [])
  | .connect _ _ => .ok (.bool true)
  | .getPublicKey => .ok sourceKey
  | .signXDR x _ _ => .ok x
  | .toLocaleDateString _ => .ok (.string "1/2/2025")

/-- As `sampleWorld`, but the destination account does not exist. -/
def newDestinationWorld : World := fun t c =>
  match c with
  | .loadAccount _ k => if k = destinationKey then .error notFoundError else .ok sampleAccount
  | c => sampleWorld t c

/-- As `newDestinationWorld`, but the request for the base fee fails. -/
def noFeeWorld : World := fun t c =>
  match c with
  | .fetchBaseFee _ => .error networkError
  | c => newDestinationWorld t c

/-- As `sampleWorld`, but the signer rejects the request with no reason (`undefined`). -/
def silentSignerWorld : World := fun t c =>
  match c with
  | .signXDR _ _ _ => .error .undefined
  | c => sampleWorld t c

/-- As `sampleWorld`, but the source account does not exist. -/
def noSourceWorld : World := fun t c =>
  match c with
  | .loadAccount _ k => if k = sourceKey then .error notFoundError else .ok sampleAccount
  | c => sampleWorld t c

/-- As `sampleWorld`, but the ledger rejects the transaction with result codes. -/
def rejectingWorld : World := fun t c =>
  match c with
  | .submitTransaction _ _ =>
      .error (.object [("message", .string "Request failed with status code 400"),
        ("response", .object [("status", .ofNat 400),
          ("data", .object [("extras", .object [("result_codes",
            .object [("transaction", .string "tx_failed"),
              ("operations", .array [.string "op_underfunded"])])])])])])
  | c => sampleWorld t c

/-- As `sampleWorld`, but accounts have no balance of the native asset. -/
def noNativeWorld : World := fun t c =>
  match c with
  | .loadAccount _ _ => .ok (.object [("id", sourceKey), ("balances", .array [])])
  | c => sampleWorld t c

/-- As `sampleWorld`, but the listing of transactions fails. -/
def noListingWorld : World := fun t c =>
  match c with
  | .transactions _ _ _ _ => .error networkError
  | c => sampleWorld t c

/-- As `sampleWorld`, but the wallet extension is not installed. -/
def noWalletWorld : World := fun t c =>
  match c with
  | .xBullSDK => .ok .undefined
  | c => sampleWorld t c

/-- A page before any method has written to it. -/
def blankPage : Page :=
  { statusMessages := []
    walletStatusHidden := false
    walletInfoHidden := true
    paymentSectionHidden := true
    historySectionHidden := true
    walletAddressText := ""
    walletAddressTitle := ""
    xlmBalanceText := ""
    transactionListHTML := "" }

/-- The program state once both managers are constructed. -/
def freshBrowser : Browser :=
  { walletManager := WalletManager.new
    stellarManager := some StellarManager.new
    page := blankPage }

/-- As `sampleWorld`, but the ledger rejects the transaction with a transaction result
code only. -/
def badSequenceWorld : World := fun t c =>
  match c with
  | .submitTransaction _ _ =>
      .error (.object [("message", .string "Request failed with status code 400"),
        ("response", .object [("status", .ofNat 400),
          ("data", .object [("extras", .object [("result_codes",
            .object [("transaction", .string "tx_bad_seq")])])])])])
  | c => sampleWorld t c

/-- Whether a text is a number in plain decimal notation with exactly seven digits
after the decimal point. -/
def hasSevenDecimals (s : String) : Bool :=
  let cs := match s.data with
    | '-' :: rest => rest
    | cs => cs
  match cs.dropWhile Char.isDigit with
  | '.' :: fraction =>
      !(cs.takeWhile Char.isDigit).isEmpty && fraction.length == 7 && fraction.all Char.isDigit
  | _ => false

/-- As `sampleWorld`, but the signer rejects the connection with no reason (`undefined`). -/
def silentConnectWorld : World := fun t c =>
  match c with
  | .connect _ _ => .error .undefined
  | c => sampleWorld t c

/-- As `sampleWorld`, but the user declines the connection: `connect` returns `false`. -/
def decliningWorld : World := fun t c =>
  match c with
  | .connect _ _ => .ok (.bool false)
  | c => sampleWorld t c

/-- As `sampleWorld`, but the request for permissions fails. -/
def brokenConnectWorld : World := fun t c =>
  match c with
  | .connect _ _ => .error (newError "The wallet is locked")
  | c => sampleWorld t c

/-- As `sampleWorld`, but the request for the public key fails. -/
def noKeyWorld : World := fun t c =>
  match c with
  | .getPublicKey => .error (newError "The wallet is locked")
  | c => sampleWorld t c

/-- The program state after `disconnectWallet()`: disconnected, with no public key. -/
def disconnectedBrowser : Browser :=
  { freshBrowser with walletManager := { WalletManager.new with publicKey := .null } }

/-- The page after `message` of type `type` is shown. -/
def Page.withStatus (page : Page) (message type : String) : Page :=
  { page with statusMessages := page.statusMessages ++ [(message, type)] }

/-- As `sampleWorld`, but the native balance of every account is written "1e21". -/
def hugeBalanceWorld : World := fun t c =>
  match c with
  | .loadAccount _ _ =>
      .ok (.object [("id", sourceKey),
        ("balances", .array [.object [("asset_type", .string "native"),
          ("balance", .string "1e21")]])])
  | c => sampleWorld t c

/-! ## Running asynchronous functions -/

theorem perform_bind {σ β : Type} (c : Call) (f : JSValue → Async σ β) (w : World) (s : σ)
    (t : Trace) :
    (perform c >>= f) w s t =
      (match w t c with
       | .ok v => f v w s (t ++ [⟨c, .ok v⟩])
       | .error e => (.error e, s, t ++ [⟨c, .error e⟩])) := by
  show Async.bind (perform c) f w s t = _
  unfold Async.bind perform
  cases w t c <;> rfl

theorem ofExcept_bind {σ α β : Type} (x : Except JSValue α) (f : α → Async σ β) (w : World)
    (s : σ) (t : Trace) :
    (Async.ofExcept x >>= f) w s t =
      (match x with
       | .ok v => f v w s t
       | .error e => (.error e, s, t)) := by
  show Async.bind (Async.ofExcept x) f w s t = _
  unfold Async.bind Async.ofExcept
  cases x <;> rfl

theorem callOn_bind {σ β : Type} (r : JSValue) (m : String) (c : Call) (f : JSValue → Async σ β)
    (w : World) (s : σ) (t : Trace) :
    (callOn r m c >>= f) w s t =
      (if r.isNullish then
        (.error (typeError ("Cannot read properties of " ++ r.toStr ++ " (reading " ++ m ++ ")")),
          s, t)
       else match w t c with
       | .ok v => f v w s (t ++ [⟨c, .ok v⟩])
       | .error e => (.error e, s, t ++ [⟨c, .error e⟩])) := by
  unfold callOn
  split
  · rfl
  · exact perform_bind c f w s t

theorem throw_bind {σ α β : Type} (e : JSValue) (f : α → Async σ β) (w : World) (s : σ)
    (t : Trace) : ((Async.throw e : Async σ α) >>= f) w s t = (.error e, s, t) := rfl

theorem pure_bind_run {σ α β : Type} (a : α) (f : α → Async σ β) (w : World) (s : σ)
    (t : Trace) : ((pure a : Async σ α) >>= f) w s t = f a w s t := rfl

theorem pure_run {σ α : Type} (a : α) (w : World) (s : σ) (t : Trace) :
    (pure a : Async σ α) w s t = (.ok a, s, t) := rfl

theorem throw_run {σ α : Type} (e : JSValue) (w : World) (s : σ) (t : Trace) :
    (Async.throw e : Async σ α) w s t = (.error e, s, t) := rfl

theorem probeDestination_bind {σ β : Type} (self : StellarManager) (d : JSValue)
    (f : Bool → Async σ β) (w : World) (s : σ) (t : Trace) :
    (probeDestination self d >>= f) w s t =
      (match w t (.loadAccount self.server d) with
       | .ok v => f false w s (t ++ [⟨.loadAccount self.server d, .ok v⟩])
       | .error e =>
          match isNotFound e with
          | .ok b => f b w s (t ++ [⟨.loadAccount self.server d, .error e⟩])
          | .error e2 => (.error e2, s, t ++ [⟨.loadAccount self.server d, .error e⟩])) := by
  show Async.bind (probeDestination self d) f w s t = _
  unfold Async.bind probeDestination Async.tryCatch
  simp only [perform_bind]
  cases w t (.loadAccount self.server d) with
  | ok v => rfl
  | error e =>
    simp only [Async.ofExcept]
    cases isNotFound e <;> rfl

theorem bind_run {σ α β : Type} (m : Async σ α) (f : α → Async σ β) (w : World) (s : σ)
    (t : Trace) :
    (m >>= f) w s t =
      (match m w s t with
       | (.ok a, s1, t1) => f a w s1 t1
       | (.error e, s1, t1) => (.error e, s1, t1)) := rfl

theorem bind_run_ok {σ α β : Type} {m : Async σ α} {w : World} {s s1 : σ} {t t1 : Trace} {a : α}
    (h : m w s t = (.ok a, s1, t1)) (f : α → Async σ β) :
    (m >>= f) w s t = f a w s1 t1 := by
  rw [bind_run, h]

theorem bind_run_error {σ α β : Type} {m : Async σ α} {w : World} {s s1 : σ} {t t1 : Trace}
    {e : JSValue} (h : m w s t = (.error e, s1, t1)) (f : α → Async σ β) :
    (m >>= f) w s t = (.error e, s1, t1) := by
  rw [bind_run, h]

theorem toStringMethod_ok {v : JSValue} {a : String} (h : v.toStringMethod = .ok a) :
    a = v.toStr ∧ v.isNullish = false := by
  unfold JSValue.toStringMethod at h
  split at h
  · cases h
  · rename_i hn
    simp only [Except.ok.injEq] at h
    exact ⟨h.symm, by simpa using hn⟩

theorem toStringMethod_of_not_nullish {v : JSValue} (h : v.isNullish = false) :
    v.toStringMethod = .ok v.toStr := by
  simp [JSValue.toStringMethod, h]

/-! ## The stages of `sendPayment` -/

/-- The calls of `addPaymentOperation`: it keeps the state, makes filling calls only,
throws the validation error at once when an account is to be created with less than one
unit, and otherwise, when it returns, has made one operation and added it. -/
theorem addPaymentOperation_run {σ : Type} (builder : JSValue) (createAccount : Bool)
    (dst amount : JSValue) (w : World) (s : σ) (t : Trace) :
    ∃ r new, addPaymentOperation builder createAccount dst amount w s t = (r, s, t ++ new)
      ∧ (∀ ev ∈ new, ev.call.isFilling = true ∧ ev.call.isBuild = false)
      ∧ (createAccount = true → (parseFloat amount).lt (.finite 1) = true →
          r = .error (newError "Minimum 1 XLM required to create new account") ∧ new = [])
      ∧ (r = .ok () → createAccount = true →
          ∃ op x, new = [⟨.operationCreateAccount dst amount.toStr, .ok op⟩,
            ⟨.addOperation builder op, .ok x⟩])
      ∧ (r = .ok () → createAccount = false →
          ∃ asset op x, new = [⟨.assetNative, .ok asset⟩,
            ⟨.operationPayment dst asset amount.toStr, .ok op⟩,
            ⟨.addOperation builder op, .ok x⟩]) := by
  unfold addPaymentOperation
  repeat' first
    | split
    | simp only [perform_bind, ofExcept_bind, throw_bind, pure_bind_run, pure_run, throw_run]
  all_goals try simp only [List.append_assoc]
  all_goals first
    | refine ⟨_, _, rfl, ?_⟩
    | refine ⟨_, [], by rw [List.append_nil], ?_⟩
  all_goals simp_all [Call.isFilling, Call.isBuild]
  all_goals exact (toStringMethod_ok ‹_›).1

/-- The calls of `addPaymentMemo`: it keeps the state and makes filling calls only. -/
theorem addPaymentMemo_run {σ : Type} (builder memo : JSValue) (w : World) (s : σ) (t : Trace) :
    ∃ r new, addPaymentMemo builder memo w s t = (r, s, t ++ new)
      ∧ (∀ ev ∈ new, ev.call.isFilling = true ∧ ev.call.isAssembly = false) := by
  unfold addPaymentMemo
  repeat' first
    | split
    | simp only [perform_bind, ofExcept_bind, throw_bind, pure_bind_run, pure_run, throw_run]
  all_goals try simp only [List.append_assoc]
  all_goals first
    | refine ⟨_, _, rfl, ?_⟩
    | refine ⟨_, [], by rw [List.append_nil], ?_⟩
  all_goals simp_all [Call.isFilling, Call.isAssembly]

/-- The calls of `signAndSubmit`: it keeps the state and makes no filling call; either
`submitTransaction` is not called, or the calls are the seven of the listing, each but
the last returning. -/
theorem signAndSubmit_run {σ : Type} (self : StellarManager) (builder src : JSValue)
    (w : World) (s : σ) (t : Trace) :
    ∃ r new, signAndSubmit self builder src w s t = (r, s, t ++ new)
      ∧ (∀ ev ∈ new, ev.call.isFilling = false)
      ∧ ((∀ ev ∈ new, ev.call.isSubmitTransaction = false) ∨
          ∃ timed transaction xdr signer signedXDR signedTransaction outcome,
            new = [⟨.setTimeout builder 30, .ok timed⟩, ⟨.build timed, .ok transaction⟩,
              ⟨.toXDR transaction, .ok xdr⟩, ⟨.xBullSDK, .ok signer⟩,
              ⟨.signXDR xdr self.networkPassphrase src, .ok signedXDR⟩,
              ⟨.fromXDR signedXDR self.networkPassphrase, .ok signedTransaction⟩,
              ⟨.submitTransaction self.server signedTransaction, outcome⟩])
      ∧ ((∀ ev ∈ new, ev.call.isBuild = false) ∨
          ∃ timed outcome, new.filter (fun ev => ev.call.isAssembly) =
            [⟨.setTimeout builder 30, .ok timed⟩, ⟨.build timed, outcome⟩]) := by
  unfold signAndSubmit
  repeat' first
    | split
    | simp only [perform_bind, ofExcept_bind, callOn_bind, throw_bind, pure_bind_run, pure_run,
        throw_run]
  all_goals try simp only [List.append_assoc]
  all_goals refine ⟨_, _, rfl, ?_⟩
  all_goals simp [Call.isFilling, Call.isAssembly, Call.isSubmitTransaction, Call.isBuild]

/-- The start of the `try` block of `sendPayment`: either one of the first calls fails,
and the block throws after preparation calls only, or the source account is loaded, the
destination probed, the fee fetched and the builder constructed from that account and
that fee, and the block goes on with the three stages. -/
theorem sendPaymentBody_prefix {σ : Type} (self : StellarManager)
    (src dst amount memo : JSValue) (w : World) (s : σ) (t : Trace) :
    (∃ e new, sendPaymentBody self src dst amount memo w s t = (.error e, s, t ++ new)
        ∧ (∀ ev ∈ new, ev.call.isPreparation = true))
    ∨ (∃ acct probe flag fee builder,
        w t (.loadAccount self.server src) = .ok acct
        ∧ w (t ++ [⟨.loadAccount self.server src, .ok acct⟩]) (.loadAccount self.server dst) = probe
        ∧ (∀ v, probe = .ok v → flag = false)
        ∧ (∀ e, probe = .error e → isNotFound e = .ok flag)
        ∧ w (t ++ [⟨.loadAccount self.server src, .ok acct⟩, ⟨.loadAccount self.server dst, probe⟩])
            (.fetchBaseFee self.server) = .ok fee
        ∧ fee.isNullish = false
        ∧ w (t ++ [⟨.loadAccount self.server src, .ok acct⟩, ⟨.loadAccount self.server dst, probe⟩,
              ⟨.fetchBaseFee self.server, .ok fee⟩])
            (.newTransactionBuilder acct fee.toStr self.networkPassphrase) = .ok builder
        ∧ sendPaymentBody self src dst amount memo w s t =
            (do
              addPaymentOperation builder flag dst amount
              addPaymentMemo builder memo
              signAndSubmit self builder src) w s
              (t ++ ([⟨.loadAccount self.server src, .ok acct⟩,
                ⟨.loadAccount self.server dst, probe⟩,
                ⟨.fetchBaseFee self.server, .ok fee⟩,
                ⟨.newTransactionBuilder acct fee.toStr self.networkPassphrase, .ok builder⟩] :
                Trace))) := by
  have tail : ∀ (acct : JSValue) (probe : Except JSValue JSValue) (flag : Bool)
      (_ : w t (.loadAccount self.server src) = .ok acct)
      (_ : w (t ++ [⟨.loadAccount self.server src, .ok acct⟩]) (.loadAccount self.server dst)
        = probe)
      (_ : ∀ v, probe = .ok v → flag = false)
      (_ : ∀ e, probe = .error e → isNotFound e = .ok flag)
      (_ : sendPaymentBody self src dst amount memo w s t =
        (do
          let fee ← perform (.fetchBaseFee self.server)
          let feeString ← Async.ofExcept fee.toStringMethod
          let transactionBuilder ←
            perform (.newTransactionBuilder acct feeString self.networkPassphrase)
          addPaymentOperation transactionBuilder flag dst amount
          addPaymentMemo transactionBuilder memo
          signAndSubmit self transactionBuilder src) w s
          (t ++ ([⟨.loadAccount self.server src, .ok acct⟩,
            ⟨.loadAccount self.server dst, probe⟩] : Trace))),
      (∃ e new, sendPaymentBody self src dst amount memo w s t = (.error e, s, t ++ new)
        ∧ (∀ ev ∈ new, ev.call.isPreparation = true))
      ∨ (∃ acct probe flag fee builder,
        w t (.loadAccount self.server src) = .ok acct
        ∧ w (t ++ [⟨.loadAccount self.server src, .ok acct⟩]) (.loadAccount self.server dst) = probe
        ∧ (∀ v, probe = .ok v → flag = false)
        ∧ (∀ e, probe = .error e → isNotFound e = .ok flag)
        ∧ w (t ++ [⟨.loadAccount self.server src, .ok acct⟩, ⟨.loadAccount self.server dst, probe⟩])
            (.fetchBaseFee self.server) = .ok fee
        ∧ fee.isNullish = false
        ∧ w (t ++ [⟨.loadAccount self.server src, .ok acct⟩, ⟨.loadAccount self.server dst, probe⟩,
              ⟨.fetchBaseFee self.server, .ok fee⟩])
            (.newTransactionBuilder acct fee.toStr self.networkPassphrase) = .ok builder
        ∧ sendPaymentBody self src dst amount memo w s t =
            (do
              addPaymentOperation builder flag dst amount
              addPaymentMemo builder memo
              signAndSubmit self builder src) w s
              (t ++ ([⟨.loadAccount self.server src, .ok acct⟩,
                ⟨.loadAccount self.server dst, probe⟩,
                ⟨.fetchBaseFee self.server, .ok fee⟩,
                ⟨.newTransactionBuilder acct fee.toStr self.networkPassphrase, .ok builder⟩] :
                Trace))) := by
    intro acct probe flag h1 h2 h3 h4 hbody
    rw [hbody]
    simp only [perform_bind, ofExcept_bind]
    rcases hfee : w (t ++ [⟨.loadAccount self.server src, .ok acct⟩,
        ⟨.loadAccount self.server dst, probe⟩]) (.fetchBaseFee self.server) with e | fee
    · left
      simp only [hfee, List.append_assoc, List.cons_append, List.nil_append]
      exact ⟨e, _, rfl, by simp [Call.isPreparation]⟩
    · simp only [hfee, List.append_assoc, List.cons_append, List.nil_append]
      rcases hstr : fee.toStringMethod with e | feeString
      · left
        simp only []
        exact ⟨e, _, rfl, by simp [Call.isPreparation]⟩
      · obtain ⟨rfl, hn⟩ := toStringMethod_ok hstr
        simp only []
        rcases hb : w (t ++ [⟨.loadAccount self.server src, .ok acct⟩,
          ⟨.loadAccount self.server dst, probe⟩, ⟨.fetchBaseFee self.server, .ok fee⟩])
          (.newTransactionBuilder acct fee.toStr self.networkPassphrase) with e | builder
        · left
          simp only [hb]
          exact ⟨e, _, rfl, by simp [Call.isPreparation]⟩
        · right
          simp only [hb]
          exact ⟨acct, probe, flag, fee, builder, h1, h2, h3, h4, hfee, hn, hb, rfl⟩
  rcases h1 : w t (.loadAccount self.server src) with e | acct
  · left
    refine ⟨e, [⟨.loadAccount self.server src, .error e⟩], ?_, by simp [Call.isPreparation]⟩
    unfold sendPaymentBody
    simp only [perform_bind, h1]
  · rcases h2 : w (t ++ [⟨.loadAccount self.server src, .ok acct⟩])
      (.loadAccount self.server dst) with e2 | v2
    · rcases h3 : isNotFound e2 with e3 | flag
      · left
        refine ⟨e3, [⟨.loadAccount self.server src, .ok acct⟩,
          ⟨.loadAccount self.server dst, .error e2⟩], ?_, by simp [Call.isPreparation]⟩
        unfold sendPaymentBody
        simp only [perform_bind, probeDestination_bind, h1, h2, h3, List.append_assoc,
          List.cons_append, List.nil_append]
      · have key := tail acct (.error e2) flag h1 h2 (by simp) (by simp [h3]) (by
          unfold sendPaymentBody
          simp only [perform_bind, probeDestination_bind, h1, h2, h3, List.append_assoc,
            List.cons_append, List.nil_append])
        rw [h1] at key
        exact key
    · have key := tail acct (.ok v2) false h1 h2 (by simp) (by simp) (by
        unfold sendPaymentBody
        simp only [perform_bind, probeDestination_bind, h1, h2, List.append_assoc,
          List.cons_append, List.nil_append])
      rw [h1] at key
      exact key

/-! ## The whole of `sendPayment` -/

/-- The method `sendPayment` in terms of its `try` block and the message of its `catch`
block. -/
theorem sendPayment_run {σ : Type} (self : StellarManager) (src dst amount memo : JSValue)
    (w : World) (s : σ) (t : Trace) :
    self.sendPayment src dst amount memo w s t =
      (match sendPaymentBody self src dst amount (effectiveMemo memo) w s t with
       | (.ok a, s1, t1) => (.ok a, s1, t1)
       | (.error e, s1, t1) =>
          match paymentErrorMessage e with
          | .ok m => (.ok (paymentFailure m), s1, t1)
          | .error e2 => (.error e2, s1, t1)) := by
  unfold StellarManager.sendPayment Async.tryCatch effectiveMemo
  simp only []
  rcases sendPaymentBody self src dst amount (if memo = .undefined then .string "" else memo)
    w s t with ⟨r, s1, t1⟩
  cases r with
  | ok a => rfl
  | error e =>
    simp only [ofExcept_bind]
    cases paymentErrorMessage e <;> rfl

/-- The `catch` block makes no call: `sendPayment` leaves the trace of its `try` block. -/
theorem sendPayment_trace {σ : Type} (self : StellarManager) (src dst amount memo : JSValue)
    (w : World) (s : σ) (t : Trace) :
    (self.sendPayment src dst amount memo w s t).2.2 =
      (sendPaymentBody self src dst amount (effectiveMemo memo) w s t).2.2 := by
  rw [sendPayment_run]
  rcases sendPaymentBody self src dst amount (effectiveMemo memo) w s t with ⟨r, s1, t1⟩
  cases r with
  | ok a => rfl
  | error e =>
    simp only []
    cases paymentErrorMessage e <;> rfl

theorem get_of_not_nullish {v : JSValue} (h : v.isNullish = false) (key : String) :
    v.get key = .ok (v.prop key) := by
  cases v <;> simp [JSValue.isNullish] at h <;> simp [JSValue.get, JSValue.prop]

theorem not_nullish_of_truthy {v : JSValue} (h : v.truthy = true) : v.isNullish = false := by
  cases v <;> simp [JSValue.truthy] at h <;> rfl

theorem prop_of_nullish {v : JSValue} (h : v.isNullish = true) (key : String) :
    v.prop key = .undefined := by
  cases v <;> simp [JSValue.isNullish] at h <;> rfl

/-- On a failure that is a value other than `undefined` and `null`, the test of the
`catch` blocks is the test for a 404 status. -/
theorem isNotFound_of_not_nullish {e : JSValue} (h : e.isNullish = false) :
    isNotFound e = .ok (hasStatus404 e) := by
  unfold isNotFound hasStatus404
  rw [get_of_not_nullish h]
  simp only [bind, Except.bind, pure, Except.pure]
  by_cases hr : (e.prop "response").truthy = true
  · rw [if_pos hr, get_of_not_nullish (not_nullish_of_truthy hr)]
  · rw [if_neg hr]
    have : (e.prop "response").prop "status" ≠ .ofNat 404 := by
      generalize e.prop "response" = r at hr
      cases r <;> simp [JSValue.truthy] at hr <;>
        simp [JSValue.prop, JSValue.get, JSValue.ofNat]
    simp [this]

theorem not_nullish_of_hasStatus404 {e : JSValue} (h : hasStatus404 e = true) :
    e.isNullish = false := by
  cases e <;> first | rfl | (revert h; decide)

theorem isNotFound_of_hasStatus404 {e : JSValue} (h : hasStatus404 e = true) :
    isNotFound e = .ok true := by
  rw [isNotFound_of_not_nullish (not_nullish_of_hasStatus404 h), h]

theorem eventsSince_append {α σ : Type} (t new : Trace) (r : Except JSValue α) (s : σ) :
    eventsSince t (r, s, t ++ new) = new := by
  simp [eventsSince]

theorem isPreparation_not_sign_submit {c : Call} (h : c.isPreparation = true) :
    c.isSignXDR = false ∧ c.isSubmitTransaction = false ∧ c.isBuild = false
      ∧ c.isFilling = false := by
  cases c <;> simp [Call.isPreparation] at h <;>
    simp [Call.isSignXDR, Call.isSubmitTransaction, Call.isBuild, Call.isFilling]

theorem isFilling_not_submit {c : Call} (h : c.isFilling = true) :
    c.isSubmitTransaction = false ∧ c.isSignXDR = false := by
  cases c <;> simp [Call.isFilling] at h <;> simp [Call.isSubmitTransaction, Call.isSignXDR]

theorem isBuild_isAssembly {c : Call} (h : c.isAssembly = false) : c.isBuild = false := by
  cases c <;> simp [Call.isAssembly] at h <;> simp [Call.isBuild]

/-- The `try` block of `sendPayment`, stage by stage: either it throws before the
builder is ended, having made preparation and filling calls only, or it has made the four
opening calls, added one operation, possibly a memo, and gone through `signAndSubmit`. -/
theorem sendPaymentBody_cases {σ : Type} (self : StellarManager)
    (src dst amount memo : JSValue) (w : World) (s : σ) (t : Trace) :
    (∃ e new, sendPaymentBody self src dst amount memo w s t = (.error e, s, t ++ new)
        ∧ (∀ ev ∈ new, ev.call.isBuild = false ∧ ev.call.isSubmitTransaction = false
            ∧ ev.call.isSignXDR = false))
    ∨ (∃ acct probe flag fee builder new1 new2 new3 r,
        w t (.loadAccount self.server src) = .ok acct
        ∧ w (t ++ [⟨.loadAccount self.server src, .ok acct⟩]) (.loadAccount self.server dst) = probe
        ∧ (∀ v, probe = .ok v → flag = false)
        ∧ (∀ e, probe = .error e → isNotFound e = .ok flag)
        ∧ sendPaymentBody self src dst amount memo w s t =
            (r, s, t ++ (openingEvents self src dst acct probe fee builder
              ++ (new1 ++ (new2 ++ new3))))
        ∧ (flag = true →
            ∃ op x, new1 = [⟨.operationCreateAccount dst amount.toStr, .ok op⟩,
              ⟨.addOperation builder op, .ok x⟩])
        ∧ (flag = false →
            ∃ asset op x, new1 = [⟨.assetNative, .ok asset⟩,
              ⟨.operationPayment dst asset amount.toStr, .ok op⟩,
              ⟨.addOperation builder op, .ok x⟩])
        ∧ (∀ ev ∈ new2, ev.call.isFilling = true ∧ ev.call.isAssembly = false)
        ∧ (∀ ev ∈ new3, ev.call.isFilling = false)
        ∧ ((∀ ev ∈ new3, ev.call.isSubmitTransaction = false) ∨
            ∃ timed transaction xdr signer signedXDR signedTransaction outcome,
              new3 = [⟨.setTimeout builder 30, .ok timed⟩, ⟨.build timed, .ok transaction⟩,
                ⟨.toXDR transaction, .ok xdr⟩, ⟨.xBullSDK, .ok signer⟩,
                ⟨.signXDR xdr self.networkPassphrase src, .ok signedXDR⟩,
                ⟨.fromXDR signedXDR self.networkPassphrase, .ok signedTransaction⟩,
                ⟨.submitTransaction self.server signedTransaction, outcome⟩])
        ∧ ((∀ ev ∈ new3, ev.call.isBuild = false) ∨
            ∃ timed outcome, new3.filter (fun ev => ev.call.isAssembly) =
              [⟨.setTimeout builder 30, .ok timed⟩, ⟨.build timed, outcome⟩])) := by
  rcases sendPaymentBody_prefix self src dst amount memo w s t with
    ⟨e1, new, hrun, hnew⟩ | ⟨acct, probe, flag, fee, builder, h1, h2, h3, h4, -, -, -, hrun⟩
  · left
    refine ⟨e1, new, hrun, fun ev hev => ?_⟩
    have := isPreparation_not_sign_submit (hnew ev hev)
    exact ⟨this.2.2.1, this.2.1, this.1⟩
  · have hopen : (t ++ ([⟨.loadAccount self.server src, .ok acct⟩,
          ⟨.loadAccount self.server dst, probe⟩, ⟨.fetchBaseFee self.server, .ok fee⟩,
          ⟨.newTransactionBuilder acct fee.toStr self.networkPassphrase, .ok builder⟩] : Trace))
        = t ++ openingEvents self src dst acct probe fee builder := rfl
    rw [hopen] at hrun
    have hprep : ∀ ev ∈ openingEvents self src dst acct probe fee builder,
        ev.call.isBuild = false ∧ ev.call.isSubmitTransaction = false
          ∧ ev.call.isSignXDR = false := by
      simp [openingEvents, Call.isBuild, Call.isSubmitTransaction, Call.isSignXDR]
    obtain ⟨r1, new1, hop, hfill1, -, hcreate, hpay⟩ := addPaymentOperation_run (σ := σ) builder
      flag dst amount w s (t ++ openingEvents self src dst acct probe fee builder)
    cases r1 with
    | error e =>
      left
      refine ⟨e, openingEvents self src dst acct probe fee builder ++ new1, ?_, ?_⟩
      · rw [hrun, bind_run_error hop, List.append_assoc]
      · intro ev hev
        rcases List.mem_append.1 hev with h | h
        · exact hprep ev h
        · exact ⟨(hfill1 ev h).2, (isFilling_not_submit (hfill1 ev h).1).1,
            (isFilling_not_submit (hfill1 ev h).1).2⟩
    | ok u =>
      obtain ⟨r2, new2, hmemo, hfill2⟩ := addPaymentMemo_run (σ := σ) builder memo w s
        (t ++ openingEvents self src dst acct probe fee builder ++ new1)
      cases r2 with
      | error e =>
        left
        refine ⟨e, openingEvents self src dst acct probe fee builder ++ (new1 ++ new2), ?_, ?_⟩
        · rw [hrun, bind_run_ok hop, bind_run_error hmemo]
          simp only [List.append_assoc]
        · intro ev hev
          rcases List.mem_append.1 hev with h | h
          · exact hprep ev h
          · rcases List.mem_append.1 h with h | h
            · exact ⟨(hfill1 ev h).2, (isFilling_not_submit (hfill1 ev h).1).1,
                (isFilling_not_submit (hfill1 ev h).1).2⟩
            · exact ⟨isBuild_isAssembly (hfill2 ev h).2,
                (isFilling_not_submit (hfill2 ev h).1).1,
                (isFilling_not_submit (hfill2 ev h).1).2⟩
      | ok u2 =>
        obtain ⟨r3, new3, hsign, hnofill, hsubmit, hbuild⟩ := signAndSubmit_run (σ := σ) self
          builder src w s (t ++ openingEvents self src dst acct probe fee builder ++ new1 ++ new2)
        right
        refine ⟨acct, probe, flag, fee, builder, new1, new2, new3, r3, h1, h2, h3, h4, ?_,
          fun hf => hcreate rfl hf, fun hf => hpay rfl hf, hfill2, hnofill, hsubmit, hbuild⟩
        rw [hrun, bind_run_ok hop, bind_run_ok hmemo, hsign]
        simp only [List.append_assoc]

/-! ## The message of the `catch` block -/

theorem responseData_some {e data : JSValue} (h : responseData e = some data) :
    (e.prop "response").truthy = true ∧ data = (e.prop "response").prop "data"
      ∧ data.truthy = true := by
  unfold responseData at h
  split at h
  · rename_i hc
    simp only [Bool.and_eq_true] at hc
    cases h
    exact ⟨hc.1, rfl, hc.2⟩
  · cases h

theorem resultCodes_some {e codes : JSValue} (h : resultCodes e = some codes) :
    ∃ data, responseData e = some data ∧ (data.prop "extras").truthy = true
      ∧ codes = (data.prop "extras").prop "result_codes" ∧ codes.truthy = true := by
  unfold resultCodes at h
  split at h
  · rename_i data hd
    split at h
    · rename_i hc
      simp only [Bool.and_eq_true] at hc
      cases h
      exact ⟨data, hd, hc.1, rfl, hc.2⟩
    · cases h
  · cases h

/-- The message of the `catch` block of `sendPayment`, by the kind of failure. -/
theorem paymentErrorMessage_cases (e : JSValue) (hn : e.isNullish = false) :
    (∀ codes, resultCodes e = some codes → (codes.prop "operations").truthy = false →
        paymentErrorMessage e
          = .ok (.string ("Transaction failed: " ++ (codes.prop "transaction").toStr)))
    ∧ (∀ codes operations, resultCodes e = some codes →
        codes.prop "operations" = .array operations →
        paymentErrorMessage e
          = .ok (.string ("Transaction failed: " ++ (codes.prop "transaction").toStr ++ " - "
              ++ JSValue.joinItems ", " operations)))
    ∧ (∀ data, responseData e = some data → resultCodes e = none →
        paymentErrorMessage e = .ok (.string "Unknown error occurred"))
    ∧ (responseData e = none → paymentErrorMessage e = .ok (e.prop "message")) := by
  have hstart : ∀ data, responseData e = some data →
      paymentErrorMessage e =
        (do
          let extras ← data.get "extras"
          let resultCodes ← if extras.truthy then extras.get "result_codes" else pure extras
          if resultCodes.truthy then
            let transaction ← resultCodes.get "transaction"
            let errorMessage := "Transaction failed: " ++ transaction.toStr
            let operations ← resultCodes.get "operations"
            if operations.truthy then
              let joined ← operations.join ", "
              pure (.string (errorMessage ++ " - " ++ joined))
            else pure (.string errorMessage)
          else pure (.string "Unknown error occurred")) := by
    intro data hd
    obtain ⟨hr, rfl, hdt⟩ := responseData_some hd
    unfold paymentErrorMessage
    simp only [get_of_not_nullish hn, bind, Except.bind, hr, if_true,
      get_of_not_nullish (not_nullish_of_truthy hr), hdt]
  have hcodes : ∀ codes, resultCodes e = some codes →
      paymentErrorMessage e =
        (do
          let transaction ← codes.get "transaction"
          let errorMessage := "Transaction failed: " ++ transaction.toStr
          let operations ← codes.get "operations"
          if operations.truthy then
            let joined ← operations.join ", "
            pure (.string (errorMessage ++ " - " ++ joined))
          else pure (.string errorMessage)) := by
    intro codes hc
    obtain ⟨data, hd, hx, rfl, hct⟩ := resultCodes_some hc
    rw [hstart data hd]
    obtain ⟨-, -, hdt⟩ := responseData_some hd
    simp only [get_of_not_nullish (not_nullish_of_truthy hdt), bind, Except.bind, hx, if_true,
      get_of_not_nullish (not_nullish_of_truthy hx), hct]
  refine ⟨?_, ?_, ?_, ?_⟩
  · intro codes hc hops
    obtain ⟨data, hd, hx, hcd, hct⟩ := resultCodes_some hc
    rw [hcodes codes hc]
    simp [get_of_not_nullish (not_nullish_of_truthy hct), bind, Except.bind, hops, pure,
      Except.pure]
  · intro codes operations hc hops
    obtain ⟨data, hd, hx, hcd, hct⟩ := resultCodes_some hc
    rw [hcodes codes hc]
    simp [get_of_not_nullish (not_nullish_of_truthy hct), bind, Except.bind, hops, pure,
      Except.pure, JSValue.truthy, JSValue.join]
  · intro data hd hnone
    rw [hstart data hd]
    obtain ⟨-, -, hdt⟩ := responseData_some hd
    have hfalse : (if (data.prop "extras").truthy then (data.prop "extras").prop "result_codes"
        else data.prop "extras").truthy = false := by
      unfold resultCodes at hnone
      rw [hd] at hnone
      simp only [] at hnone
      by_cases hx : (data.prop "extras").truthy = true
      · rw [if_pos hx]
        rw [hx] at hnone
        simp only [Bool.true_and] at hnone
        by_cases hc : ((data.prop "extras").prop "result_codes").truthy = true
        · rw [if_pos hc] at hnone
          cases hnone
        · simpa using hc
      · rw [if_neg hx]
        simpa using hx
    by_cases hx : (data.prop "extras").truthy = true
    · rw [if_pos hx] at hfalse
      simp [get_of_not_nullish (not_nullish_of_truthy hdt), bind, Except.bind, hx,
        get_of_not_nullish (not_nullish_of_truthy hx), hfalse, pure, Except.pure]
    · rw [if_neg hx] at hfalse
      simp [get_of_not_nullish (not_nullish_of_truthy hdt), bind, Except.bind, hx, hfalse, pure,
        Except.pure]
  · intro hnone
    unfold paymentErrorMessage
    have hfalse : (if (e.prop "response").truthy then (e.prop "response").prop "data"
        else e.prop "response").truthy = false := by
      unfold responseData at hnone
      by_cases hr : (e.prop "response").truthy = true
      · rw [if_pos hr]
        rw [hr] at hnone
        simp only [Bool.true_and] at hnone
        by_cases hc : ((e.prop "response").prop "data").truthy = true
        · rw [if_pos hc] at hnone
          cases hnone
        · simpa using hc
      · rw [if_neg hr]
        simpa using hr
    by_cases hr : (e.prop "response").truthy = true
    · rw [if_pos hr] at hfalse
      simp [get_of_not_nullish hn, bind, Except.bind, hr,
        get_of_not_nullish (not_nullish_of_truthy hr), hfalse, pure, Except.pure]
    · rw [if_neg hr] at hfalse
      simp [get_of_not_nullish hn, bind, Except.bind, hr, hfalse, pure, Except.pure]

/-! ## `getAccountBalance` -/

theorem truthy_of_asset_type {b : JSValue} (h : b.prop "asset_type" = .string "native") :
    b.truthy = true := by
  cases b <;> first | rfl | simp [JSValue.prop, JSValue.get, JSValue.ofNat] at h

/-- On an array of values other than `undefined` and `null`, the search of
`getAccountBalance` returns the first balance of the native asset. -/
theorem findNative_eq (balances : List JSValue) (h : ∀ b ∈ balances, b.isNullish = false) :
    findNative balances = .ok ((firstNative balances).getD .undefined) := by
  induction balances with
  | nil => rfl
  | cons b rest ih =>
    have hb := h b (List.mem_cons_self _ _)
    have hrest := ih (fun x hx => h x (List.mem_cons_of_mem _ hx))
    unfold findNative firstNative
    rw [get_of_not_nullish hb]
    by_cases hn : b.prop "asset_type" = .string "native"
    · simp [hn, List.find?]
    · simp only [hn, if_false, List.find?, decide_False]
      exact hrest

theorem firstNative_some {balances : List JSValue} {entry : JSValue}
    (h : firstNative balances = some entry) : entry.prop "asset_type" = .string "native" := by
  unfold firstNative at h
  simpa using List.find?_some h

/-- The method `getAccountBalance` in terms of the outcome of `loadAccount`. -/
theorem getAccountBalance_run {σ : Type} (self : StellarManager) (publicKey : JSValue)
    (w : World) (s : σ) (t : Trace) :
    self.getAccountBalance publicKey w s t =
      (match w t (.loadAccount self.server publicKey) with
       | .error e =>
          (match isNotFound e with
           | .ok true => .ok (.string "Account not found")
           | .ok false => .error e
           | .error e2 => .error e2,
           s, t ++ [⟨.loadAccount self.server publicKey, .error e⟩])
       | .ok account =>
          (match nativeBalance account with
           | .ok xlmBalance =>
              if xlmBalance.truthy then
                .ok (.string ((parseFloat (xlmBalance.prop "balance")).toFixed 7))
              else .ok (.string "0")
           | .error e =>
              match isNotFound e with
              | .ok true => .ok (.string "Account not found")
              | .ok false => .error e
              | .error e2 => .error e2,
           s, t ++ [⟨.loadAccount self.server publicKey, .ok account⟩])) := by
  unfold StellarManager.getAccountBalance Async.tryCatch
  simp only [perform_bind, ofExcept_bind]
  cases w t (.loadAccount self.server publicKey) with
  | error e =>
    simp only []
    cases isNotFound e with
    | error e2 => rfl
    | ok b => cases b <;> rfl
  | ok account =>
    simp only []
    cases hnb : nativeBalance account with
    | error e =>
      simp only []
      cases isNotFound e with
      | error e2 => rfl
      | ok b => cases b <;> rfl
    | ok xlmBalance =>
      simp only []
      by_cases htr : xlmBalance.truthy = true
      · simp only [htr, if_true, ofExcept_bind,
          get_of_not_nullish (not_nullish_of_truthy htr)]
        rfl
      · simp only [htr]
        rfl

/-! ## The text of numbers: no capital `A` -/

theorem digitChar_ne_A {d : ℕ} (h : d < 10) : digitChar d ≠ 'A' := by
  interval_cases d <;> decide

theorem toDecimalAux_ne_A (fuel : ℕ) : ∀ (n : ℕ) (acc : List Char),
    (∀ c ∈ acc, c ≠ 'A') → ∀ c ∈ toDecimalAux fuel n acc, c ≠ 'A' := by
  induction fuel with
  | zero => intro n acc h; simpa [toDecimalAux] using h
  | succ fuel ih =>
    intro n acc h
    unfold toDecimalAux
    split
    · rename_i hlt
      intro c hc
      rcases List.mem_cons.1 hc with rfl | hc
      · exact digitChar_ne_A hlt
      · exact h c hc
    · apply ih
      intro c hc
      rcases List.mem_cons.1 hc with rfl | hc
      · exact digitChar_ne_A (Nat.mod_lt _ (by norm_num))
      · exact h c hc

theorem toDecimal_ne_A (n : ℕ) : ∀ c ∈ toDecimal n, c ≠ 'A' :=
  toDecimalAux_ne_A (n + 1) n [] (by simp)

theorem positiveToString_ne_A (x : ℚ) : ∀ c ∈ (positiveToString x).data, c ≠ 'A' := by
  have happ : ∀ l1 l2 : List Char, (∀ c ∈ l1, c ≠ 'A') → (∀ c ∈ l2, c ≠ 'A') →
      ∀ c ∈ l1 ++ l2, c ≠ 'A' := by
    intro l1 l2 h1 h2 c hc
    rcases List.mem_append.1 hc with h | h
    · exact h1 c h
    · exact h2 c h
  have hcons : ∀ (a : Char) (l : List Char), a ≠ 'A' → (∀ c ∈ l, c ≠ 'A') →
      ∀ c ∈ a :: l, c ≠ 'A' := by
    intro a l h1 h2 c hc
    rcases List.mem_cons.1 hc with h | h
    · rw [h]
      exact h1
    · exact h2 c h
  have htake : ∀ (k : ℕ) (l : List Char), (∀ c ∈ l, c ≠ 'A') → ∀ c ∈ l.take k, c ≠ 'A' :=
    fun k l h c hc => h c (List.mem_of_mem_take hc)
  have hdrop : ∀ (k : ℕ) (l : List Char), (∀ c ∈ l, c ≠ 'A') → ∀ c ∈ l.drop k, c ≠ 'A' :=
    fun k l h c hc => h c (List.mem_of_mem_drop hc)
  have hrep : ∀ (k : ℕ), ∀ c ∈ List.replicate k '0', c ≠ 'A' := by
    intro k c hc
    rw [List.mem_replicate] at hc
    rw [hc.2]
    decide
  have hsign : ∀ (b : Prop) [Decidable b], (if b then '+' else '-') ≠ 'A' := by
    intro b _
    split <;> decide
  have hdot : '.' ≠ 'A' := by decide
  have he : 'e' ≠ 'A' := by decide
  have hzero : '0' ≠ 'A' := by decide
  have hd := toDecimal_ne_A
  generalize hds : toDecimal (if (shortestDigitsFrom x (decimalExponent x) 17 1).2 =
      10 ^ (shortestDigitsFrom x (decimalExponent x) 17 1).1
    then 10 ^ ((shortestDigitsFrom x (decimalExponent x) 17 1).1 - 1)
    else (shortestDigitsFrom x (decimalExponent x) 17 1).2) = ds
  have hds' : ∀ c ∈ ds, c ≠ 'A' := by
    rw [← hds]
    exact hd _
  unfold positiveToString
  simp only [hds]
  generalize (if (shortestDigitsFrom x (decimalExponent x) 17 1).2 =
      10 ^ (shortestDigitsFrom x (decimalExponent x) 17 1).1
    then decimalExponent x + 1 else decimalExponent x) = n
  generalize (shortestDigitsFrom x (decimalExponent x) 17 1).1 = k
  split
  · split
    · exact happ _ _ hds' (hrep _)
    · split
      · exact happ _ _ (htake _ _ hds') (hcons _ _ hdot (hdrop _ _ hds'))
      · exact hcons _ _ hzero (hcons _ _ hdot (happ _ _ (hrep _) hds'))
  · split
    · exact happ _ _ hds' (hcons _ _ he (hcons _ _ (hsign _) (hd _)))
    · exact happ _ _ (htake _ _ hds') (hcons _ _ hdot (happ _ _ (hdrop _ _ hds')
        (hcons _ _ he (hcons _ _ (hsign _) (hd _)))))

theorem toString_ne_A (x : JSNumber) : ∀ c ∈ x.toString.data, c ≠ 'A' := by
  have hminus : ∀ c ∈ "-".data, c ≠ 'A' := by decide
  cases x with
  | nan => decide
  | posInf => decide
  | negInf => decide
  | finite q =>
    unfold JSNumber.toString
    simp only []
    split
    · decide
    · split
      · intro c hc
        rw [String.data_append] at hc
        rcases List.mem_append.1 hc with h | h
        · exact hminus c h
        · exact positiveToString_ne_A _ c h
      · exact positiveToString_ne_A _

theorem toFixed_ne_A (x : JSNumber) (f : ℕ) : ∀ c ∈ (x.toFixed f).data, c ≠ 'A' := by
  have hsign : ∀ (b : Prop) [Decidable b], ∀ c ∈ (if b then "-" else "").data, c ≠ 'A' := by
    intro b _
    split <;> decide
  have hfixed : ∀ n : ℕ, ∀ c ∈ fixedDigits n f, c ≠ 'A' := by
    intro n
    unfold fixedDigits
    simp only []
    split
    · exact toDecimal_ne_A _
    · have hm : ∀ c ∈ (if (toDecimal n).length ≤ f then
          List.replicate (f + 1 - (toDecimal n).length) '0' ++ toDecimal n else toDecimal n),
          c ≠ 'A' := by
        split
        · intro c hc
          rcases List.mem_append.1 hc with h | h
          · rw [List.mem_replicate] at h
            rw [h.2]
            decide
          · exact toDecimal_ne_A _ c h
        · exact toDecimal_ne_A _
      intro c hc
      rcases List.mem_append.1 hc with h | h
      · exact hm c (List.mem_of_mem_take h)
      · rcases List.mem_cons.1 h with h | h
        · rw [h]
          decide
        · exact hm c (List.mem_of_mem_drop h)
  cases x with
  | nan => exact toString_ne_A .nan
  | posInf => exact toString_ne_A .posInf
  | negInf => exact toString_ne_A .negInf
  | finite q =>
    unfold JSNumber.toFixed
    simp only []
    have hs := hsign (q < 0)
    generalize (if q < 0 then "-" else "") = sgn at hs
    generalize (if q < 0 then -q else q) = a
    split
    · intro c hc
      rw [String.data_append] at hc
      rcases List.mem_append.1 hc with h | h
      · exact hs c h
      · exact toString_ne_A _ c h
    · intro c hc
      rw [String.data_append] at hc
      rcases List.mem_append.1 hc with h | h
      · exact hs c h
      · exact hfixed _ c h

theorem toFixed_ne_sentinel (x : JSNumber) (f : ℕ) : x.toFixed f ≠ "Account not found" := by
  intro h
  have := toFixed_ne_A x f 'A' (by rw [h]; decide)
  exact this rfl

theorem get_error {v e : JSValue} {key : String} (h : v.get key = .error e) :
    ∃ msg, e = typeError msg := by
  cases v <;> simp [JSValue.get] at h <;> exact ⟨_, h.symm⟩

theorem findNative_error {balances : List JSValue} {e : JSValue}
    (h : findNative balances = .error e) : ∃ msg, e = typeError msg := by
  induction balances with
  | nil => cases h
  | cons b rest ih =>
    unfold findNative at h
    split at h
    · rename_i e2 hget
      cases h
      exact get_error hget
    · split at h
      · cases h
      · exact ih h

theorem nativeBalance_error {account e : JSValue} (h : nativeBalance account = .error e) :
    ∃ msg, e = typeError msg := by
  unfold nativeBalance at h
  cases hget : account.get "balances" with
  | error e2 =>
    rw [hget] at h
    cases h
    exact get_error hget
  | ok balances =>
    rw [hget] at h
    simp only [bind, Except.bind] at h
    cases balances <;> simp only [] at h <;>
      first
        | exact findNative_error h
        | (cases h; exact ⟨_, rfl⟩)

theorem isNotFound_typeError (msg : String) : isNotFound (typeError msg) = .ok false := by
  simp [isNotFound, typeError, JSValue.get, List.lookup, bind, Except.bind, JSValue.truthy, pure,
    Except.pure]

theorem isNotFound_ok {e : JSValue} {b : Bool} (h : isNotFound e = .ok b) :
    e.isNullish = false ∧ b = hasStatus404 e := by
  have hn : e.isNullish = false := by
    cases e <;> first | rfl | (simp [isNotFound, JSValue.get, bind, Except.bind] at h)
  rw [isNotFound_of_not_nullish hn] at h
  cases h
  exact ⟨hn, rfl⟩

/-! ## `getRecentTransactions` -/

theorem transactionSummary_of_not_nullish {tx : JSValue} (h : tx.isNullish = false) :
    transactionSummary tx = .ok (summaryOf tx) := by
  simp [transactionSummary, summaryOf, get_of_not_nullish h, bind, Except.bind, pure,
    Except.pure]

theorem mapItems_transactionSummary (records : List JSValue)
    (h : ∀ r ∈ records, r.isNullish = false) :
    mapItems transactionSummary records = .ok (records.map summaryOf) := by
  induction records with
  | nil => rfl
  | cons r rs ih =>
    have hr := transactionSummary_of_not_nullish (h r (List.mem_cons_self _ _))
    have hrs := ih (fun x hx => h x (List.mem_cons_of_mem _ hx))
    simp [mapItems, hr, hrs]

/-! ## Runs of `sendPayment` that succeed -/

theorem bind_run_ok_inv {σ α β : Type} {m : Async σ α} {f : α → Async σ β} {w : World}
    {s s1 : σ} {t t1 : Trace} {b : β} (h : (m >>= f) w s t = (.ok b, s1, t1)) :
    ∃ a s2 t2, m w s t = (.ok a, s2, t2) ∧ f a w s2 t2 = (.ok b, s1, t1) := by
  rw [bind_run] at h
  rcases hm : m w s t with ⟨r, s2, t2⟩
  rw [hm] at h
  cases r with
  | ok a => exact ⟨a, s2, t2, rfl, h⟩
  | error e => cases h

theorem signAndSubmit_ok {σ : Type} {self : StellarManager} {builder src : JSValue}
    {w : World} {s s1 : σ} {t t1 : Trace} {v : JSValue}
    (h : signAndSubmit self builder src w s t = (.ok v, s1, t1)) :
    ∃ earlier signedTransaction result,
      t1 = earlier ++ [⟨.submitTransaction self.server signedTransaction, .ok result⟩]
      ∧ v = .object [("success", .bool true), ("hash", result.prop "hash"),
          ("ledger", result.prop "ledger"), ("result", result)] := by
  revert h
  unfold signAndSubmit
  repeat' first
    | split
    | simp only [perform_bind, ofExcept_bind, callOn_bind, throw_bind, pure_bind_run, pure_run,
        throw_run]
  all_goals intro h
  all_goals simp only [Prod.mk.injEq, reduceCtorEq, false_and, Except.ok.injEq] at h
  rename_i hhash _ _ hledger
  obtain ⟨rfl, rfl, rfl⟩ := h
  refine ⟨_, _, _, rfl, ?_⟩
  simp [JSValue.prop, hhash, hledger]

theorem sendPaymentBody_ok {σ : Type} {self : StellarManager} {src dst amount memo : JSValue}
    {w : World} {s s1 : σ} {t t1 : Trace} {v : JSValue}
    (h : sendPaymentBody self src dst amount memo w s t = (.ok v, s1, t1)) :
    ∃ earlier signedTransaction result,
      t1 = earlier ++ [⟨.submitTransaction self.server signedTransaction, .ok result⟩]
      ∧ v = .object [("success", .bool true), ("hash", result.prop "hash"),
          ("ledger", result.prop "ledger"), ("result", result)] := by
  unfold sendPaymentBody at h
  obtain ⟨_, _, _, -, h⟩ := bind_run_ok_inv h
  obtain ⟨_, _, _, -, h⟩ := bind_run_ok_inv h
  obtain ⟨_, _, _, -, h⟩ := bind_run_ok_inv h
  obtain ⟨_, _, _, -, h⟩ := bind_run_ok_inv h
  obtain ⟨_, _, _, -, h⟩ := bind_run_ok_inv h
  obtain ⟨_, _, _, -, h⟩ := bind_run_ok_inv h
  obtain ⟨_, _, _, -, h⟩ := bind_run_ok_inv h
  exact signAndSubmit_ok h

/-- The `catch` block of `sendPayment` computes a message for every failure it can
read. -/
theorem paymentErrorMessage_of_readable {e : JSValue} (h : readableFailure e = true) :
    ∃ message, paymentErrorMessage e = .ok message := by
  unfold readableFailure at h
  simp only [Bool.and_eq_true, Bool.not_eq_true'] at h
  obtain ⟨hn, hcodes⟩ := h
  obtain ⟨h1, h2, h3, h4⟩ := paymentErrorMessage_cases e hn
  cases hrc : resultCodes e with
  | some codes =>
    rw [hrc] at hcodes
    simp only [Bool.or_eq_true, Bool.not_eq_true'] at hcodes
    rcases hcodes with hf | ha
    · exact ⟨_, h1 codes hrc hf⟩
    · cases hops : codes.prop "operations" with
      | array operations => exact ⟨_, h2 codes operations hrc hops⟩
      | _ => rw [hops] at ha; cases ha
  | none =>
    cases hd : responseData e with
    | some data => exact ⟨_, h3 data hd hrc⟩
    | none => exact ⟨_, h4 hd⟩

/-! ## The methods of `WalletManager` -/

theorem showStatus_bind {β : Type} (message type : String) (f : Unit → Async Browser β)
    (w : World) (b : Browser) (t : Trace) :
    (WalletManager.showStatus message type >>= f) w b t
      = f () w { b with page := b.page.withStatus message type } t := rfl

theorem showStatus_run (message type : String) (w : World) (b : Browser) (t : Trace) :
    WalletManager.showStatus message type w b t
      = (.ok (), { b with page := b.page.withStatus message type }, t) := rfl

theorem isXBullAvailable_bind {β : Type} (f : Bool → Async Browser β) (w : World)
    (b : Browser) (t : Trace) :
    (WalletManager.isXBullAvailable >>= f) w b t =
      (match w t .xBullSDK with
       | .ok sdk => f (decide (sdk ≠ .undefined)) w b (t ++ [⟨.xBullSDK, .ok sdk⟩])
       | .error e => (.error e, b, t ++ [⟨.xBullSDK, .error e⟩])) := by
  show Async.bind WalletManager.isXBullAvailable f w b t = _
  unfold Async.bind WalletManager.isXBullAvailable
  simp only [perform_bind]
  cases w t .xBullSDK <;> rfl

theorem callOn_run {σ : Type} (r : JSValue) (m : String) (c : Call) (w : World) (s : σ)
    (t : Trace) :
    callOn r m c w s t =
      (if r.isNullish then
        (.error (typeError ("Cannot read properties of " ++ r.toStr ++ " (reading " ++ m ++ ")")),
          s, t)
       else (w t c, s, t ++ [⟨c, w t c⟩])) := by
  unfold callOn
  split <;> rfl

/-- The steps up to `getPublicKey` write one status message and nothing else. -/
theorem requestPublicKey_state {w : World} {b b1 : Browser} {t t1 : Trace}
    {r : Except JSValue JSValue} (h : requestPublicKey w b t = (r, b1, t1)) :
    b1 = { b with page := b.page.withStatus "Connecting to xBull Wallet..." "info" } := by
  revert h
  unfold requestPublicKey
  simp only [showStatus_bind, isXBullAvailable_bind]
  repeat' first
    | split
    | simp only [perform_bind, ofExcept_bind, callOn_bind, throw_bind, pure_bind_run, pure_run,
        throw_run, callOn_run]
  all_goals intro h
  all_goals simp only [Prod.mk.injEq] at h
  all_goals exact h.2.1.symm

/-! ## Reaching `build` -/

/-- When every call of `addPaymentOperation` returns, it returns: the amount being one
unit at least where an account is created, and a value other than `undefined` and
`null`. -/
theorem addPaymentOperation_progress {σ : Type} (builder : JSValue) (createAccount : Bool)
    (dst amount : JSValue) (w : World) (s : σ) (t : Trace)
    (hamount : createAccount = true → (parseFloat amount).lt (.finite 1) = false)
    (hvalue : amount.isNullish = false) :
    ∃ r new, addPaymentOperation builder createAccount dst amount w s t = (r, s, t ++ new)
      ∧ ((∀ ev ∈ new, ev.permitsBuild = true) → r = .ok ()) := by
  unfold addPaymentOperation
  simp only [toStringMethod_of_not_nullish hvalue]
  repeat' first
    | split
    | simp only [perform_bind, ofExcept_bind, throw_bind, pure_bind_run, pure_run, throw_run]
  all_goals try simp only [List.append_assoc]
  all_goals first
    | refine ⟨_, _, rfl, ?_⟩
    | refine ⟨_, [], by rw [List.append_nil], ?_⟩
  all_goals simp_all [Event.permitsBuild, Call.precedesBuild, Call.isFilling,
    Call.resultIsReceiver]

/-- When every call of `addPaymentMemo` returns, it returns. -/
theorem addPaymentMemo_progress {σ : Type} (builder memo : JSValue) (w : World) (s : σ)
    (t : Trace) :
    ∃ r new, addPaymentMemo builder memo w s t = (r, s, t ++ new)
      ∧ ((∀ ev ∈ new, ev.permitsBuild = true) → r = .ok ()) := by
  unfold addPaymentMemo
  repeat' first
    | split
    | simp only [perform_bind, ofExcept_bind, throw_bind, pure_bind_run, pure_run, throw_run]
  all_goals try simp only [List.append_assoc]
  all_goals first
    | refine ⟨_, _, rfl, ?_⟩
    | refine ⟨_, [], by rw [List.append_nil], ?_⟩
  all_goals simp_all [Event.permitsBuild, Call.precedesBuild, Call.isFilling,
    Call.resultIsReceiver]

/-- When `setTimeout` returns a value other than `undefined` and `null`, `signAndSubmit`
calls `build`. -/
theorem signAndSubmit_progress {σ : Type} (self : StellarManager) (builder src : JSValue)
    (w : World) (s : σ) (t : Trace) :
    ∃ r new, signAndSubmit self builder src w s t = (r, s, t ++ new)
      ∧ ((∀ ev ∈ new, ev.permitsBuild = true) → ∃ ev ∈ new, ev.call.isBuild = true) := by
  unfold signAndSubmit
  repeat' first
    | split
    | simp only [perform_bind, ofExcept_bind, callOn_bind, throw_bind, pure_bind_run, pure_run,
        throw_run]
  all_goals try simp only [List.append_assoc]
  all_goals refine ⟨_, _, rfl, ?_⟩
  all_goals simp_all [Event.permitsBuild, Call.precedesBuild, Call.isFilling,
    Call.resultIsReceiver, Call.isBuild]

theorem lt_one_of_one_le {x : JSNumber} (h : JSNumber.le (.finite 1) x = true) :
    x.lt (.finite 1) = false := by
  cases x with
  | finite q =>
    simp only [JSNumber.le, decide_eq_true_eq] at h
    simp only [JSNumber.lt, decide_eq_false_iff_not, not_lt]
    exact h
  | _ => first | rfl | cases h

theorem not_nullish_of_one_le {v : JSValue} (h : JSNumber.le (.finite 1) (parseFloat v) = true) :
    v.isNullish = false := by
  cases v with
  | undefined => exact absurd h (by decide!)
  | null => exact absurd h (by decide!)
  | _ => rfl

/-- The steps of `sendPayment` after the probe of the destination, from the request for
the fee on: when every call that precedes `build` lets it go on, `build` is called. -/
theorem sendPayment_steps_reach_build {σ : Type} (self : StellarManager)
    (src dst amount memo acct : JSValue) (createAccount : Bool) (w : World) (s : σ) (t : Trace)
    (hamount : createAccount = true → (parseFloat amount).lt (.finite 1) = false)
    (hvalue : amount.isNullish = false) :
    ∃ r new,
      (do
        let fee ← perform (.fetchBaseFee self.server)
        let feeString ← Async.ofExcept fee.toStringMethod
        let transactionBuilder ←
          perform (.newTransactionBuilder acct feeString self.networkPassphrase)
        addPaymentOperation transactionBuilder createAccount dst amount
        addPaymentMemo transactionBuilder memo
        signAndSubmit self transactionBuilder src : Async σ JSValue) w s t = (r, s, t ++ new)
      ∧ ((∀ ev ∈ new, ev.permitsBuild = true) → ∃ ev ∈ new, ev.call.isBuild = true) := by
  rw [perform_bind]
  rcases hfee : w t (.fetchBaseFee self.server) with e | fee
  · refine ⟨_, _, rfl, fun H => ?_⟩
    simp [Event.permitsBuild, Call.precedesBuild] at H
  simp only []
  rw [ofExcept_bind]
  by_cases hn : fee.isNullish = true
  · have hts : fee.toStringMethod
        = .error (typeError ("Cannot read properties of " ++ fee.toStr ++ " (reading toString)")) := by
      simp [JSValue.toStringMethod, hn]
    rw [hts]
    refine ⟨_, _, rfl, fun H => ?_⟩
    simp [Event.permitsBuild, Call.precedesBuild, Call.resultIsReceiver, hn] at H
  rw [toStringMethod_of_not_nullish (by simpa using hn)]
  simp only []
  rw [perform_bind]
  rcases hb : w (t ++ [⟨.fetchBaseFee self.server, .ok fee⟩])
    (.newTransactionBuilder acct fee.toStr self.networkPassphrase) with e | builder
  · simp only [hb, List.append_assoc, List.cons_append, List.nil_append]
    refine ⟨_, _, rfl, fun H => ?_⟩
    simp [Event.permitsBuild, Call.precedesBuild] at H
  simp only [hb, List.append_assoc, List.cons_append, List.nil_append]
  obtain ⟨r1, new1, h1, p1⟩ := addPaymentOperation_progress (σ := σ) builder createAccount dst
    amount w s (t ++ [⟨.fetchBaseFee self.server, .ok fee⟩,
      ⟨.newTransactionBuilder acct fee.toStr self.networkPassphrase, .ok builder⟩]) hamount hvalue
  cases r1 with
  | error e =>
    rw [bind_run_error h1]
    simp only [List.append_assoc, List.cons_append, List.nil_append]
    refine ⟨_, _, rfl, fun H => ?_⟩
    have := p1 fun ev hev => H ev (List.mem_cons_of_mem _ (List.mem_cons_of_mem _ hev))
    cases this
  | ok u =>
    rw [bind_run_ok h1]
    obtain ⟨r2, new2, h2, p2⟩ := addPaymentMemo_progress (σ := σ) builder memo w s
      (t ++ [⟨.fetchBaseFee self.server, .ok fee⟩,
        ⟨.newTransactionBuilder acct fee.toStr self.networkPassphrase, .ok builder⟩] ++ new1)
    cases r2 with
    | error e =>
      rw [bind_run_error h2]
      simp only [List.append_assoc, List.cons_append, List.nil_append]
      refine ⟨_, _, rfl, fun H => ?_⟩
      have := p2 fun ev hev => H ev (List.mem_cons_of_mem _ (List.mem_cons_of_mem _
        (List.mem_append_right _ hev)))
      cases this
    | ok u2 =>
      rw [bind_run_ok h2]
      obtain ⟨r3, new3, h3, p3⟩ := signAndSubmit_progress (σ := σ) self builder src w s
        (t ++ [⟨.fetchBaseFee self.server, .ok fee⟩,
          ⟨.newTransactionBuilder acct fee.toStr self.networkPassphrase, .ok builder⟩]
          ++ new1 ++ new2)
      rw [h3]
      simp only [List.append_assoc, List.cons_append, List.nil_append]
      refine ⟨_, _, rfl, fun H => ?_⟩
      obtain ⟨ev, hev, hbuild⟩ := p3 fun ev hev => H ev (List.mem_cons_of_mem _
        (List.mem_cons_of_mem _ (List.mem_append_right _ (List.mem_append_right _ hev))))
      exact ⟨ev, List.mem_cons_of_mem _ (List.mem_cons_of_mem _
        (List.mem_append_right _ (List.mem_append_right _ hev))), hbuild⟩

/-- From a loaded source account and a probed destination, `sendPayment` reaches `build`
when every call that precedes it lets it go on: the amount being one unit at least where
an account is created, and a value other than `undefined` and `null`. -/
theorem sendPayment_reaches_build {σ : Type} (self : StellarManager)
    (src dst amount memo : JSValue) (w : World) (s : σ) (t : Trace) (acct : JSValue)
    (probe : Except JSValue JSValue) (createAccount : Bool)
    (hsrc : w t (.loadAccount self.server src) = .ok acct)
    (hdst : w (t ++ [⟨.loadAccount self.server src, .ok acct⟩]) (.loadAccount self.server dst)
      = probe)
    (hok : ∀ v, probe = .ok v → createAccount = false)
    (herr : ∀ e, probe = .error e → isNotFound e = .ok createAccount)
    (hamount : createAccount = true → (parseFloat amount).lt (.finite 1) = false)
    (hvalue : amount.isNullish = false)
    (H : ∀ ev ∈ eventsSince t (self.sendPayment src dst amount memo w s t),
      ev.permitsBuild = true) :
    ∃ ev ∈ eventsSince t (self.sendPayment src dst amount memo w s t),
      ev.call.isBuild = true := by
  revert H
  unfold eventsSince
  rw [sendPayment_trace]
  have hbody : sendPaymentBody self src dst amount (effectiveMemo memo) w s t =
      (do
        let fee ← perform (.fetchBaseFee self.server)
        let feeString ← Async.ofExcept fee.toStringMethod
        let transactionBuilder ←
          perform (.newTransactionBuilder acct feeString self.networkPassphrase)
        addPaymentOperation transactionBuilder createAccount dst amount
        addPaymentMemo transactionBuilder (effectiveMemo memo)
        signAndSubmit self transactionBuilder src : Async σ JSValue) w s
        (t ++ [⟨.loadAccount self.server src, .ok acct⟩, ⟨.loadAccount self.server dst, probe⟩]) := by
    unfold sendPaymentBody
    rw [perform_bind, hsrc]
    simp only []
    rw [probeDestination_bind, hdst]
    cases probe with
    | ok v =>
      rw [hok v rfl]
      simp only [List.append_assoc, List.cons_append, List.nil_append]
    | error e =>
      simp only [herr e rfl, List.append_assoc, List.cons_append, List.nil_append]
  obtain ⟨r, new, hrun, hprog⟩ := sendPayment_steps_reach_build (σ := σ) self src dst amount
    (effectiveMemo memo) acct createAccount w s
    (t ++ [⟨.loadAccount self.server src, .ok acct⟩, ⟨.loadAccount self.server dst, probe⟩])
    hamount hvalue
  rw [hbody, hrun]
  simp only [List.append_assoc, List.drop_left]
  intro H
  obtain ⟨ev, hev, hbuild⟩ := hprog fun ev hev => H ev (List.mem_append_right _ hev)
  exact ⟨ev, List.mem_append_right _ hev, hbuild⟩

/-! ## Rounding to binary64 -/

theorem bitLengthAux_spec (fuel : ℕ) : ∀ n : ℕ, n < 2 ^ fuel → 0 < n →
    2 ^ (bitLengthAux fuel n - 1) ≤ n ∧ n < 2 ^ bitLengthAux fuel n := by
  induction fuel with
  | zero =>
    intro n h hpos
    simp at h
    omega
  | succ fuel ih =>
    intro n h hpos
    unfold bitLengthAux
    rw [if_neg (by omega)]
    by_cases h1 : n / 2 = 0
    · have hn : n = 1 := by omega
      subst hn
      cases fuel <;> simp [bitLengthAux]
    · have hlt : n / 2 < 2 ^ fuel := by
        rw [pow_succ] at h
        omega
      obtain ⟨ha, hb⟩ := ih (n / 2) hlt (by omega)
      have hpos' : 0 < bitLengthAux fuel (n / 2) := by
        by_contra hc
        have : bitLengthAux fuel (n / 2) = 0 := by omega
        rw [this] at hb
        simp at hb
        omega
      constructor
      · have : bitLengthAux fuel (n / 2) + 1 - 1 = (bitLengthAux fuel (n / 2) - 1) + 1 := by omega
        rw [this, pow_succ]
        omega
      · rw [pow_succ]
        omega

theorem bitLength_spec {n : ℕ} (hpos : 0 < n) :
    2 ^ (bitLength n - 1) ≤ n ∧ n < 2 ^ bitLength n ∧ 0 < bitLength n := by
  obtain ⟨ha, hb⟩ := bitLengthAux_spec n n (Nat.lt_two_pow n) hpos
  refine ⟨ha, hb, ?_⟩
  by_contra hc
  have : bitLength n = 0 := by omega
  unfold bitLength at this
  rw [this] at hb
  simp at hb
  omega

theorem two_zpow_eq_div (k : ℤ) :
    (2 : ℚ) ^ k = (2 : ℚ) ^ k.toNat / (2 : ℚ) ^ (-k).toNat := by
  have h : k = (k.toNat : ℤ) - ((-k).toNat : ℤ) := (Int.toNat_sub_toNat_neg k).symm
  conv_lhs => rw [h]
  rw [zpow_sub₀ (by norm_num : (2 : ℚ) ≠ 0), zpow_natCast, zpow_natCast]

theorem rat_eq_natAbs_div_den {q : ℚ} (hq : 0 < q) :
    q = (q.num.natAbs : ℚ) / (q.den : ℚ) ∧ 0 < q.num.natAbs := by
  have hnum : 0 < q.num := Rat.num_pos.2 hq
  have habs : ((q.num.natAbs : ℤ) : ℚ) = (q.num : ℚ) := by
    rw [Int.natAbs_of_nonneg hnum.le]
  constructor
  · have := Rat.num_div_den q
    rw [← habs] at this
    rw [Int.cast_natCast] at this
    exact this.symm
  · exact Int.natAbs_pos.2 hnum.ne'

/-- The exponent `floorLog2` finds is that of the power of two at or below `q`. -/
theorem floorLog2_spec {q : ℚ} (hq : 0 < q) :
    (2 : ℚ) ^ floorLog2 q ≤ q ∧ q < (2 : ℚ) ^ (floorLog2 q + 1) := by
  obtain ⟨hqe, hnpos⟩ := rat_eq_natAbs_div_den hq
  have hdpos : 0 < q.den := q.den_pos
  obtain ⟨hn1, hn2, hn3⟩ := bitLength_spec hnpos
  obtain ⟨hd1, hd2, hd3⟩ := bitLength_spec hdpos
  set n := q.num.natAbs with hn
  set d := q.den with hd
  set bn := bitLength n with hbn
  set bd := bitLength d with hbd
  have hnq1 : (2 : ℚ) ^ (bn - 1) ≤ (n : ℚ) := by exact_mod_cast hn1
  have hnq2 : (n : ℚ) < (2 : ℚ) ^ bn := by exact_mod_cast hn2
  have hdq1 : (2 : ℚ) ^ (bd - 1) ≤ (d : ℚ) := by exact_mod_cast hd1
  have hdq2 : (d : ℚ) < (2 : ℚ) ^ bd := by exact_mod_cast hd2
  have hdq : (0 : ℚ) < d := by exact_mod_cast hdpos
  have hnq : (0 : ℚ) < n := by exact_mod_cast hnpos
  have h2 : ∀ m : ℕ, (0 : ℚ) < (2 : ℚ) ^ m := fun m => by positivity
  have hz : ∀ m : ℤ, (0 : ℚ) < (2 : ℚ) ^ m := fun m => by positivity
  have hbn1 : (2 : ℚ) ^ bn = 2 * (2 : ℚ) ^ (bn - 1) := by
    have : bn = (bn - 1) + 1 := by omega
    conv_lhs => rw [this, pow_succ]
    ring
  have hbd1 : (2 : ℚ) ^ bd = 2 * (2 : ℚ) ^ (bd - 1) := by
    have : bd = (bd - 1) + 1 := by omega
    conv_lhs => rw [this, pow_succ]
    ring
  have hk : (2 : ℚ) ^ ((bn : ℤ) - (bd : ℤ)) = (2 : ℚ) ^ bn / (2 : ℚ) ^ bd := by
    rw [zpow_sub₀ (by norm_num : (2 : ℚ) ≠ 0), zpow_natCast, zpow_natCast]
  unfold floorLog2
  simp only []
  rw [← hn, ← hd, ← hbn, ← hbd]
  split
  · rename_i htest
    have htq : (d : ℚ) * (2 : ℚ) ^ ((bn : ℤ) - (bd : ℤ)).toNat
        ≤ (n : ℚ) * (2 : ℚ) ^ (-((bn : ℤ) - (bd : ℤ))).toNat := by exact_mod_cast htest
    constructor
    · rw [two_zpow_eq_div, hqe, div_le_div_iff₀ (h2 _) hdq]
      linarith
    · rw [zpow_add₀ (by norm_num : (2 : ℚ) ≠ 0), hk, hqe, zpow_one, div_lt_iff₀ hdq]
      rw [div_mul_eq_mul_div, div_mul_eq_mul_div, lt_div_iff₀ (h2 _)]
      rw [hbd1]
      nlinarith [h2 (bd - 1), h2 bn]
  · rename_i htest
    have htq : (n : ℚ) * (2 : ℚ) ^ (-((bn : ℤ) - (bd : ℤ))).toNat
        < (d : ℚ) * (2 : ℚ) ^ ((bn : ℤ) - (bd : ℤ)).toNat := by
      have := not_le.1 htest
      exact_mod_cast this
    constructor
    · rw [zpow_sub₀ (by norm_num : (2 : ℚ) ≠ 0), hk, hqe, zpow_one,
        div_le_div_iff₀ (by positivity) hdq]
      rw [div_mul_eq_mul_div, div_le_iff₀ (h2 _)]
      rw [hbn1]
      nlinarith [h2 (bn - 1), h2 bd]
    · rw [sub_add_cancel, two_zpow_eq_div, hqe, div_lt_div_iff₀ hdq (h2 _)]
      linarith

theorem roundHalfEven_error (q : ℚ) : |(roundHalfEven q : ℚ) - q| ≤ 1 / 2 := by
  have h1 : (⌊q⌋ : ℚ) ≤ q := Int.floor_le q
  have h2 : q < (⌊q⌋ : ℚ) + 1 := Int.lt_floor_add_one q
  unfold roundHalfEven
  simp only []
  rw [abs_le]
  split
  · constructor <;> linarith
  · split
    · push_cast
      constructor <;> linarith
    · split
      · constructor <;> linarith
      · push_cast
        constructor <;> linarith

/-- Rounding to the grid moves a positive rational by half a unit in the last place at
most. -/
theorem roundToGrid_error (q : ℚ) :
    |roundToGrid q - q| ≤ (2 : ℚ) ^ ulpExponent q / 2 := by
  have hpos : (0 : ℚ) < (2 : ℚ) ^ ulpExponent q := by positivity
  have h := roundHalfEven_error (q / (2 : ℚ) ^ ulpExponent q)
  unfold roundToGrid
  have heq : (roundHalfEven (q / (2 : ℚ) ^ ulpExponent q) : ℚ) * (2 : ℚ) ^ ulpExponent q - q
      = ((roundHalfEven (q / (2 : ℚ) ^ ulpExponent q) : ℚ) - q / (2 : ℚ) ^ ulpExponent q)
        * (2 : ℚ) ^ ulpExponent q := by
    field_simp
  rw [heq, abs_mul, abs_of_pos hpos]
  calc |(roundHalfEven (q / (2 : ℚ) ^ ulpExponent q) : ℚ) - q / (2 : ℚ) ^ ulpExponent q|
        * (2 : ℚ) ^ ulpExponent q
      ≤ 1 / 2 * (2 : ℚ) ^ ulpExponent q := by
        exact mul_le_mul_of_nonneg_right h hpos.le
    _ = (2 : ℚ) ^ ulpExponent q / 2 := by ring

theorem floorLog2_lt {q : ℚ} (hq : 0 < q) {k : ℤ} (h : q < (2 : ℚ) ^ k) : floorLog2 q < k := by
  have h1 := (floorLog2_spec hq).1
  have h2 : (2 : ℚ) ^ floorLog2 q < (2 : ℚ) ^ k := lt_of_le_of_lt h1 h
  exact (zpow_lt_zpow_iff_right₀ (by norm_num : (1 : ℚ) < 2)).1 h2

theorem le_floorLog2 {q : ℚ} (hq : 0 < q) {k : ℤ} (h : (2 : ℚ) ^ k ≤ q) : k ≤ floorLog2 q := by
  have h1 := (floorLog2_spec hq).2
  have h2 : (2 : ℚ) ^ k < (2 : ℚ) ^ (floorLog2 q + 1) := lt_of_le_of_lt h h1
  have := (zpow_lt_zpow_iff_right₀ (by norm_num : (1 : ℚ) < 2)).1 h2
  omega

theorem ofRat_of_pos {x : ℚ} (hx : 0 < x) (h : roundToGrid x < (2 : ℚ) ^ (1024 : ℕ)) :
    JSNumber.ofRat x = .finite (roundToGrid x) := by
  unfold JSNumber.ofRat
  rw [if_neg hx.ne', if_pos hx, if_pos h]

/-- Reading an amount of `n` stroops, given in units, rounds it by less than a quarter
of a stroop. -/
theorem units_rounding {n : ℕ} (hpos : 0 < n) (hn : n < 2 ^ 51) :
    |roundToGrid ((n : ℚ) / 10000000) * 10000000 - n| < 1 / 4
      ∧ JSNumber.ofRat ((n : ℚ) / 10000000) = .finite (roundToGrid ((n : ℚ) / 10000000)) := by
  have hnq : (0 : ℚ) < n := by exact_mod_cast hpos
  have hn1 : (1 : ℚ) ≤ n := by exact_mod_cast hpos
  have hnlt : (n : ℚ) < 2 ^ (51 : ℕ) := by exact_mod_cast hn
  set q : ℚ := (n : ℚ) / 10000000 with hq
  have hqpos : 0 < q := by positivity
  have hlow : (2 : ℚ) ^ (-24 : ℤ) ≤ q := by
    rw [hq, le_div_iff₀ (by norm_num)]
    have : (2 : ℚ) ^ (-24 : ℤ) * 10000000 ≤ 1 := by norm_num
    linarith
  have hfl : -24 ≤ floorLog2 q := le_floorLog2 hqpos hlow
  have he : ulpExponent q = floorLog2 q - 52 := by
    unfold ulpExponent
    exact max_eq_left (by omega)
  have herr := roundToGrid_error q
  rw [he, zpow_sub₀ (by norm_num : (2 : ℚ) ≠ 0)] at herr
  have hspec := (floorLog2_spec hqpos).1
  have hbound : |roundToGrid q - q| ≤ q / 2 ^ (53 : ℕ) := by
    refine le_trans herr ?_
    rw [div_div, div_le_div_iff₀ (by positivity) (by positivity)]
    have h52 : ((2 : ℚ) ^ (52 : ℤ) * 2) = 2 ^ (53 : ℕ) := by norm_num
    rw [h52]
    exact mul_le_mul_of_nonneg_right hspec (by positivity)
  have hq7 : q * 10000000 = n := by
    rw [hq]
    field_simp
  have hscaled : |roundToGrid q * 10000000 - n| ≤ (n : ℚ) / 2 ^ (53 : ℕ) := by
    have : roundToGrid q * 10000000 - n = (roundToGrid q - q) * 10000000 := by
      rw [sub_mul, hq7]
    rw [this, abs_mul, abs_of_pos (by norm_num : (0 : ℚ) < 10000000)]
    calc |roundToGrid q - q| * 10000000 ≤ q / 2 ^ (53 : ℕ) * 10000000 :=
          mul_le_mul_of_nonneg_right hbound (by norm_num)
      _ = (n : ℚ) / 2 ^ (53 : ℕ) := by rw [div_mul_eq_mul_div, hq7]
  have hquarter : (n : ℚ) / 2 ^ (53 : ℕ) < 1 / 4 := by
    rw [div_lt_iff₀ (by positivity)]
    have : (1 : ℚ) / 4 * 2 ^ (53 : ℕ) = 2 ^ (51 : ℕ) := by norm_num
    rw [this]
    exact hnlt
  refine ⟨lt_of_le_of_lt hscaled hquarter, ?_⟩
  apply ofRat_of_pos hqpos
  have hd := abs_le.1 hbound
  have : roundToGrid q ≤ q + q / 2 ^ (53 : ℕ) := by linarith [hd.2]
  have hq51 : q < 2 ^ (51 : ℕ) := by
    rw [hq, div_lt_iff₀ (by norm_num)]
    have : (2 : ℚ) ^ (51 : ℕ) ≤ 2 ^ (51 : ℕ) * 10000000 := by norm_num
    linarith
  have hsmall : q / 2 ^ (53 : ℕ) ≤ q := div_le_self hqpos.le (by norm_num)
  have : roundToGrid q < 2 * 2 ^ (51 : ℕ) := by linarith
  have h1024 : (2 : ℚ) * 2 ^ (51 : ℕ) ≤ 2 ^ (1024 : ℕ) := by norm_num
  linarith

/-- A positive rational below `2 ^ 51` is rounded by an eighth at most. -/
theorem roundToGrid_error_small {q : ℚ} (hq : 0 < q) (h : q < 2 ^ (51 : ℕ)) :
    |roundToGrid q - q| ≤ 1 / 8 := by
  have hfl : floorLog2 q < 51 := floorLog2_lt hq (by
    have h51 : (2 : ℚ) ^ (51 : ℤ) = 2 ^ (51 : ℕ) := by norm_num
    rw [h51]
    exact h)
  have he : ulpExponent q ≤ -2 := by
    unfold ulpExponent
    exact max_le (by omega) (by norm_num)
  have herr := roundToGrid_error q
  refine le_trans herr ?_
  have : (2 : ℚ) ^ ulpExponent q ≤ (2 : ℚ) ^ (-2 : ℤ) :=
    (zpow_le_zpow_iff_right₀ (by norm_num : (1 : ℚ) < 2)).2 he
  have h4 : (2 : ℚ) ^ (-2 : ℤ) = 1 / 4 := by norm_num
  rw [h4] at this
  linarith

/-! ## Decimal digits -/

theorem digitChar_toNat {d : ℕ} (h : d < 10) : (digitChar d).toNat - 48 = d := by
  interval_cases d <;> decide

theorem digitChar_isDigit {d : ℕ} (h : d < 10) : (digitChar d).isDigit = true := by
  interval_cases d <;> decide

theorem digitsValue_cons_aux (l : List Char) : ∀ a : ℕ,
    l.foldl (fun acc c => 10 * acc + (c.toNat - 48)) a
      = a * 10 ^ l.length + l.foldl (fun acc c => 10 * acc + (c.toNat - 48)) 0 := by
  induction l with
  | nil => intro a; simp
  | cons c l ih =>
    intro a
    simp only [List.foldl_cons, List.length_cons]
    rw [ih (10 * a + (c.toNat - 48)), ih (10 * 0 + (c.toNat - 48))]
    ring

theorem digitsValue_cons (c : Char) (l : List Char) :
    digitsValue (c :: l) = (c.toNat - 48) * 10 ^ l.length + digitsValue l := by
  unfold digitsValue
  rw [List.foldl_cons, digitsValue_cons_aux]
  ring

theorem digitsValue_append (a b : List Char) :
    digitsValue (a ++ b) = digitsValue a * 10 ^ b.length + digitsValue b := by
  induction a with
  | nil => simp [digitsValue]
  | cons c a ih =>
    rw [List.cons_append, digitsValue_cons, digitsValue_cons, ih, List.length_append]
    ring

theorem digitsValue_replicate_zero (k : ℕ) : digitsValue (List.replicate k '0') = 0 := by
  induction k with
  | zero => rfl
  | succ k ih =>
    rw [List.replicate_succ, digitsValue_cons, ih]
    simp

theorem toDecimalAux_spec (fuel : ℕ) : ∀ (n : ℕ) (acc : List Char), n < 10 ^ (fuel + 1) →
    (∀ c ∈ acc, c.isDigit = true) →
    digitsValue (toDecimalAux (fuel + 1) n acc) = n * 10 ^ acc.length + digitsValue acc
      ∧ (∀ c ∈ toDecimalAux (fuel + 1) n acc, c.isDigit = true)
      ∧ acc.length < (toDecimalAux (fuel + 1) n acc).length := by
  have hsmall : ∀ (fuel n : ℕ) (acc : List Char), n < 10 → (∀ c ∈ acc, c.isDigit = true) →
      digitsValue (toDecimalAux (fuel + 1) n acc) = n * 10 ^ acc.length + digitsValue acc
        ∧ (∀ c ∈ toDecimalAux (fuel + 1) n acc, c.isDigit = true)
        ∧ acc.length < (toDecimalAux (fuel + 1) n acc).length := by
    intro fuel n acc hlt hacc
    unfold toDecimalAux
    rw [if_pos hlt]
    refine ⟨?_, ?_, by simp⟩
    · rw [digitsValue_cons, digitChar_toNat hlt]
    · intro c hc
      rcases List.mem_cons.1 hc with rfl | hc
      · exact digitChar_isDigit hlt
      · exact hacc c hc
  induction fuel with
  | zero =>
    intro n acc h hacc
    exact hsmall 0 n acc (by simpa using h) hacc
  | succ fuel ih =>
    intro n acc h hacc
    by_cases hlt : n < 10
    · exact hsmall (fuel + 1) n acc hlt hacc
    · have hmod : n % 10 < 10 := Nat.mod_lt _ (by norm_num)
      have hdiv : n / 10 < 10 ^ (fuel + 1) := by
        rw [pow_succ] at h
        omega
      obtain ⟨h1, h2, h3⟩ := ih (n / 10) (digitChar (n % 10) :: acc) hdiv (by
        intro c hc
        rcases List.mem_cons.1 hc with rfl | hc
        · exact digitChar_isDigit hmod
        · exact hacc c hc)
      have hstep : toDecimalAux (fuel + 1 + 1) n acc
          = toDecimalAux (fuel + 1) (n / 10) (digitChar (n % 10) :: acc) := by
        conv_lhs => unfold toDecimalAux
        rw [if_neg hlt]
      rw [hstep]
      refine ⟨?_, h2, ?_⟩
      · rw [h1, digitsValue_cons, digitChar_toNat hmod, List.length_cons, pow_succ]
        have := Nat.div_add_mod n 10
        conv_rhs => rw [← this]
        ring
      · simp only [List.length_cons] at h3
        omega

/-- The decimal representation of `n` denotes `n`, consists of digits, and is not
empty. -/
theorem toDecimal_spec (n : ℕ) :
    digitsValue (toDecimal n) = n ∧ (∀ c ∈ toDecimal n, c.isDigit = true)
      ∧ 0 < (toDecimal n).length := by
  have hlt : n < 10 ^ (n + 1) := by
    calc n < 2 ^ n := Nat.lt_two_pow n
      _ ≤ 10 ^ n := Nat.pow_le_pow_left (by norm_num) n
      _ ≤ 10 ^ (n + 1) := Nat.pow_le_pow_right (by norm_num) (by omega)
  obtain ⟨h1, h2, h3⟩ := toDecimalAux_spec n n [] hlt (by simp)
  refine ⟨?_, h2, by simpa using h3⟩
  unfold toDecimal
  rw [h1]
  simp [digitsValue]

theorem takeWhile_digits_append (ds rest : List Char) (h : ∀ c ∈ ds, c.isDigit = true) :
    (ds ++ '.' :: rest).takeWhile Char.isDigit = ds
      ∧ (ds ++ '.' :: rest).dropWhile Char.isDigit = '.' :: rest := by
  induction ds with
  | nil =>
    constructor
    · rw [List.nil_append, List.takeWhile_cons]
      rfl
    · rw [List.nil_append, List.dropWhile_cons]
      rfl
  | cons c ds ih =>
    have hc := h c (List.mem_cons_self _ _)
    obtain ⟨h1, h2⟩ := ih (fun x hx => h x (List.mem_cons_of_mem _ hx))
    constructor
    · simp [List.takeWhile_cons, hc, h1]
    · simp [List.dropWhile_cons, hc, h2]

theorem takeWhile_digits (ds : List Char) (h : ∀ c ∈ ds, c.isDigit = true) :
    ds.takeWhile Char.isDigit = ds ∧ ds.dropWhile Char.isDigit = [] := by
  induction ds with
  | nil => exact ⟨rfl, rfl⟩
  | cons c ds ih =>
    have hc := h c (List.mem_cons_self _ _)
    obtain ⟨h1, h2⟩ := ih (fun x hx => h x (List.mem_cons_of_mem _ hx))
    constructor
    · simp [List.takeWhile_cons, hc, h1]
    · simp [List.dropWhile_cons, hc, h2]

/-- A text of digits, a point and digits denotes the number its digits write. -/
theorem unsignedDecimalPrefix_plain (ip fp : List Char) (hip : ∀ c ∈ ip, c.isDigit = true)
    (hfp : ∀ c ∈ fp, c.isDigit = true) (hne : ip ≠ [] ∨ fp ≠ []) :
    unsignedDecimalPrefix (ip ++ '.' :: fp)
      = some ((digitsValue ip : ℚ) + (digitsValue fp : ℚ) / (10 : ℚ) ^ fp.length) := by
  obtain ⟨h1, h2⟩ := takeWhile_digits_append ip fp hip
  obtain ⟨h3, h4⟩ := takeWhile_digits fp hfp
  unfold unsignedDecimalPrefix
  simp only [h1, h2, h3, h4, exponentPart]
  have : (ip.isEmpty && fp.isEmpty) = false := by
    rcases hne with h | h
    · cases ip with
      | nil => exact absurd rfl h
      | cons _ _ => rfl
    · cases fp with
      | nil => exact absurd rfl h
      | cons _ _ => simp
  simp [this]

/-- The digits `toFixed` writes for the integer `n` with seven fraction digits denote
`n / 10 ^ 7`. -/
theorem fixedDigits_denotes (n : ℕ) :
    unsignedDecimalPrefix (fixedDigits n 7) = some ((n : ℚ) / 10000000) := by
  obtain ⟨hval, hdig, hlen⟩ := toDecimal_spec n
  set m : List Char := if (toDecimal n).length ≤ 7 then
      List.replicate (7 + 1 - (toDecimal n).length) '0' ++ toDecimal n else toDecimal n with hm
  have hmval : digitsValue m = n := by
    rw [hm]
    split
    · rw [digitsValue_append, digitsValue_replicate_zero, hval]
      simp
    · exact hval
  have hmdig : ∀ c ∈ m, c.isDigit = true := by
    rw [hm]
    split
    · intro c hc
      rcases List.mem_append.1 hc with h | h
      · rw [List.mem_replicate] at h
        rw [h.2]
        rfl
      · exact hdig c h
    · exact hdig
  have hmlen : 8 ≤ m.length := by
    rw [hm]
    split
    · rw [List.length_append, List.length_replicate]
      omega
    · omega
  have hfd : fixedDigits n 7 = m.take (m.length - 7) ++ '.' :: m.drop (m.length - 7) := by
    unfold fixedDigits
    simp only []
    rw [if_neg (by norm_num)]
  rw [hfd, unsignedDecimalPrefix_plain _ _ (fun c hc => hmdig c (List.mem_of_mem_take hc))
    (fun c hc => hmdig c (List.mem_of_mem_drop hc)) (Or.inr (by
      intro h
      have := congrArg List.length h
      rw [List.length_drop] at this
      simp at this
      omega))]
  have hsplit := digitsValue_append (m.take (m.length - 7)) (m.drop (m.length - 7))
  rw [List.take_append_drop, hmval] at hsplit
  have hl : (m.drop (m.length - 7)).length = 7 := by
    rw [List.length_drop]
    omega
  rw [hl] at hsplit ⊢
  have hq : (n : ℚ) = (digitsValue (m.take (m.length - 7)) : ℚ) * 10 ^ 7
      + (digitsValue (m.drop (m.length - 7)) : ℚ) := by exact_mod_cast hsplit
  rw [hq]
  congr 1
  have h10 : ((10 : ℚ) ^ 7) = 10000000 := by norm_num
  rw [h10]
  field_simp

/-! ## The two conversions -/

/-- Below `2 ^ 51` stroops, `xlmToStroops` of a value that reads as `n / 10 ^ 7` units is
the integer `n`. -/
theorem xlmToStroops_exact (self : StellarManager) (xlm : JSValue) (n : ℕ) (hn : n < 2 ^ 51)
    (hx : parseFloat xlm = JSNumber.ofRat ((n : ℚ) / 10000000)) :
    self.xlmToStroops xlm = .finite (n : ℚ) := by
  unfold StellarManager.xlmToStroops
  rw [hx]
  rcases Nat.eq_zero_or_pos n with h0 | hpos
  · subst h0
    have h1 : JSNumber.ofRat (((0 : ℕ) : ℚ) / 10000000) = .finite 0 := by
      simp [JSNumber.ofRat]
    rw [h1]
    have h2 : JSNumber.mul (.finite 0) (.finite 10000000) = .finite 0 := by
      simp [JSNumber.mul, JSNumber.ofRat]
    rw [h2]
    simp only [Math.round]
    norm_num
  · obtain ⟨hq, hof⟩ := units_rounding hpos hn
    rw [hof]
    set d := roundToGrid ((n : ℚ) / 10000000) with hd
    have hn1 : (1 : ℚ) ≤ n := by exact_mod_cast hpos
    have hnlt : (n : ℚ) + 1 ≤ 2 ^ (51 : ℕ) := by exact_mod_cast hn
    obtain ⟨hlo, hhi⟩ := abs_lt.1 hq
    have hq2pos : 0 < d * 10000000 := by linarith
    have hq2lt : d * 10000000 < 2 ^ (51 : ℕ) := by linarith
    have herr := roundToGrid_error_small hq2pos hq2lt
    obtain ⟨hlo2, hhi2⟩ := abs_le.1 herr
    have h1024 : roundToGrid (d * 10000000) < (2 : ℚ) ^ (1024 : ℕ) := by
      have : (2 : ℚ) ^ (51 : ℕ) + 1 ≤ 2 ^ (1024 : ℕ) := by norm_num
      linarith
    have hmul : JSNumber.mul (.finite d) (.finite 10000000)
        = .finite (roundToGrid (d * 10000000)) := by
      simp only [JSNumber.mul]
      exact ofRat_of_pos hq2pos h1024
    rw [hmul]
    simp only [Math.round]
    have hfloor : ⌊roundToGrid (d * 10000000) + 1 / 2⌋ = (n : ℤ) := by
      rw [Int.floor_eq_iff]
      constructor
      · push_cast
        linarith
      · push_cast
        linarith
    rw [hfloor]
    simp

/-- The text `toFixed` writes for a Number that is not negative and below `10 ^ 21`. -/
theorem toFixed_of_nonneg (q : ℚ) (f : ℕ) (h0 : 0 ≤ q) (h21 : q < (10 : ℚ) ^ (21 : ℕ)) :
    (JSNumber.finite q).toFixed f
      = "" ++ String.mk (fixedDigits ⌊q * (10 : ℚ) ^ f + 1 / 2⌋.toNat f) := by
  show (if (10 : ℚ) ^ (21 : ℕ) ≤ (if q < 0 then -q else q) then
        (if q < 0 then "-" else "") ++ (JSNumber.finite (if q < 0 then -q else q)).toString
      else (if q < 0 then "-" else "") ++
        String.mk (fixedDigits ⌊(if q < 0 then -q else q) * (10 : ℚ) ^ f + 1 / 2⌋.toNat f)) = _
  rw [if_neg (not_lt.2 h0), if_neg (not_lt.2 h0), if_neg (not_le.2 h21)]

/-- Below `2 ^ 51`, `stroopsToXLM` of the integer `n` writes `n` with seven fraction
digits. -/
theorem stroopsToXLM_exact (self : StellarManager) (n : ℕ) (hn : n < 2 ^ 51) :
    self.stroopsToXLM (.number (.finite (n : ℚ))) = String.mk (fixedDigits n 7) := by
  unfold StellarManager.stroopsToXLM
  have hempty : ∀ l : List Char, "" ++ String.mk l = String.mk l := by
    intro l
    apply String.ext
    simp
  rcases Nat.eq_zero_or_pos n with h0 | hpos
  · subst h0
    decide!
  · simp only [parseFloat]
    have hdiv : JSNumber.div (.finite (n : ℚ)) (.finite 10000000)
        = JSNumber.ofRat ((n : ℚ) / 10000000) := by
      simp [JSNumber.div]
    rw [hdiv]
    obtain ⟨hq, hof⟩ := units_rounding hpos hn
    rw [hof]
    set d := roundToGrid ((n : ℚ) / 10000000) with hd
    have hn1 : (1 : ℚ) ≤ n := by exact_mod_cast hpos
    have hnlt : (n : ℚ) + 1 ≤ 2 ^ (51 : ℕ) := by exact_mod_cast hn
    obtain ⟨hlo, hhi⟩ := abs_lt.1 hq
    have hdpos : 0 < d := by
      by_contra hc
      have : d * 10000000 ≤ 0 := mul_nonpos_of_nonpos_of_nonneg (not_lt.1 hc) (by norm_num)
      linarith
    have hdlt : d < (10 : ℚ) ^ (21 : ℕ) := by
      by_contra hc
      have : (10 : ℚ) ^ (21 : ℕ) * 10000000 ≤ d * 10000000 :=
        mul_le_mul_of_nonneg_right (not_lt.1 hc) (by norm_num)
      have h51 : (2 : ℚ) ^ (51 : ℕ) < 10 ^ (21 : ℕ) * 10000000 := by norm_num
      linarith
    have hfloor : ⌊d * (10 : ℚ) ^ 7 + 1 / 2⌋ = (n : ℤ) := by
      rw [Int.floor_eq_iff]
      have h10 : ((10 : ℚ) ^ 7) = 10000000 := by norm_num
      rw [h10]
      constructor
      · push_cast
        linarith
      · push_cast
        linarith
    rw [toFixed_of_nonneg d 7 hdpos.le hdlt, hfloor, Int.toNat_ofNat]
    exact hempty _

/-- A text of digits, a point and digits reads, by `parseFloat`, as the Number nearest
to the number it writes. -/
theorem parseFloat_plain (ip fp : List Char) (hip : ∀ c ∈ ip, c.isDigit = true)
    (hfp : ∀ c ∈ fp, c.isDigit = true) (hne : ip ≠ []) :
    parseFloat (.string (String.mk (ip ++ '.' :: fp)))
      = JSNumber.ofRat ((digitsValue ip : ℚ) + (digitsValue fp : ℚ) / (10 : ℚ) ^ fp.length) := by
  cases ip with
  | nil => exact absurd rfl hne
  | cons c ip =>
    have hc : c.isDigit = true := hip c (List.mem_cons_self _ _)
    have hws : isWhiteSpace c = false := by
      have h1 : 48 ≤ c.toNat ∧ c.toNat ≤ 57 := by
        simpa [Char.isDigit, Char.toNat, UInt32.le_def, Fin.le_def] using hc
      unfold isWhiteSpace
      simp only [List.elem_eq_mem, List.mem_cons, List.mem_singleton, Bool.or_eq_false_iff,
        decide_eq_false_iff_not, Bool.and_eq_false_iff, List.not_mem_nil, or_false]
      omega
    have hplus : c ≠ '+' := by
      intro h
      rw [h] at hc
      exact absurd hc (by decide)
    have hminus : c ≠ '-' := by
      intro h
      rw [h] at hc
      exact absurd hc (by decide)
    have hI : c ≠ 'I' := by
      intro h
      rw [h] at hc
      exact absurd hc (by decide)
    simp only [parseFloat, JSValue.toStr, parseFloatString, List.cons_append,
      List.dropWhile_cons, hws]
    have hinf : ("Infinity".data.isPrefixOf (c :: (ip ++ '.' :: fp))) = false := by
      show (('I' :: "nfinity".data).isPrefixOf (c :: (ip ++ '.' :: fp))) = false
      simp [List.isPrefixOf, hI.symm]
    have hu : unsignedNumberPrefix (c :: (ip ++ '.' :: fp))
        = JSNumber.ofRat ((digitsValue (c :: ip) : ℚ)
            + (digitsValue fp : ℚ) / (10 : ℚ) ^ fp.length) := by
      unfold unsignedNumberPrefix
      rw [hinf]
      have := unsignedDecimalPrefix_plain (c :: ip) fp hip hfp (Or.inl (by simp))
      rw [List.cons_append] at this
      simp [this]
    split
    · rename_i h
      simp only [Bool.false_eq_true, if_false, List.cons.injEq] at h
      exact absurd h.1 hplus
    · rename_i h
      simp only [Bool.false_eq_true, if_false, List.cons.injEq] at h
      exact absurd h.1 hminus
    · simpa using hu

/-- The digits `toFixed` writes for the integer `n` with seven fraction digits: digits,
of which there is one at least, a point, and seven digits. -/
theorem fixedDigits_shape (n : ℕ) :
    ∃ ip fp : List Char, fixedDigits n 7 = ip ++ '.' :: fp
      ∧ ip ≠ [] ∧ (∀ c ∈ ip, c.isDigit = true)
      ∧ fp.length = 7 ∧ (∀ c ∈ fp, c.isDigit = true) := by
  obtain ⟨-, hdig, hlen⟩ := toDecimal_spec n
  set m : List Char := if (toDecimal n).length ≤ 7 then
      List.replicate (7 + 1 - (toDecimal n).length) '0' ++ toDecimal n else toDecimal n with hm
  have hmdig : ∀ c ∈ m, c.isDigit = true := by
    rw [hm]
    split
    · intro c hc
      rcases List.mem_append.1 hc with h | h
      · rw [List.mem_replicate] at h
        rw [h.2]
        rfl
      · exact hdig c h
    · exact hdig
  have hmlen : 8 ≤ m.length := by
    rw [hm]
    split
    · rw [List.length_append, List.length_replicate]
      omega
    · omega
  have hfd : fixedDigits n 7 = m.take (m.length - 7) ++ '.' :: m.drop (m.length - 7) := by
    unfold fixedDigits
    simp only []
    rw [if_neg (by norm_num)]
  refine ⟨m.take (m.length - 7), m.drop (m.length - 7), hfd, ?_,
    fun c hc => hmdig c (List.mem_of_mem_take hc), ?_,
    fun c hc => hmdig c (List.mem_of_mem_drop hc)⟩
  · intro h
    have := congrArg List.length h
    rw [List.length_take] at this
    simp only [List.length_nil] at this
    omega
  · rw [List.length_drop]
    omega

/-- The integer `toFixed` takes for `a` and seven fraction digits is within a half of
`a * 10 ^ 7`. -/
theorem toFixed_integer_error {a : ℚ} (ha : 0 ≤ a) :
    |((⌊a * (10 : ℚ) ^ (7 : ℕ) + 1 / 2⌋.toNat : ℕ) : ℚ) / 10000000 - a| ≤ 1 / 20000000 := by
  have hnn : 0 ≤ ⌊a * (10 : ℚ) ^ (7 : ℕ) + 1 / 2⌋ := by
    apply Int.floor_nonneg.2
    positivity
  have hcast : ((⌊a * (10 : ℚ) ^ (7 : ℕ) + 1 / 2⌋.toNat : ℕ) : ℚ)
      = (⌊a * (10 : ℚ) ^ (7 : ℕ) + 1 / 2⌋ : ℚ) := by
    have := Int.toNat_of_nonneg hnn
    exact_mod_cast congrArg (fun z : ℤ => (z : ℚ)) this
  rw [hcast]
  have h1 := Int.floor_le (a * (10 : ℚ) ^ (7 : ℕ) + 1 / 2)
  have h2 := Int.lt_floor_add_one (a * (10 : ℚ) ^ (7 : ℕ) + 1 / 2)
  have h7 : (10 : ℚ) ^ (7 : ℕ) = 10000000 := by norm_num
  rw [h7] at h1 h2 ⊢
  rw [abs_le]
  constructor
  · rw [le_sub_iff_add_le, le_div_iff₀ (by norm_num)]
    linarith
  · rw [sub_le_iff_le_add, div_le_iff₀ (by norm_num)]
    linarith

/-- A text of digits, of which there is one at least, a point and seven digits has seven
decimals. -/
theorem hasSevenDecimals_plain (ip fp : List Char) (hne : ip ≠ [])
    (hip : ∀ c ∈ ip, c.isDigit = true) (hlen : fp.length = 7)
    (hfp : ∀ c ∈ fp, c.isDigit = true) :
    hasSevenDecimals (String.mk (ip ++ '.' :: fp)) = true := by
  obtain ⟨h1, h2⟩ := takeWhile_digits_append ip fp hip
  cases ip with
  | nil => exact absurd rfl hne
  | cons c rest =>
    have hc : c ≠ '-' := by
      intro h
      have := hip c (List.mem_cons_self _ _)
      rw [h] at this
      exact absurd this (by decide)
    simp only [List.cons_append] at h1 h2
    unfold hasSevenDecimals
    simp [hc, h1, h2, hlen, List.all_eq_true]
    exact hfp

/-- The text `toFixed(7)` writes for a Number that is not negative and below `10 ^ 21`:
digits, of which there is one at least, a point, and seven digits, which denote a number
within half a unit of the seventh decimal place of the Number. -/
theorem toFixed_seven_decimals (a : ℚ) (h0 : 0 ≤ a) (h21 : a < (10 : ℚ) ^ (21 : ℕ)) :
    ∃ ip fp : List Char,
      (JSNumber.finite a).toFixed 7 = String.mk (ip ++ '.' :: fp)
      ∧ ip ≠ [] ∧ (∀ c ∈ ip, c.isDigit = true)
      ∧ fp.length = 7 ∧ (∀ c ∈ fp, c.isDigit = true)
      ∧ |((digitsValue ip : ℚ) + (digitsValue fp : ℚ) / (10 : ℚ) ^ (7 : ℕ)) - a|
          ≤ 1 / 20000000 := by
  have hempty : ∀ l : List Char, "" ++ String.mk l = String.mk l := by
    intro l
    apply String.ext
    simp
  obtain ⟨ip, fp, hshape, hne, hip, hlen, hfp⟩ :=
    fixedDigits_shape ⌊a * (10 : ℚ) ^ (7 : ℕ) + 1 / 2⌋.toNat
  have hden := fixedDigits_denotes ⌊a * (10 : ℚ) ^ (7 : ℕ) + 1 / 2⌋.toNat
  rw [hshape, unsignedDecimalPrefix_plain ip fp hip hfp (Or.inl hne), hlen] at hden
  refine ⟨ip, fp, ?_, hne, hip, hlen, hfp, ?_⟩
  · rw [toFixed_of_nonneg a 7 h0 h21, hempty, hshape]
  · rw [Option.some.inj hden]
    exact toFixed_integer_error h0

/-! ## The claims -/

/-- C1, at a failing input. The source account loads, the destination exists, the fee
is fetched and the transaction is built, and then the signer rejects the request with
`undefined`: the `catch` block of `sendPayment` reads `error.response` of that value,
which throws a `TypeError`, and `sendPayment` raises it instead of returning a result
object. -/
theorem sendPayment_raises_on_undefined_rejection :
    (StellarManager.new.sendPayment sourceKey destinationKey (.string "10") .undefined
        silentSignerWorld () []).1
      = .error (typeError "Cannot read properties of undefined (reading response)") := by
  decide!

/-- What `sendPayment` returns otherwise: a result object, whenever the failure its
`catch` block receives, if any, is a value other than `undefined` and `null` whose
per-operation result codes, when truthy, are an Array. When every step of the `try` block
succeeds, the last call made is the submission, which returned `result`, and the result
object has `success = true` and the `hash` of `result`; when a step fails with such a
value, the result object has `success = false` and an `error` field. -/
theorem sendPayment_returns_result {σ : Type} (self : StellarManager)
    (src dst amount memo : JSValue) (w : World) (s : σ) (t : Trace) :
    (∀ v s1 t1,
        sendPaymentBody self src dst amount (effectiveMemo memo) w s t = (.ok v, s1, t1) →
        ∃ earlier signedTransaction result,
          t1 = earlier ++ [⟨.submitTransaction self.server signedTransaction, .ok result⟩]
          ∧ self.sendPayment src dst amount memo w s t
            = (.ok (.object [("success", .bool true), ("hash", result.prop "hash"),
                ("ledger", result.prop "ledger"), ("result", result)]), s1, t1))
    ∧ (∀ e s1 t1,
        sendPaymentBody self src dst amount (effectiveMemo memo) w s t = (.error e, s1, t1) →
        readableFailure e = true →
        ∃ message, self.sendPayment src dst amount memo w s t
          = (.ok (.object [("success", .bool false), ("error", message)]), s1, t1)) := by
  refine ⟨fun v s1 t1 hrun => ?_, fun e s1 t1 hrun hread => ?_⟩
  · obtain ⟨earlier, signedTransaction, result, ht, hv⟩ := sendPaymentBody_ok hrun
    refine ⟨earlier, signedTransaction, result, ht, ?_⟩
    rw [sendPayment_run, hrun, hv]
  · obtain ⟨message, hm⟩ := paymentErrorMessage_of_readable hread
    refine ⟨message, ?_⟩
    rw [sendPayment_run, hrun]
    simp only [hm, paymentFailure]

/-- The results of `sendPayment` at concrete inputs: a payment every step of which succeeds, and a
payment the ledger rejects with result codes. -/
theorem sendPayment_returns_result_witness :
    (∃ earlier signedTransaction result,
      (sendPaymentBody StellarManager.new sourceKey destinationKey (.string "10")
          (effectiveMemo .undefined) sampleWorld () []).2.2
        = earlier ++ [⟨.submitTransaction StellarManager.new.server signedTransaction,
            .ok result⟩]
      ∧ StellarManager.new.sendPayment sourceKey destinationKey (.string "10") .undefined
          sampleWorld () []
        = (.ok (.object [("success", .bool true), ("hash", result.prop "hash"),
            ("ledger", result.prop "ledger"), ("result", result)]), (),
            (sendPaymentBody StellarManager.new sourceKey destinationKey (.string "10")
              (effectiveMemo .undefined) sampleWorld () []).2.2))
    ∧ ∃ message,
      StellarManager.new.sendPayment sourceKey destinationKey (.string "10") .undefined
          rejectingWorld () []
        = (.ok (.object [("success", .bool false), ("error", message)]), (),
            (sendPaymentBody StellarManager.new sourceKey destinationKey (.string "10")
              (effectiveMemo .undefined) rejectingWorld () []).2.2) :=
  ⟨(sendPayment_returns_result StellarManager.new sourceKey destinationKey (.string "10")
      .undefined sampleWorld () []).1
      (.object [("success", .bool true), ("hash", .string "3389e9f0f1a65f19"),
        ("ledger", .ofNat 1234),
        ("result", .object [("hash", .string "3389e9f0f1a65f19"), ("ledger", .ofNat 1234)])])
      () _ (by decide!),
   (sendPayment_returns_result StellarManager.new sourceKey destinationKey (.string "10")
      .undefined rejectingWorld () []).2
      (.object [("message", .string "Request failed with status code 400"),
        ("response", .object [("status", .ofNat 400),
          ("data", .object [("extras", .object [("result_codes",
            .object [("transaction", .string "tx_failed"),
              ("operations", .array [.string "op_underfunded"])])])])])])
      () _ (by decide!) (by decide!)⟩

/-- C2 as stated fails. The source account loads, the destination is reported absent
(404) and the amount is 0.5, but the request for the base fee, which `sendPayment` makes
before it looks at the amount, fails: the result carries the message of that failure,
not the validation error. -/
theorem sendPayment_fee_failure_hides_validation :
    noFeeWorld [] (.loadAccount StellarManager.new.server sourceKey) = .ok sampleAccount
    ∧ noFeeWorld [⟨.loadAccount StellarManager.new.server sourceKey, .ok sampleAccount⟩]
        (.loadAccount StellarManager.new.server destinationKey) = .error notFoundError
    ∧ hasStatus404 notFoundError = true
    ∧ (parseFloat (.string "0.5")).lt (.finite 1) = true
    ∧ (StellarManager.new.sendPayment sourceKey destinationKey (.string "0.5") .undefined
        noFeeWorld () []).1 = .ok (paymentFailure (.string "Network Error"))
    ∧ (StellarManager.new.sendPayment sourceKey destinationKey (.string "0.5") .undefined
        noFeeWorld () []).1
        ≠ .ok (paymentFailure (.string "Minimum 1 XLM required to create new account")) := by
  decide!

/-- C2, amended. When the source account loads, the destination probe reports the
destination absent (404) and the amount is less than 1, `sendPayment` calls neither
`signXDR` nor `submitTransaction`; and when moreover the base fee is fetched (a value
other than `undefined` and `null`) and the transaction builder is constructed, the
result is `success = false` with the validation error. -/
theorem sendPayment_validates_new_account_funding {σ : Type} (self : StellarManager)
    (src dst amount memo : JSValue) (w : World) (s : σ) (t : Trace) (acct e : JSValue)
    (hsrc : w t (.loadAccount self.server src) = .ok acct)
    (hdst : w (t ++ [⟨.loadAccount self.server src, .ok acct⟩]) (.loadAccount self.server dst)
      = .error e)
    (h404 : hasStatus404 e = true)
    (hamount : (parseFloat amount).lt (.finite 1) = true) :
    (∀ ev ∈ eventsSince t (self.sendPayment src dst amount memo w s t),
        ev.call.isSignXDR = false ∧ ev.call.isSubmitTransaction = false)
    ∧ (∀ fee builder,
        w (t ++ [⟨.loadAccount self.server src, .ok acct⟩,
            ⟨.loadAccount self.server dst, .error e⟩]) (.fetchBaseFee self.server) = .ok fee →
        fee.isNullish = false →
        w (t ++ [⟨.loadAccount self.server src, .ok acct⟩,
            ⟨.loadAccount self.server dst, .error e⟩, ⟨.fetchBaseFee self.server, .ok fee⟩])
          (.newTransactionBuilder acct fee.toStr self.networkPassphrase) = .ok builder →
        (self.sendPayment src dst amount memo w s t).1
          = .ok (paymentFailure (.string "Minimum 1 XLM required to create new account"))) := by
  have hnf := isNotFound_of_hasStatus404 h404
  constructor
  · unfold eventsSince
    rw [sendPayment_trace]
    rcases sendPaymentBody_prefix self src dst amount (effectiveMemo memo) w s t with
      ⟨e1, new, hrun, hnew⟩ | ⟨acct1, probe, flag, fee, builder, h1, h2, h3, h4, -, -, -, hrun⟩
    · rw [hrun]
      simp only [List.drop_left]
      intro ev hev
      exact ⟨(isPreparation_not_sign_submit (hnew ev hev)).1,
        (isPreparation_not_sign_submit (hnew ev hev)).2.1⟩
    · rw [hsrc] at h1
      cases h1
      rw [hdst] at h2
      subst h2
      have hflag : flag = true := by
        have := h4 e rfl
        rw [hnf] at this
        cases this
        rfl
      subst hflag
      obtain ⟨r, new, hop, -, hthrow, -, -⟩ := addPaymentOperation_run (σ := σ) builder true dst
        amount w s (t ++ [⟨.loadAccount self.server src, .ok acct⟩,
          ⟨.loadAccount self.server dst, .error e⟩, ⟨.fetchBaseFee self.server, .ok fee⟩,
          ⟨.newTransactionBuilder acct fee.toStr self.networkPassphrase, .ok builder⟩])
      obtain ⟨rfl, rfl⟩ := hthrow rfl hamount
      rw [hrun, bind_run_error hop]
      simp [Call.isSignXDR, Call.isSubmitTransaction]
  · intro fee builder hfee hn hb
    obtain ⟨r, new, hop, -, hthrow, -, -⟩ := addPaymentOperation_run (σ := σ) builder true dst
      amount w s (t ++ [⟨.loadAccount self.server src, .ok acct⟩,
        ⟨.loadAccount self.server dst, .error e⟩, ⟨.fetchBaseFee self.server, .ok fee⟩,
        ⟨.newTransactionBuilder acct fee.toStr self.networkPassphrase, .ok builder⟩])
    obtain ⟨rfl, rfl⟩ := hthrow rfl hamount
    have hbody : sendPaymentBody self src dst amount (effectiveMemo memo) w s t =
        (.error (newError "Minimum 1 XLM required to create new account"), s,
          t ++ [⟨.loadAccount self.server src, .ok acct⟩,
            ⟨.loadAccount self.server dst, .error e⟩, ⟨.fetchBaseFee self.server, .ok fee⟩,
            ⟨.newTransactionBuilder acct fee.toStr self.networkPassphrase, .ok builder⟩] ++ []) := by
      unfold sendPaymentBody
      simp only [perform_bind, probeDestination_bind, ofExcept_bind, hsrc, hdst, hnf,
        List.append_assoc, List.cons_append, List.nil_append, hfee,
        toStringMethod_of_not_nullish hn, hb]
      rw [bind_run_error (by simpa using hop)]
    rw [sendPayment_run, hbody]
    rfl

/-- C2, amended, at a concrete input: a payment of 0.5 to an account that does not
exist, the fee being 100 and the builder constructed. -/
theorem sendPayment_validates_new_account_funding_witness :
    (∀ ev ∈ eventsSince [] (StellarManager.new.sendPayment sourceKey destinationKey
          (.string "0.5") .undefined newDestinationWorld () []),
        ev.call.isSignXDR = false ∧ ev.call.isSubmitTransaction = false)
    ∧ (StellarManager.new.sendPayment sourceKey destinationKey (.string "0.5") .undefined
          newDestinationWorld () []).1
        = .ok (paymentFailure (.string "Minimum 1 XLM required to create new account")) :=
  ⟨(sendPayment_validates_new_account_funding StellarManager.new sourceKey destinationKey
      (.string "0.5") .undefined newDestinationWorld () [] sampleAccount notFoundError
      (by decide!) (by decide!) (by decide!) (by decide!)).1,
   (sendPayment_validates_new_account_funding StellarManager.new sourceKey destinationKey
      (.string "0.5") .undefined newDestinationWorld () [] sampleAccount notFoundError
      (by decide!) (by decide!) (by decide!) (by decide!)).2 (.ofNat 100)
      (.object [("operations", .array [])]) (by decide!) (by decide!) (by decide!)⟩
/-- The calls that make the transaction, in a call of `sendPayment` in which the source
account loads and `build` is called. When the destination probe reported the destination
absent (404), they are the construction of the builder, one `Operation.createAccount`
with the given destination and the amount as starting balance, the `addOperation` of
that operation to that builder, `setTimeout` and `build`. When the destination probe
succeeded, they are the same with, in place of the account creation, `Asset.native()`
and one `Operation.payment` of that asset and that amount to the destination. -/
theorem sendPayment_assembly_of_build {σ : Type} (self : StellarManager)
    (src dst amount memo : JSValue) (w : World) (s : σ) (t : Trace) (acct : JSValue)
    (hsrc : w t (.loadAccount self.server src) = .ok acct) :
    (∀ e, w (t ++ [⟨.loadAccount self.server src, .ok acct⟩]) (.loadAccount self.server dst)
          = .error e →
        hasStatus404 e = true →
        (∃ ev ∈ eventsSince t (self.sendPayment src dst amount memo w s t),
          ev.call.isBuild = true) →
        ∃ (fee builder operation added timed : JSValue) (outcome : Except JSValue JSValue),
          (eventsSince t (self.sendPayment src dst amount memo w s t)).filter
              (fun ev => ev.call.isAssembly) =
            [⟨.newTransactionBuilder acct fee.toStr self.networkPassphrase, .ok builder⟩,
              ⟨.operationCreateAccount dst amount.toStr, .ok operation⟩,
              ⟨.addOperation builder operation, .ok added⟩,
              ⟨.setTimeout builder 30, .ok timed⟩, ⟨.build timed, outcome⟩])
    ∧ (∀ v, w (t ++ [⟨.loadAccount self.server src, .ok acct⟩]) (.loadAccount self.server dst)
          = .ok v →
        (∃ ev ∈ eventsSince t (self.sendPayment src dst amount memo w s t),
          ev.call.isBuild = true) →
        ∃ (fee builder asset operation added timed : JSValue)
          (outcome : Except JSValue JSValue),
          (eventsSince t (self.sendPayment src dst amount memo w s t)).filter
              (fun ev => ev.call.isAssembly) =
            [⟨.newTransactionBuilder acct fee.toStr self.networkPassphrase, .ok builder⟩,
              ⟨.assetNative, .ok asset⟩,
              ⟨.operationPayment dst asset amount.toStr, .ok operation⟩,
              ⟨.addOperation builder operation, .ok added⟩,
              ⟨.setTimeout builder 30, .ok timed⟩, ⟨.build timed, outcome⟩]) := by
  unfold eventsSince
  rw [sendPayment_trace]
  rcases sendPaymentBody_cases self src dst amount (effectiveMemo memo) w s t with
    ⟨e1, new, hrun, hnew⟩ |
    ⟨acct1, probe, flag, fee, builder, new1, new2, new3, r, h1, h2, h3, h4, hrun, hcreate,
      hpay, hfill2, hnofill, -, hbuild⟩
  · rw [hrun]
    simp only [List.drop_left]
    constructor
    · intro e _ _ ⟨ev, hev, hb⟩
      rw [(hnew ev hev).1] at hb
      cases hb
    · intro v _ ⟨ev, hev, hb⟩
      rw [(hnew ev hev).1] at hb
      cases hb
  · rw [hsrc] at h1
    cases h1
    rw [hrun]
    simp only [List.drop_left]
    have hshape : ∀ l1 : List Event, (∀ ev ∈ l1, ev.call.isBuild = false) →
        new1.filter (fun ev => ev.call.isAssembly) = l1 →
        (∃ ev ∈ openingEvents self src dst acct probe fee builder ++ (new1 ++ (new2 ++ new3)),
          ev.call.isBuild = true) →
        ∃ timed outcome,
          (openingEvents self src dst acct probe fee builder ++ (new1 ++ (new2 ++ new3))).filter
              (fun ev => ev.call.isAssembly) =
            ⟨.newTransactionBuilder acct fee.toStr self.networkPassphrase, .ok builder⟩ ::
              (l1 ++ [⟨.setTimeout builder 30, .ok timed⟩, ⟨.build timed, outcome⟩]) := by
      intro l1 hl1 hf1 ⟨ev, hev, hb⟩
      have h2nil : new2.filter (fun ev => ev.call.isAssembly) = [] := by
        rw [List.filter_eq_nil_iff]
        intro a ha
        simp [(hfill2 a ha).2]
      rcases hbuild with hno | ⟨timed, outcome, h3f⟩
      · exfalso
        rcases List.mem_append.1 hev with h | h
        · simp [openingEvents] at h
          rcases h with rfl | rfl | rfl | rfl <;> simp [Call.isBuild] at hb
        · rcases List.mem_append.1 h with h | h
          · have hm : ev ∈ new1.filter (fun ev => ev.call.isAssembly) := by
              rw [List.mem_filter]
              refine ⟨h, ?_⟩
              revert hb
              cases ev.call <;> simp [Call.isBuild, Call.isAssembly]
            rw [hf1] at hm
            rw [hl1 ev hm] at hb
            cases hb
          · rcases List.mem_append.1 h with h | h
            · rw [isBuild_isAssembly (hfill2 ev h).2] at hb
              cases hb
            · rw [hno ev h] at hb
              cases hb
      · refine ⟨timed, outcome, ?_⟩
        rw [List.filter_append, List.filter_append, List.filter_append, hf1, h2nil, h3f]
        simp [openingEvents, Call.isAssembly]
    constructor
    · intro e he h404 hb
      rw [he] at h2
      subst h2
      have hflag : flag = true := by
        have := h4 e rfl
        rw [isNotFound_of_hasStatus404 h404] at this
        cases this
        rfl
      obtain ⟨op, x, rfl⟩ := hcreate hflag
      obtain ⟨timed, outcome, hf⟩ := hshape [⟨.operationCreateAccount dst amount.toStr, .ok op⟩,
        ⟨.addOperation builder op, .ok x⟩] (by simp [Call.isBuild]) (by simp [Call.isAssembly]) hb
      exact ⟨fee, builder, op, x, timed, outcome, hf⟩
    · intro v hv hb
      rw [hv] at h2
      subst h2
      obtain ⟨asset, op, x, rfl⟩ := hpay (h3 v rfl)
      obtain ⟨timed, outcome, hf⟩ := hshape [⟨.assetNative, .ok asset⟩,
        ⟨.operationPayment dst asset amount.toStr, .ok op⟩,
        ⟨.addOperation builder op, .ok x⟩] (by simp [Call.isBuild]) (by simp [Call.isAssembly]) hb
      exact ⟨fee, builder, asset, op, x, timed, outcome, hf⟩

/-- C3. In a call of `sendPayment` in which the source account loads and no call between
the probe of the destination and `build` stops it (none throws, and the fee and what
`setTimeout` returns are values other than `undefined` and `null`): when the destination
probe reported the destination absent (404) and the amount is at least 1, a transaction
is built, and the calls that make it are the construction of the builder, one
`Operation.createAccount` with the given destination and the amount as starting balance,
the `addOperation` of that operation to that builder, `setTimeout` and `build`; no
payment operation is made. When the destination probe succeeded, and the amount is a
value other than `undefined` and `null`, a transaction is built, and the calls are the
same with, in place of the account creation, `Asset.native()` and one
`Operation.payment` of that asset and that amount to the destination. -/
theorem sendPayment_builds_one_operation {σ : Type} (self : StellarManager)
    (src dst amount memo : JSValue) (w : World) (s : σ) (t : Trace) (acct : JSValue)
    (hsrc : w t (.loadAccount self.server src) = .ok acct)
    (hcalls : ∀ ev ∈ eventsSince t (self.sendPayment src dst amount memo w s t),
      ev.permitsBuild = true) :
    (∀ e, w (t ++ [⟨.loadAccount self.server src, .ok acct⟩]) (.loadAccount self.server dst)
          = .error e →
        hasStatus404 e = true →
        JSNumber.le (.finite 1) (parseFloat amount) = true →
        ∃ (fee builder operation added timed : JSValue) (outcome : Except JSValue JSValue),
          (eventsSince t (self.sendPayment src dst amount memo w s t)).filter
              (fun ev => ev.call.isAssembly) =
            [⟨.newTransactionBuilder acct fee.toStr self.networkPassphrase, .ok builder⟩,
              ⟨.operationCreateAccount dst amount.toStr, .ok operation⟩,
              ⟨.addOperation builder operation, .ok added⟩,
              ⟨.setTimeout builder 30, .ok timed⟩, ⟨.build timed, outcome⟩])
    ∧ (∀ v, w (t ++ [⟨.loadAccount self.server src, .ok acct⟩]) (.loadAccount self.server dst)
          = .ok v →
        amount.isNullish = false →
        ∃ (fee builder asset operation added timed : JSValue)
          (outcome : Except JSValue JSValue),
          (eventsSince t (self.sendPayment src dst amount memo w s t)).filter
              (fun ev => ev.call.isAssembly) =
            [⟨.newTransactionBuilder acct fee.toStr self.networkPassphrase, .ok builder⟩,
              ⟨.assetNative, .ok asset⟩,
              ⟨.operationPayment dst asset amount.toStr, .ok operation⟩,
              ⟨.addOperation builder operation, .ok added⟩,
              ⟨.setTimeout builder 30, .ok timed⟩, ⟨.build timed, outcome⟩]) := by
  constructor
  · intro e he h404 hamount
    have hbuilt := sendPayment_reaches_build self src dst amount memo w s t acct (.error e) true
      hsrc he (fun v h => by cases h)
      (fun e1 h => by cases h; exact isNotFound_of_hasStatus404 h404)
      (fun _ => lt_one_of_one_le hamount) (not_nullish_of_one_le hamount) hcalls
    exact (sendPayment_assembly_of_build self src dst amount memo w s t acct hsrc).1 e he h404
      hbuilt
  · intro v hv hvalue
    have hbuilt := sendPayment_reaches_build self src dst amount memo w s t acct (.ok v) false
      hsrc hv (fun _ _ => rfl) (fun e1 h => by cases h) (fun h => by cases h) hvalue hcalls
    exact (sendPayment_assembly_of_build self src dst amount memo w s t acct hsrc).2 v hv hbuilt

/-- C3 at concrete inputs: a payment of 10 to an account that does not exist, and the same
payment to an account that exists. -/
theorem sendPayment_builds_one_operation_witness :
    (∃ (fee builder operation added timed : JSValue) (outcome : Except JSValue JSValue),
      (eventsSince [] (StellarManager.new.sendPayment sourceKey destinationKey (.string "10")
          .undefined newDestinationWorld () [])).filter (fun ev => ev.call.isAssembly) =
        [⟨.newTransactionBuilder sampleAccount fee.toStr StellarManager.new.networkPassphrase,
            .ok builder⟩,
          ⟨.operationCreateAccount destinationKey (JSValue.string "10").toStr, .ok operation⟩,
          ⟨.addOperation builder operation, .ok added⟩,
          ⟨.setTimeout builder 30, .ok timed⟩, ⟨.build timed, outcome⟩])
    ∧ (∃ (fee builder asset operation added timed : JSValue)
        (outcome : Except JSValue JSValue),
      (eventsSince [] (StellarManager.new.sendPayment sourceKey destinationKey (.string "10")
          .undefined sampleWorld () [])).filter (fun ev => ev.call.isAssembly) =
        [⟨.newTransactionBuilder sampleAccount fee.toStr StellarManager.new.networkPassphrase,
            .ok builder⟩,
          ⟨.assetNative, .ok asset⟩,
          ⟨.operationPayment destinationKey asset (JSValue.string "10").toStr, .ok operation⟩,
          ⟨.addOperation builder operation, .ok added⟩,
          ⟨.setTimeout builder 30, .ok timed⟩, ⟨.build timed, outcome⟩]) :=
  ⟨(sendPayment_builds_one_operation StellarManager.new sourceKey destinationKey (.string "10")
      .undefined newDestinationWorld () [] sampleAccount (by decide!) (by decide!)).1
      notFoundError (by decide!) (by decide!) (by decide!),
   (sendPayment_builds_one_operation StellarManager.new sourceKey destinationKey (.string "10")
      .undefined sampleWorld () [] sampleAccount (by decide!) (by decide!)).2 sampleAccount
      (by decide!) (by decide!)⟩

/-- C4. In a call of `sendPayment` in which `submitTransaction` is called, the calls
other than those that fill the builder are, in this order: `loadAccount` of the source,
which returned an account; `loadAccount` of the destination; `fetchBaseFee`, which
returned a fee; the construction of the builder from that account and that fee;
`setTimeout` and `build` on that builder; `toXDR` of the built transaction; the signer's
`signXDR` of that text; `fromXDR` of what the signer returned; and `submitTransaction` of
the transaction so read. -/
theorem sendPayment_submits_after_account_and_fee {σ : Type} (self : StellarManager)
    (src dst amount memo : JSValue) (w : World) (s : σ) (t : Trace)
    (hsubmit : ∃ ev ∈ eventsSince t (self.sendPayment src dst amount memo w s t),
      ev.call.isSubmitTransaction = true) :
    ∃ (acct fee builder timed transaction xdr signer signedXDR signedTransaction : JSValue)
      (probe outcome : Except JSValue JSValue),
      w t (.loadAccount self.server src) = .ok acct
      ∧ (eventsSince t (self.sendPayment src dst amount memo w s t)).filter
          (fun ev => !ev.call.isFilling) =
        [⟨.loadAccount self.server src, .ok acct⟩, ⟨.loadAccount self.server dst, probe⟩,
          ⟨.fetchBaseFee self.server, .ok fee⟩,
          ⟨.newTransactionBuilder acct fee.toStr self.networkPassphrase, .ok builder⟩,
          ⟨.setTimeout builder 30, .ok timed⟩, ⟨.build timed, .ok transaction⟩,
          ⟨.toXDR transaction, .ok xdr⟩, ⟨.xBullSDK, .ok signer⟩,
          ⟨.signXDR xdr self.networkPassphrase src, .ok signedXDR⟩,
          ⟨.fromXDR signedXDR self.networkPassphrase, .ok signedTransaction⟩,
          ⟨.submitTransaction self.server signedTransaction, outcome⟩] := by
  revert hsubmit
  unfold eventsSince
  rw [sendPayment_trace]
  rcases sendPaymentBody_cases self src dst amount (effectiveMemo memo) w s t with
    ⟨e1, new, hrun, hnew⟩ |
    ⟨acct, probe, flag, fee, builder, new1, new2, new3, r, h1, h2, h3, h4, hrun, hcreate,
      hpay, hfill2, hnofill, hsub, -⟩
  · rw [hrun]
    simp only [List.drop_left]
    rintro ⟨ev, hev, hb⟩
    rw [(hnew ev hev).2.1] at hb
    cases hb
  · rw [hrun]
    simp only [List.drop_left]
    rintro ⟨ev, hev, hb⟩
    have hfill1 : ∀ a ∈ new1, a.call.isFilling = true := by
      cases flag with
      | true =>
        obtain ⟨op, x, rfl⟩ := hcreate rfl
        simp [Call.isFilling]
      | false =>
        obtain ⟨asset, op, x, rfl⟩ := hpay rfl
        simp [Call.isFilling]
    have h1nil : new1.filter (fun ev => !ev.call.isFilling) = [] := by
      rw [List.filter_eq_nil_iff]
      intro a ha
      simp [hfill1 a ha]
    have h2nil : new2.filter (fun ev => !ev.call.isFilling) = [] := by
      rw [List.filter_eq_nil_iff]
      intro a ha
      simp [(hfill2 a ha).1]
    have h3self : new3.filter (fun ev => !ev.call.isFilling) = new3 := by
      rw [List.filter_eq_self]
      intro a ha
      simp [hnofill a ha]
    rcases hsub with hno | ⟨timed, transaction, xdr, signer, signedXDR, signedTransaction,
      outcome, rfl⟩
    · exfalso
      rcases List.mem_append.1 hev with h | h
      · simp [openingEvents] at h
        rcases h with rfl | rfl | rfl | rfl <;> simp [Call.isSubmitTransaction] at hb
      · rcases List.mem_append.1 h with h | h
        · rw [(isFilling_not_submit (hfill1 ev h)).1] at hb
          cases hb
        · rcases List.mem_append.1 h with h | h
          · rw [(isFilling_not_submit (hfill2 ev h).1).1] at hb
            cases hb
          · rw [hno ev h] at hb
            cases hb
    · refine ⟨acct, fee, builder, timed, transaction, xdr, signer, signedXDR,
        signedTransaction, probe, outcome, h1, ?_⟩
      rw [List.filter_append, List.filter_append, List.filter_append, h1nil, h2nil, h3self]
      simp [openingEvents, Call.isFilling]

/-- C4 at a concrete input: a payment of 10 between two accounts that exist. -/
theorem sendPayment_submits_after_account_and_fee_witness :
    ∃ (acct fee builder timed transaction xdr signer signedXDR signedTransaction : JSValue)
      (probe outcome : Except JSValue JSValue),
      sampleWorld [] (.loadAccount StellarManager.new.server sourceKey) = .ok acct
      ∧ (eventsSince [] (StellarManager.new.sendPayment sourceKey destinationKey (.string "10")
          .undefined sampleWorld () [])).filter (fun ev => !ev.call.isFilling) =
        [⟨.loadAccount StellarManager.new.server sourceKey, .ok acct⟩,
          ⟨.loadAccount StellarManager.new.server destinationKey, probe⟩,
          ⟨.fetchBaseFee StellarManager.new.server, .ok fee⟩,
          ⟨.newTransactionBuilder acct fee.toStr StellarManager.new.networkPassphrase,
            .ok builder⟩,
          ⟨.setTimeout builder 30, .ok timed⟩, ⟨.build timed, .ok transaction⟩,
          ⟨.toXDR transaction, .ok xdr⟩, ⟨.xBullSDK, .ok signer⟩,
          ⟨.signXDR xdr StellarManager.new.networkPassphrase sourceKey, .ok signedXDR⟩,
          ⟨.fromXDR signedXDR StellarManager.new.networkPassphrase, .ok signedTransaction⟩,
          ⟨.submitTransaction StellarManager.new.server signedTransaction, outcome⟩] :=
  sendPayment_submits_after_account_and_fee StellarManager.new sourceKey destinationKey
    (.string "10") .undefined sampleWorld () [] (by decide!)

/-- C5 as stated fails. The source account does not exist: `loadAccount` rejects with
an error whose message is "Not Found" and whose response carries data but no result
codes. The error field of the result is the fixed text "Unknown error occurred", not
the raw message of the failure. -/
theorem sendPayment_unknown_error_for_response_data :
    sendPaymentBody StellarManager.new sourceKey destinationKey (.string "10")
        (effectiveMemo .undefined) noSourceWorld () []
      = (.error notFoundError, (),
          [⟨.loadAccount StellarManager.new.server sourceKey, .error notFoundError⟩])
    ∧ resultCodes notFoundError = none
    ∧ notFoundError.prop "message" = .string "Not Found"
    ∧ (StellarManager.new.sendPayment sourceKey destinationKey (.string "10") .undefined
        noSourceWorld () []).1 = .ok (paymentFailure (.string "Unknown error occurred"))
    ∧ (StellarManager.new.sendPayment sourceKey destinationKey (.string "10") .undefined
        noSourceWorld () []).1 ≠ .ok (paymentFailure (notFoundError.prop "message")) := by
  decide!

/-- C5, amended. When the `try` block of `sendPayment` fails with a value `e` other than
`undefined` and `null`, the result is `success = false` with this error field: for a
ledger rejection carrying result codes, "Transaction failed: " and the transaction code,
followed, when the per-operation codes are an array, by " - " and the codes joined with
", "; for a failure whose response carries data but no result codes, the fixed text
"Unknown error occurred"; for every other failure, the `message` of the failure. -/
theorem sendPayment_failure_message {σ : Type} (self : StellarManager)
    (src dst amount memo : JSValue) (w : World) (s : σ) (t : Trace) (e : JSValue) (s1 : σ)
    (t1 : Trace)
    (hfail : sendPaymentBody self src dst amount (effectiveMemo memo) w s t = (.error e, s1, t1))
    (hvalue : e.isNullish = false) :
    (∀ codes, resultCodes e = some codes → (codes.prop "operations").truthy = false →
        self.sendPayment src dst amount memo w s t
          = (.ok (paymentFailure (.string
              ("Transaction failed: " ++ (codes.prop "transaction").toStr))), s1, t1))
    ∧ (∀ codes operations, resultCodes e = some codes →
        codes.prop "operations" = .array operations →
        self.sendPayment src dst amount memo w s t
          = (.ok (paymentFailure (.string
              ("Transaction failed: " ++ (codes.prop "transaction").toStr ++ " - "
                ++ JSValue.joinItems ", " operations))), s1, t1))
    ∧ (∀ data, responseData e = some data → resultCodes e = none →
        self.sendPayment src dst amount memo w s t
          = (.ok (paymentFailure (.string "Unknown error occurred")), s1, t1))
    ∧ (responseData e = none →
        self.sendPayment src dst amount memo w s t
          = (.ok (paymentFailure (e.prop "message")), s1, t1)) := by
  obtain ⟨h1, h2, h3, h4⟩ := paymentErrorMessage_cases e hvalue
  rw [sendPayment_run, hfail]
  refine ⟨?_, ?_, ?_, ?_⟩
  · intro codes hc hops
    simp only [h1 codes hc hops]
  · intro codes operations hc hops
    simp only [h2 codes operations hc hops]
  · intro data hd hnone
    simp only [h3 data hd hnone]
  · intro hnone
    simp only [h4 hnone]

/-- C5, amended, at concrete inputs: a rejection with a transaction code only, a
rejection with operation codes, a missing source account, and a network failure. -/
theorem sendPayment_failure_message_witness :
    StellarManager.new.sendPayment sourceKey destinationKey (.string "10") .undefined
        badSequenceWorld () []
      = (.ok (paymentFailure (.string ("Transaction failed: " ++ "tx_bad_seq"))), (),
          (sendPaymentBody StellarManager.new sourceKey destinationKey (.string "10")
            (effectiveMemo .undefined) badSequenceWorld () []).2.2)
    ∧ StellarManager.new.sendPayment sourceKey destinationKey (.string "10") .undefined
        rejectingWorld () []
      = (.ok (paymentFailure (.string ("Transaction failed: " ++ "tx_failed" ++ " - "
            ++ JSValue.joinItems ", " [.string "op_underfunded"]))), (),
          (sendPaymentBody StellarManager.new sourceKey destinationKey (.string "10")
            (effectiveMemo .undefined) rejectingWorld () []).2.2)
    ∧ StellarManager.new.sendPayment sourceKey destinationKey (.string "10") .undefined
        noSourceWorld () []
      = (.ok (paymentFailure (.string "Unknown error occurred")), (),
          [⟨.loadAccount StellarManager.new.server sourceKey, .error notFoundError⟩])
    ∧ StellarManager.new.sendPayment sourceKey destinationKey (.string "10") .undefined
        noFeeWorld () []
      = (.ok (paymentFailure (networkError.prop "message")), (),
          (sendPaymentBody StellarManager.new sourceKey destinationKey (.string "10")
            (effectiveMemo .undefined) noFeeWorld () []).2.2) :=
  ⟨(sendPayment_failure_message StellarManager.new sourceKey destinationKey (.string "10")
      .undefined badSequenceWorld () []
      (.object [("message", .string "Request failed with status code 400"),
        ("response", .object [("status", .ofNat 400),
          ("data", .object [("extras", .object [("result_codes",
            .object [("transaction", .string "tx_bad_seq")])])])])]) () _
      (by decide!) (by decide!)).1
      (.object [("transaction", .string "tx_bad_seq")]) (by decide!) (by decide!),
   (sendPayment_failure_message StellarManager.new sourceKey destinationKey (.string "10")
      .undefined rejectingWorld () []
      (.object [("message", .string "Request failed with status code 400"),
        ("response", .object [("status", .ofNat 400),
          ("data", .object [("extras", .object [("result_codes",
            .object [("transaction", .string "tx_failed"),
              ("operations", .array [.string "op_underfunded"])])])])])]) () _
      (by decide!) (by decide!)).2.1
      (.object [("transaction", .string "tx_failed"),
        ("operations", .array [.string "op_underfunded"])]) [.string "op_underfunded"]
      (by decide!) (by decide!),
   (sendPayment_failure_message StellarManager.new sourceKey destinationKey (.string "10")
      .undefined noSourceWorld () [] notFoundError () _ (by decide!) (by decide!)).2.2.1
      (.object [("title", .string "Resource Missing"), ("status", .ofNat 404)])
      (by decide!) (by decide!),
   (sendPayment_failure_message StellarManager.new sourceKey destinationKey (.string "10")
      .undefined noFeeWorld () [] networkError () _ (by decide!) (by decide!)).2.2.2
      (by decide!)⟩
/-- C6 as stated fails. The load succeeds with an account that has no balance of the
native asset, a case the method provides for itself (the `: '0'` of line 27): the result
is the text "0", which has no decimal places. And the load succeeds with an account whose
native balance is written "1e21": the result is the text "1e+21", as `toFixed` writes a
Number from `10 ^ 21` on. -/
theorem getAccountBalance_without_seven_decimals :
    noNativeWorld [] (.loadAccount StellarManager.new.server sourceKey)
      = .ok (.object [("id", sourceKey), ("balances", .array [])])
    ∧ (StellarManager.new.getAccountBalance sourceKey noNativeWorld () []).1
      = .ok (.string "0")
    ∧ hasSevenDecimals "0" = false
    ∧ (StellarManager.new.getAccountBalance sourceKey hugeBalanceWorld () []).1
      = .ok (.string "1e+21")
    ∧ hasSevenDecimals "1e+21" = false := by
  decide!

/-- C6, amended. `getAccountBalance` returns the sentinel "Account not found" exactly
when loading the account fails with a not-found (404) response; when the load fails with
another value (other than `undefined` and `null`) it fails with that value; when the load
succeeds with an account whose `balances` are an array of records, and the first balance
of the native asset reads, by `parseFloat`, as a Number `a` that is not negative and is
below `10 ^ 21`, it returns that balance formatted with seven decimal places: digits, of
which there is one at least, a point and exactly seven digits, denoting a number within
half a unit of the seventh decimal place of `a`; and when there is no balance of the
native asset it returns the text "0". -/
theorem getAccountBalance_cases {σ : Type} (self : StellarManager) (publicKey : JSValue)
    (w : World) (s : σ) (t : Trace) :
    (∀ e, w t (.loadAccount self.server publicKey) = .error e → hasStatus404 e = true →
        (self.getAccountBalance publicKey w s t).1 = .ok (.string "Account not found"))
    ∧ (∀ e, w t (.loadAccount self.server publicKey) = .error e → e.isNullish = false →
        hasStatus404 e = false →
        (self.getAccountBalance publicKey w s t).1 = .error e)
    ∧ (∀ account balances entry (a : ℚ),
        w t (.loadAccount self.server publicKey) = .ok account →
        account.get "balances" = .ok (.array balances) →
        (∀ b ∈ balances, b.isNullish = false) →
        firstNative balances = some entry →
        parseFloat (entry.prop "balance") = .finite a →
        0 ≤ a → a < (10 : ℚ) ^ (21 : ℕ) →
        ∃ ip fp : List Char,
          (self.getAccountBalance publicKey w s t).1 = .ok (.string (String.mk (ip ++ '.' :: fp)))
          ∧ hasSevenDecimals (String.mk (ip ++ '.' :: fp)) = true
          ∧ ip ≠ [] ∧ (∀ c ∈ ip, c.isDigit = true)
          ∧ fp.length = 7 ∧ (∀ c ∈ fp, c.isDigit = true)
          ∧ |((digitsValue ip : ℚ) + (digitsValue fp : ℚ) / (10 : ℚ) ^ (7 : ℕ)) - a|
              ≤ 1 / 20000000)
    ∧ (∀ account balances, w t (.loadAccount self.server publicKey) = .ok account →
        account.get "balances" = .ok (.array balances) →
        (∀ b ∈ balances, b.isNullish = false) →
        firstNative balances = none →
        (self.getAccountBalance publicKey w s t).1 = .ok (.string "0"))
    ∧ ((self.getAccountBalance publicKey w s t).1 = .ok (.string "Account not found") →
        ∃ e, w t (.loadAccount self.server publicKey) = .error e ∧ hasStatus404 e = true) := by
  rw [getAccountBalance_run]
  refine ⟨?_, ?_, ?_, ?_, ?_⟩
  · intro e he h404
    simp only [he, isNotFound_of_hasStatus404 h404]
  · intro e he hn h404
    simp only [he, isNotFound_of_not_nullish hn, h404]
  · intro account balances entry a hacc hbal hall hfirst hparse h0 h21
    have hnb : nativeBalance account = .ok entry := by
      unfold nativeBalance
      rw [hbal]
      simp only [bind, Except.bind]
      rw [findNative_eq balances hall, hfirst]
      rfl
    obtain ⟨ip, fp, htext, hne, hip, hlen, hfp, hnear⟩ := toFixed_seven_decimals a h0 h21
    refine ⟨ip, fp, ?_, hasSevenDecimals_plain ip fp hne hip hlen hfp, hne, hip, hlen, hfp,
      hnear⟩
    simp only [hacc, hnb, truthy_of_asset_type (firstNative_some hfirst), if_true, hparse,
      htext]
  · intro account balances hacc hbal hall hfirst
    have hnb : nativeBalance account = .ok .undefined := by
      unfold nativeBalance
      rw [hbal]
      simp only [bind, Except.bind]
      rw [findNative_eq balances hall, hfirst]
      rfl
    simp only [hacc, hnb, JSValue.truthy]
    rfl
  · intro h
    cases hload : w t (.loadAccount self.server publicKey) with
    | error e =>
      refine ⟨e, rfl, ?_⟩
      rw [hload] at h
      simp only [] at h
      cases hnf : isNotFound e with
      | error e2 =>
        rw [hnf] at h
        cases h
      | ok b =>
        rw [hnf] at h
        cases b with
        | false => cases h
        | true => exact (isNotFound_ok hnf).2.symm
    | ok account =>
      exfalso
      rw [hload] at h
      simp only [] at h
      cases hnb : nativeBalance account with
      | error e =>
        rw [hnb] at h
        obtain ⟨msg, rfl⟩ := nativeBalance_error hnb
        simp [isNotFound_typeError] at h
      | ok xlmBalance =>
        rw [hnb] at h
        simp only [] at h
        split at h
        · simp only [Except.ok.injEq, JSValue.string.injEq] at h
          exact toFixed_ne_sentinel _ _ h
        · simp only [Except.ok.injEq, JSValue.string.injEq] at h
          revert h
          decide

/-- C6, amended, at concrete inputs: a missing account, a network failure, an account
with 100 units of the native asset, and an account without a native balance. -/
theorem getAccountBalance_cases_witness :
    (StellarManager.new.getAccountBalance sourceKey noSourceWorld () []).1
      = .ok (.string "Account not found")
    ∧ (StellarManager.new.getAccountBalance sourceKey
        (fun _ _ => .error networkError) () []).1 = .error networkError
    ∧ (StellarManager.new.getAccountBalance sourceKey sampleWorld () []).1
      = .ok (.string "100.0000000")
    ∧ (∃ ip fp : List Char,
        (StellarManager.new.getAccountBalance sourceKey sampleWorld () []).1
          = .ok (.string (String.mk (ip ++ '.' :: fp)))
        ∧ hasSevenDecimals (String.mk (ip ++ '.' :: fp)) = true
        ∧ ip ≠ [] ∧ (∀ c ∈ ip, c.isDigit = true)
        ∧ fp.length = 7 ∧ (∀ c ∈ fp, c.isDigit = true)
        ∧ |((digitsValue ip : ℚ) + (digitsValue fp : ℚ) / (10 : ℚ) ^ (7 : ℕ)) - 100|
            ≤ 1 / 20000000)
    ∧ (StellarManager.new.getAccountBalance sourceKey noNativeWorld () []).1
      = .ok (.string "0")
    ∧ (∃ e, noSourceWorld [] (.loadAccount StellarManager.new.server sourceKey) = .error e
        ∧ hasStatus404 e = true) :=
  ⟨(getAccountBalance_cases StellarManager.new sourceKey noSourceWorld () []).1
      notFoundError (by decide!) (by decide!),
   (getAccountBalance_cases StellarManager.new sourceKey (fun _ _ => .error networkError)
      () []).2.1 networkError (by decide!) (by decide!) (by decide!),
   by decide!,
   (getAccountBalance_cases StellarManager.new sourceKey sampleWorld () []).2.2.1
      sampleAccount sampleBalances
      (.object [("asset_type", .string "native"), ("balance", .string "100.0000000")]) 100
      (by decide!) (by decide!) (by decide!) (by decide!) (by decide!) (by norm_num)
      (by norm_num),
   (getAccountBalance_cases StellarManager.new sourceKey noNativeWorld () []).2.2.2.1
      (.object [("id", sourceKey), ("balances", .array [])]) []
      (by decide!) (by decide!) (by decide!) (by decide!),
   (getAccountBalance_cases StellarManager.new sourceKey noSourceWorld () []).2.2.2.2
      (by decide!)⟩

/-- C7. `getRecentTransactions` never raises: whatever the arguments and the
collaborators, it returns a value. When the query fails, that value is the empty array;
when the query returns records (values other than `undefined` and `null`), it is the
array of their summaries, in the order returned, each with the hash, the `created_at`
date and the `successful` flag of its record. -/
theorem getRecentTransactions_never_raises {σ : Type} (self : StellarManager)
    (publicKey limit : JSValue) (w : World) (s : σ) (t : Trace) :
    (∃ v, (self.getRecentTransactions publicKey limit w s t).1 = .ok v)
    ∧ (∀ e, w t (.transactions self.server publicKey "desc" (effectiveLimit limit)) = .error e →
        (self.getRecentTransactions publicKey limit w s t).1 = .ok (.array []))
    ∧ (∀ response records,
        w t (.transactions self.server publicKey "desc" (effectiveLimit limit)) = .ok response →
        response.get "records" = .ok (.array records) →
        (∀ r ∈ records, r.isNullish = false) →
        (self.getRecentTransactions publicKey limit w s t).1
          = .ok (.array (records.map summaryOf))) := by
  have hrun : self.getRecentTransactions publicKey limit w s t =
      (match w t (.transactions self.server publicKey "desc" (effectiveLimit limit)) with
       | .error _ => .ok (.array [])
       | .ok transactions =>
          match transactions.get "records" with
          | .error _ => .ok (.array [])
          | .ok records =>
              match records.map transactionSummary with
              | .error _ => .ok (.array [])
              | .ok v => .ok v,
       s, t ++ [⟨.transactions self.server publicKey "desc" (effectiveLimit limit),
          w t (.transactions self.server publicKey "desc" (effectiveLimit limit))⟩]) := by
    unfold StellarManager.getRecentTransactions Async.tryCatch effectiveLimit
    simp only [perform_bind]
    cases w t (.transactions self.server publicKey "desc"
      (if limit = .undefined then JSValue.ofNat 10 else limit)) with
    | error e => rfl
    | ok transactions =>
      simp only [ofExcept_bind]
      cases transactions.get "records" with
      | error e => rfl
      | ok records =>
        simp only [Async.ofExcept]
        cases records.map transactionSummary <;> rfl
  rw [hrun]
  refine ⟨?_, ?_, ?_⟩
  · cases w t (.transactions self.server publicKey "desc" (effectiveLimit limit)) with
    | error e => exact ⟨_, rfl⟩
    | ok transactions =>
      simp only []
      cases transactions.get "records" with
      | error e => exact ⟨_, rfl⟩
      | ok records =>
        simp only []
        cases records.map transactionSummary with
        | error e => exact ⟨_, rfl⟩
        | ok v => exact ⟨_, rfl⟩
  · intro e he
    simp only [he]
  · intro response records hr hrec hall
    simp only [hr, hrec, JSValue.map, mapItems_transactionSummary records hall]

/-- C7 at concrete inputs: a listing that fails, and a listing that returns two records. -/
theorem getRecentTransactions_never_raises_witness :
    (StellarManager.new.getRecentTransactions sourceKey .undefined noListingWorld () []).1
      = .ok (.array [])
    ∧ (StellarManager.new.getRecentTransactions sourceKey .undefined sampleWorld () []).1
      = .ok (.array (sampleRecords.map summaryOf)) :=
  ⟨(getRecentTransactions_never_raises StellarManager.new sourceKey .undefined noListingWorld
      () []).2.1 networkError (by decide!),
   (getRecentTransactions_never_raises StellarManager.new sourceKey .undefined sampleWorld
      () []).2.2 (.object [("records", .array sampleRecords)]) sampleRecords
      (by decide!) (by decide!) (by decide!)⟩

/-- C8, at a failing input. A `WalletManager` is constructed and `connectWallet()` is
called while the wallet extension is not installed. The call returns, the session is
still disconnected, and the failure is reported as a status message; but `publicKey` is
the address the constructor sets, not `null`. -/
theorem connectWallet_failure_leaves_constructor_key :
    freshBrowser.walletManager = WalletManager.new
    ∧ (WalletManager.connectWallet noWalletWorld freshBrowser []).1 = .ok ()
    ∧ (WalletManager.connectWallet noWalletWorld freshBrowser []).2.1.walletManager.isConnected
      = false
    ∧ (WalletManager.connectWallet noWalletWorld freshBrowser []).2.1.walletManager.publicKey
      = .string "GCJMDI3HPUJGTBXIOFE46FUCGVQXLVIH3M2MKGFRRW45W4WNV6R3Z7DU"
    ∧ (WalletManager.connectWallet noWalletWorld freshBrowser []).2.1.walletManager.publicKey
      ≠ .null
    ∧ (WalletManager.connectWallet noWalletWorld freshBrowser []).2.1.page.statusMessages
      = [("Connecting to xBull Wallet...", "info"),
         ("Connection failed: xBull Wallet not detected. Please install the xBull browser extension.",
          "error")] := by
  decide!

/-- A second way `connectWallet` departs from C8: when the signer rejects the connection
with `undefined`, the `catch` block reads `error.message` of that value, which throws a
`TypeError`, and `connectWallet` raises it. -/
theorem connectWallet_raises_on_undefined_rejection :
    (WalletManager.connectWallet silentConnectWorld freshBrowser []).1
      = .error (typeError "Cannot read properties of undefined (reading message)") := by
  decide!

/-- What `connectWallet()` does when it fails before a public key is obtained, with a
failure `e` other than `undefined` and `null`: it returns, the fields of the
`WalletManager` are as they were, so that a session that was disconnected with no public
key is still so, and the failure is shown as a status message. -/
theorem connectWallet_failure_keeps_session (w : World) (b : Browser) (t : Trace)
    (e : JSValue) (hfail : (requestPublicKey w b t).1 = .error e)
    (hvalue : e.isNullish = false) :
    WalletManager.connectWallet w b t
      = (.ok (),
          { b with
            page := (b.page.withStatus "Connecting to xBull Wallet..." "info").withStatus
              ("Connection failed: " ++ (e.prop "message").toStr) "error" },
          (requestPublicKey w b t).2.2) := by
  rcases hrun : requestPublicKey w b t with ⟨r, b1, t1⟩
  rw [hrun] at hfail
  simp only at hfail
  subst hfail
  have hb := requestPublicKey_state hrun
  subst hb
  unfold WalletManager.connectWallet Async.tryCatch
  rw [bind_run_error hrun]
  simp only [ofExcept_bind, get_of_not_nullish hvalue, showStatus_run]

/-- The four failures of `connectWallet()` before a public key is obtained, from a
session that is disconnected with no public key: the extension is not installed, the
request for permissions fails, the user declines, and the request for the public key
fails. Each time the call returns, the `WalletManager` is as it was, and the failure is
shown. -/
theorem connectWallet_failure_keeps_session_witness :
    disconnectedBrowser.walletManager.isConnected = false
    ∧ disconnectedBrowser.walletManager.publicKey = .null
    ∧ WalletManager.connectWallet noWalletWorld disconnectedBrowser []
      = (.ok (),
          { disconnectedBrowser with
            page := (blankPage.withStatus "Connecting to xBull Wallet..." "info").withStatus
                ("Connection failed: "
                  ++ "xBull Wallet not detected. Please install the xBull browser extension.")
                "error" },
          [⟨.xBullSDK, .ok .undefined⟩])
    ∧ WalletManager.connectWallet brokenConnectWorld disconnectedBrowser []
      = (.ok (),
          { disconnectedBrowser with
            page := (blankPage.withStatus "Connecting to xBull Wallet..." "info").withStatus
                ("Connection failed: " ++ "The wallet is locked") "error" },
          [⟨.xBullSDK, .ok (.object [])⟩, ⟨.xBullSDK, .ok (.object [])⟩,
            ⟨.connect true true, .error (newError "The wallet is locked")⟩])
    ∧ WalletManager.connectWallet decliningWorld disconnectedBrowser []
      = (.ok (),
          { disconnectedBrowser with
            page := (blankPage.withStatus "Connecting to xBull Wallet..." "info").withStatus
                ("Connection failed: " ++ "Connection rejected by user") "error" },
          [⟨.xBullSDK, .ok (.object [])⟩, ⟨.xBullSDK, .ok (.object [])⟩,
            ⟨.connect true true, .ok (.bool false)⟩])
    ∧ WalletManager.connectWallet noKeyWorld disconnectedBrowser []
      = (.ok (),
          { disconnectedBrowser with
            page := (blankPage.withStatus "Connecting to xBull Wallet..." "info").withStatus
                ("Connection failed: " ++ "The wallet is locked") "error" },
          [⟨.xBullSDK, .ok (.object [])⟩, ⟨.xBullSDK, .ok (.object [])⟩,
            ⟨.connect true true, .ok (.bool true)⟩, ⟨.xBullSDK, .ok (.object [])⟩,
            ⟨.getPublicKey, .error (newError "The wallet is locked")⟩]) :=
  ⟨by decide, by decide,
   connectWallet_failure_keeps_session noWalletWorld disconnectedBrowser []
     (newError "xBull Wallet not detected. Please install the xBull browser extension.")
     (by decide!) (by decide),
   connectWallet_failure_keeps_session brokenConnectWorld disconnectedBrowser []
     (newError "The wallet is locked") (by decide!) (by decide),
   connectWallet_failure_keeps_session decliningWorld disconnectedBrowser []
     (newError "Connection rejected by user") (by decide!) (by decide),
   connectWallet_failure_keeps_session noKeyWorld disconnectedBrowser []
     (newError "The wallet is locked") (by decide!) (by decide)⟩


/-- C9, at a failing input. A `WalletManager` is constructed, so that it is disconnected,
and `disconnectWallet()` is called: `isConnected` and `walletType` keep their values, but
`publicKey`, which the constructor set to an address, becomes `null`. -/
theorem disconnectWallet_clears_constructor_key :
    freshBrowser.walletManager = WalletManager.new
    ∧ freshBrowser.walletManager.isConnected = false
    ∧ freshBrowser.walletManager.publicKey
      = .string "GCJMDI3HPUJGTBXIOFE46FUCGVQXLVIH3M2MKGFRRW45W4WNV6R3Z7DU"
    ∧ (WalletManager.disconnectWallet sampleWorld freshBrowser []).1 = .ok ()
    ∧ (WalletManager.disconnectWallet sampleWorld freshBrowser []).2.1.walletManager.isConnected
      = false
    ∧ (WalletManager.disconnectWallet sampleWorld freshBrowser []).2.1.walletManager.walletType
      = freshBrowser.walletManager.walletType
    ∧ (WalletManager.disconnectWallet sampleWorld freshBrowser []).2.1.walletManager.publicKey
      = .null
    ∧ (WalletManager.disconnectWallet sampleWorld freshBrowser []).2.1.walletManager.publicKey
      ≠ freshBrowser.walletManager.publicKey := by
  decide!

/-- What `disconnectWallet()` does from any state: it returns, `isConnected` is `false`,
`publicKey` is `null`, the other fields are as they were, the sections of a connected
wallet are hidden, and the disconnection is shown as a status message. -/
theorem disconnectWallet_run (w : World) (b : Browser) (t : Trace) :
    WalletManager.disconnectWallet w b t
      = (.ok (),
          { b with
            walletManager := { b.walletManager with isConnected := false, publicKey := .null }
            page := { b.page.withStatus "Wallet disconnected" "info" with
              walletStatusHidden := false
              walletInfoHidden := true
              paymentSectionHidden := true
              historySectionHidden := true } },
          t) := by
  rfl

/-- On a session that is disconnected with no public key, `disconnectWallet()` leaves
the fields of the `WalletManager` as they were. -/
theorem disconnectWallet_noop_without_key (w : World) (b : Browser) (t : Trace)
    (hflag : b.walletManager.isConnected = false) (hkey : b.walletManager.publicKey = .null) :
    (WalletManager.disconnectWallet w b t).1 = .ok ()
    ∧ (WalletManager.disconnectWallet w b t).2.1.walletManager = b.walletManager := by
  rw [disconnectWallet_run]
  refine ⟨rfl, ?_⟩
  rcases b with ⟨⟨c, k, ty, n⟩, m, p⟩
  simp only at hflag hkey
  subst hflag hkey
  rfl

/-- C10 as stated fails. The amount 268450677.5087131 has seven fraction digits, but
`xlmToStroops` returns 2684506775087132, one more than the amount times 10,000,000; and
`stroopsToXLM` of that writes 268450677.5087132, which differs from the amount by a full
1e-7. -/
theorem xlmToStroops_off_by_one_stroop :
    parseFloat (.string "268450677.5087131")
      = JSNumber.ofRat ((2684506775087131 : ℕ) / 10000000)
    ∧ StellarManager.new.xlmToStroops (.string "268450677.5087131")
      = .finite 2684506775087132
    ∧ StellarManager.new.xlmToStroops (.string "268450677.5087131")
      ≠ .finite 2684506775087131
    ∧ StellarManager.new.stroopsToXLM
        (.number (StellarManager.new.xlmToStroops (.string "268450677.5087131")))
      = "268450677.5087132"
    ∧ unsignedDecimalPrefix "268450677.5087132".data = some (2684506775087132 / 10000000)
    ∧ ¬ |(2684506775087132 / 10000000 : ℚ) - 2684506775087131 / 10000000| < 1 / 10000000 := by
  decide!

/-- C10, amended. For an amount of `n` stroops with `n < 2 ^ 51` (about 225 million
units), given as a value that `parseFloat` reads as the Number nearest to `n / 10 ^ 7`
(a decimal text, or that Number): `xlmToStroops` returns the integer `n`, and
`stroopsToXLM` of it writes a text that denotes `n / 10 ^ 7` exactly, so that it differs
from the amount by less than 1e-7. -/
theorem conversion_round_trip (self : StellarManager) (xlm : JSValue) (n : ℕ)
    (hn : n < 2 ^ 51)
    (hx : parseFloat xlm = JSNumber.ofRat ((n : ℚ) / 10000000)) :
    self.xlmToStroops xlm = .finite (n : ℚ)
    ∧ ∃ y : ℚ, unsignedDecimalPrefix
          (self.stroopsToXLM (.number (self.xlmToStroops xlm))).data = some y
        ∧ y = (n : ℚ) / 10000000
        ∧ |y - (n : ℚ) / 10000000| < 1 / 10000000 := by
  have h1 := xlmToStroops_exact self xlm n hn hx
  refine ⟨h1, (n : ℚ) / 10000000, ?_, rfl, ?_⟩
  · rw [h1, stroopsToXLM_exact self n hn]
    exact fixedDigits_denotes n
  · rw [sub_self, abs_zero]
    norm_num

/-- C10, amended, at a concrete input: the amount 12.3456789. -/
theorem conversion_round_trip_witness :
    StellarManager.new.xlmToStroops (.string "12.3456789") = .finite ((123456789 : ℕ) : ℚ)
    ∧ ∃ y : ℚ, unsignedDecimalPrefix
          (StellarManager.new.stroopsToXLM
            (.number (StellarManager.new.xlmToStroops (.string "12.3456789")))).data = some y
        ∧ y = ((123456789 : ℕ) : ℚ) / 10000000
        ∧ |y - ((123456789 : ℕ) : ℚ) / 10000000| < 1 / 10000000 :=
  conversion_round_trip StellarManager.new (.string "12.3456789") 123456789 (by decide!)
    (by decide!)

/-- C11 as stated fails. The Number `10 ^ 21` is positive, and `formatAmount` of it is
the text "1e+21": from `10 ^ 21` on, `toFixed` writes a Number as `toString` does, in
exponent notation here, with no decimal point and no fraction digits. -/
theorem formatAmount_exponent_notation :
    JSNumber.ofRat ((10 : ℚ) ^ (21 : ℕ)) = .finite ((10 : ℚ) ^ (21 : ℕ))
    ∧ (0 : ℚ) < (10 : ℚ) ^ (21 : ℕ)
    ∧ StellarManager.new.formatAmount (.number (.finite ((10 : ℚ) ^ (21 : ℕ)))) = "1e+21"
    ∧ hasSevenDecimals
        (StellarManager.new.formatAmount (.number (.finite ((10 : ℚ) ^ (21 : ℕ))))) = false
    ∧ '.' ∉ (StellarManager.new.formatAmount
        (.number (.finite ((10 : ℚ) ^ (21 : ℕ))))).data := by
  decide!

/-- C11, amended. For an amount that `parseFloat` reads as a positive Number `a` below
`10 ^ 21` (such a Number itself, or a text of one), `formatAmount` with the default
`decimals = 7` writes a text in plain decimal notation: digits, of which there is one at
least, a point, and exactly seven digits; and the number the text denotes differs from
`a` by half a unit of the seventh decimal place at most. -/
theorem formatAmount_seven_decimals (self : StellarManager) (amount : JSValue) (a : ℚ)
    (hamount : parseFloat amount = .finite a) (hpos : 0 < a)
    (hlt : a < (10 : ℚ) ^ (21 : ℕ)) :
    ∃ ip fp : List Char,
      self.formatAmount amount = String.mk (ip ++ '.' :: fp)
      ∧ ip ≠ [] ∧ (∀ c ∈ ip, c.isDigit = true)
      ∧ fp.length = 7 ∧ (∀ c ∈ fp, c.isDigit = true)
      ∧ unsignedDecimalPrefix (self.formatAmount amount).data
          = some ((digitsValue ip : ℚ) + (digitsValue fp : ℚ) / (10 : ℚ) ^ (7 : ℕ))
      ∧ |((digitsValue ip : ℚ) + (digitsValue fp : ℚ) / (10 : ℚ) ^ (7 : ℕ)) - a|
          ≤ 1 / 20000000 := by
  have hempty : ∀ l : List Char, "" ++ String.mk l = String.mk l := by
    intro l
    apply String.ext
    simp
  have hrun : self.formatAmount amount
      = String.mk (fixedDigits ⌊a * (10 : ℚ) ^ (7 : ℕ) + 1 / 2⌋.toNat 7) := by
    unfold StellarManager.formatAmount
    rw [hamount, toFixed_of_nonneg a 7 hpos.le hlt]
    exact hempty _
  obtain ⟨ip, fp, hshape, hne, hip, hlen, hfp⟩ :=
    fixedDigits_shape ⌊a * (10 : ℚ) ^ (7 : ℕ) + 1 / 2⌋.toNat
  have hden := fixedDigits_denotes ⌊a * (10 : ℚ) ^ (7 : ℕ) + 1 / 2⌋.toNat
  have hplain := unsignedDecimalPrefix_plain ip fp hip hfp (Or.inl hne)
  rw [hshape, hplain, hlen] at hden
  have hval := Option.some.inj hden
  refine ⟨ip, fp, ?_, hne, hip, hlen, hfp, ?_, ?_⟩
  · rw [hrun, hshape]
  · rw [hrun]
    show unsignedDecimalPrefix (fixedDigits ⌊a * (10 : ℚ) ^ (7 : ℕ) + 1 / 2⌋.toNat 7) = _
    rw [hshape, hplain, hlen]
  · rw [hval]
    exact toFixed_integer_error hpos.le

/-- C11, amended, at a concrete input: the Number nearest to one tenth, which is a
little above it, is written with seven fraction digits. -/
theorem formatAmount_seven_decimals_witness :
    parseFloat (.string "0.1") = .finite (3602879701896397 / 36028797018963968)
    ∧ StellarManager.new.formatAmount (.number (.finite (3602879701896397 / 36028797018963968)))
      = "0.1000000"
    ∧ ∃ ip fp : List Char,
      StellarManager.new.formatAmount (.number (.finite (3602879701896397 / 36028797018963968)))
        = String.mk (ip ++ '.' :: fp)
      ∧ ip ≠ [] ∧ (∀ c ∈ ip, c.isDigit = true)
      ∧ fp.length = 7 ∧ (∀ c ∈ fp, c.isDigit = true)
      ∧ unsignedDecimalPrefix (StellarManager.new.formatAmount
            (.number (.finite (3602879701896397 / 36028797018963968)))).data
          = some ((digitsValue ip : ℚ) + (digitsValue fp : ℚ) / (10 : ℚ) ^ (7 : ℕ))
      ∧ |((digitsValue ip : ℚ) + (digitsValue fp : ℚ) / (10 : ℚ) ^ (7 : ℕ))
            - 3602879701896397 / 36028797018963968| ≤ 1 / 20000000 :=
  ⟨by decide!, by decide!,
   formatAmount_seven_decimals StellarManager.new
     (.number (.finite (3602879701896397 / 36028797018963968)))
     (3602879701896397 / 36028797018963968) rfl (by norm_num) (by norm_num)⟩
